import Mathlib

/-!
# Masternode lifecycle core (masternode.h / masternode.cpp)

A shallow embedding of the masternode entry, its ping and broadcast records and the
operations that mutate an entry, followed by theorems about them.

Modelling conventions
* C++ `int` / `int64_t` values are `Int`.  A sig_time comes off the wire and is bounded from
  above only, so the three int64_t subtractions that involve one (masternode.h, lines 182 and
  191; masternode.cpp, line 213) are reduced into [-2^63, 2^63) modulo 2^64, as the compiled
  code does.  Clocks, heights, scores and the stamp nTimeLastChecked are produced locally and
  stay far inside the range of their types; their arithmetic is exact.
* Every global collaborator read by the code (clock, chain, allow-list, payments, sync,
  active masternode, chain parameters, message signer) is a field of `Env`.  One call of an
  operation sees one `Env`: the clocks and the chain do not move during a call.
* Every global collaborator written by the code (seen caches of the registry, relay,
  sync bump, self-activation hook) is a field of `World`, threaded through the operations.
* Values of `arith_uint256` are `Nat`, reduced modulo 2^256 where the source converts a hash
  or subtracts.
* A block index with its chain of pprev ancestors is a list, newest first; a null pointer is
  the empty list.
* Log statements are dropped.
-/

namespace Masternode

/-! ## Constants (masternode.h, lines 17-23) -/

abbrev MASTERNODE_CHECK_SECONDS : Int := 5
abbrev MASTERNODE_MIN_MNB_SECONDS : Int := 5 * 60
abbrev MASTERNODE_MIN_MNP_SECONDS : Int := 10 * 60
abbrev MASTERNODE_EXPIRATION_SECONDS : Int := 65 * 60
abbrev MASTERNODE_NEW_START_REQUIRED_SECONDS : Int := 180 * 60
abbrev MASTERNODE_POSE_BAN_MAX_SCORE : Int := 5

/-! ## enum CMasternode::state (masternode.h, lines 121-128); nActiveState is an int -/

abbrev MASTERNODE_PRE_ENABLED : Int := 0
abbrev MASTERNODE_ENABLED : Int := 1
abbrev MASTERNODE_EXPIRED : Int := 2
abbrev MASTERNODE_UPDATE_REQUIRED : Int := 3
abbrev MASTERNODE_NEW_START_REQUIRED : Int := 4
abbrev MASTERNODE_POSE_BAN : Int := 5

/-! ## Data model -/

/-- A 256-bit hash value, as a natural number. -/
abbrev uint256 := Nat

/-- Bytes of a public key; the default-constructed key has no bytes. -/
abbrev CPubKey := List Nat

/-- Bytes of a script. -/
abbrev CScript := List Nat

/-- Encoded bytes of a payout address. -/
abbrev CBitcoinAddress := List Nat

/-- Network endpoint: address bytes and port. -/
structure CService where
  ip : List Nat := []
  port : Nat := 0
deriving DecidableEq, Repr

/-- The class CMasternodePing (masternode.h, lines 29-66). -/
structure CMasternodePing where
  pubKeyMasternode : CPubKey := []
  blockHash : uint256 := 0
  sigTime : Int := 0
  vchSig : List Nat := []
deriving DecidableEq, Repr

/-- The operator== of CMasternodePing (masternode.h, lines 68-71): key and block hash only. -/
def CMasternodePing.eq (a b : CMasternodePing) : Bool :=
  a.pubKeyMasternode == b.pubKeyMasternode && a.blockHash == b.blockHash

/-- The operator!= of CMasternodePing (masternode.h, lines 72-75). -/
def CMasternodePing.ne (a b : CMasternodePing) : Bool :=
  !(CMasternodePing.eq a b)

/-- The classes masternode_info_t and CMasternode (masternode.h, lines 77-248), fields only.
The constructor defaults of CMasternode() are nActiveState = MASTERNODE_ENABLED and the
value-initialised members. -/
structure CMasternode where
  nActiveState : Int := MASTERNODE_ENABLED
  nProtocolVersion : Int := 0
  sigTime : Int := 0
  addr : CService := {}
  pubKeyMasternode : CPubKey := []
  payee : CBitcoinAddress := []
  nLastDsq : Int := 0
  nTimeLastChecked : Int := 0
  nTimeLastPaid : Int := 0
  nTimeLastPing : Int := 0
  fInfoValid : Bool := false
  lastPing : CMasternodePing := {}
  vchSig : List Nat := []
  nCollateralMinConfBlockHash : uint256 := 0
  nBlockLastPaid : Int := 0
  nPoSeBanScore : Int := 0
  nPoSeBanHeight : Int := 0
  fUnitTest : Bool := false
deriving DecidableEq, Repr

/-- The class CMasternodeBroadcast (masternode.h, lines 264-316): an entry plus fRecovery. -/
structure CMasternodeBroadcast extends CMasternode where
  fRecovery : Bool := false
deriving DecidableEq, Repr

/-- A block index record as far as this file reads it. -/
structure CBlockIndex where
  nHeight : Int
  nTime : Int
  hash : uint256
deriving DecidableEq, Repr

/-- One value written to a CHashWriter with operator<<. -/
inductive SerItem where
  | pubkey (k : CPubKey)
  | address (a : CBitcoinAddress)
  | int64 (n : Int)
  | hash256 (h : uint256)
deriving DecidableEq, Repr

/-- Inventory tags used by Relay. -/
inductive InvType where
  | MSG_MASTERNODE_ANNOUNCE
  | MSG_MASTERNODE_PING
deriving DecidableEq, Repr

/-- An inventory item handed to connman.RelayInv. -/
structure CInv where
  type : InvType
  hash : uint256
deriving DecidableEq, Repr

/-- A private key, as CMessageSigner::SignMessage receives it. -/
abbrev CKey := List Nat

/-- One output of a transaction: the script it pays and the amount. -/
structure CTxOut where
  scriptPubKey : CScript
  nValue : Int
deriving DecidableEq, Repr

/-- A block read from disk as far as UpdateLastPaid reads it: the value vtx[0].GetValueOut()
and the outputs vtx[0].vout of its first transaction. -/
structure CBlock where
  nValueOut : Int
  vout : List CTxOut
deriving DecidableEq, Repr

/-- Everything the code reads from its collaborators during one call. -/
structure Env where
  /-- The result of ShutdownRequested(). -/
  ShutdownRequested : Bool
  /-- The result of GetTime(): the local wall clock. -/
  GetTime : Int
  /-- The result of GetAdjustedTime(): network-adjusted time. -/
  GetAdjustedTime : Int
  /-- The allow-list masternodeListManager.IsMNActive. -/
  IsMNActive : CPubKey → Bool
  /-- The result of chainActive.Height(). -/
  chainHeight : Int
  /-- The result of mnodeman.size(): number of registry entries. -/
  mnodemanSize : Nat
  /-- The global fMasterNode. -/
  fMasterNode : Bool
  /-- The key activeMasternode.pubKeyMasternode. -/
  activePubKeyMasternode : CPubKey
  /-- The result of mnpayments.GetMinMasternodePaymentsProto(). -/
  GetMinMasternodePaymentsProto : Int
  /-- The build constant PROTOCOL_VERSION. -/
  PROTOCOL_VERSION : Int
  /-- The result of masternodeSync.IsMasternodeListSynced(). -/
  IsMasternodeListSynced : Bool
  /-- The result of Params().NetworkIDString(). -/
  NetworkIDString : String
  /-- The result of Params(CBaseChainParams::MAIN).GetDefaultPort(). -/
  mainnetDefaultPort : Nat
  /-- The method CNetAddr::IsIPv4. -/
  IsIPv4 : CService → Bool
  /-- The function IsReachable of the net layer. -/
  IsReachable : CService → Bool
  /-- The method CNetAddr::IsRoutable. -/
  IsRoutable : CService → Bool
  /-- The script GetScriptForDestination(payee.Get()). -/
  scriptForPayee : CBitcoinAddress → CScript
  /-- The script GetScriptForDestination(pubKey.GetID()). -/
  scriptForKeyID : CPubKey → CScript
  /-- The lookup mapBlockIndex.find: none when the hash is absent, some none for a stored
  null pointer. -/
  mapBlockIndex : uint256 → Option (Option CBlockIndex)
  /-- The function CMessageSigner::VerifyMessage. -/
  VerifyMessage : CPubKey → List Nat → String → Bool
  /-- The string addr.ToString(false). -/
  addrToString : CService → String
  /-- The string pubKey.GetID().ToString(). -/
  keyIDToString : CPubKey → String
  /-- The string payee.ToString(). -/
  payeeToString : CBitcoinAddress → String
  /-- The string blockHash.ToString(). -/
  hashToString : uint256 → String
  /-- The digest CHashWriter::GetHash of the values written so far. -/
  HashWriter : List SerItem → uint256
  /-- The global fDIP0001WasLockedIn. -/
  fDIP0001WasLockedIn : Bool
  /-- The digest CPubKey::GetHash of a key. -/
  pubKeyGetHash : CPubKey → uint256
  /-- The global fImporting. -/
  fImporting : Bool
  /-- The global fReindex. -/
  fReindex : Bool
  /-- Whether chainActive.Tip() is non-null. -/
  chainHasTip : Bool
  /-- The hash chainActive[h]->GetBlockHash() of the active-chain block at height h. -/
  chainBlockHash : Int → uint256
  /-- The function CMessageSigner::SignMessage: the signature, or none when signing fails. -/
  SignMessage : String → CKey → Option (List Nat)
  /-- The test mnpayments.mapMasternodeBlocks.count(h) &&
  mnpayments.mapMasternodeBlocks[h].HasPayeeWithVotes(script, votes). -/
  HasPayeeWithVotes : Int → CScript → Int → Bool
  /-- The function ReadBlockFromDisk: none when the block cannot be read. -/
  ReadBlockFromDisk : CBlockIndex → Option CBlock
  /-- The function GetMasternodePayment of a height and a block value. -/
  GetMasternodePayment : Int → Int → Int

/-- The names CBaseChainParams::MAIN and CBaseChainParams::REGTEST. -/
abbrev CBaseChainParams_MAIN : String := "main"
abbrev CBaseChainParams_REGTEST : String := "regtest"

/-- Everything the code writes to its collaborators. -/
structure World where
  /-- The cache mnodeman.mapSeenMasternodePing, as an association list. -/
  mapSeenMasternodePing : List (uint256 × CMasternodePing) := []
  /-- The cache mnodeman.mapSeenMasternodeBroadcast; the value is a pair whose second
  component is the broadcast. -/
  mapSeenMasternodeBroadcast : List (uint256 × (Int × CMasternodeBroadcast)) := []
  /-- Inventory items passed to connman.RelayInv, newest first. -/
  relayed : List CInv := []
  /-- Labels passed to masternodeSync.BumpAssetLastTime, newest first. -/
  bumped : List String := []
  /-- Number of calls of activeMasternode.ManageState. -/
  manageStateCalls : Nat := 0
deriving DecidableEq, Repr

/-! ## The int64_t subtractions that involve a sig_time -/

/-- The value an int64_t holds for the exact result x of a subtraction: x reduced into
[-2^63, 2^63) modulo 2^64. -/
def int64_wrap (x : Int) : Int :=
  (x + 2 ^ 63) % 2 ^ 64 - 2 ^ 63

/-- The exact difference a - b fits an int64_t: the subtraction does not overflow. -/
def SubFits (a b : Int) : Prop :=
  -2 ^ 63 ≤ a - b ∧ a - b < 2 ^ 63

instance (a b : Int) : Decidable (SubFits a b) :=
  inferInstanceAs (Decidable (_ ∧ _))

/-! ## Inline members of CMasternode (masternode.h, lines 182-224) -/

/-- The member IsBroadcastedWithin (masternode.h, line 182). -/
def CMasternode.IsBroadcastedWithin (env : Env) (mn : CMasternode) (nSeconds : Int) : Bool :=
  decide (int64_wrap (env.GetAdjustedTime - mn.sigTime) < nSeconds)

/-- The member IsPingedWithin (masternode.h, lines 184-192); the default argument -1 of
nTimeToCheckAt is passed explicitly. -/
def CMasternode.IsPingedWithin (env : Env) (mn : CMasternode) (nSeconds : Int)
    (nTimeToCheckAt : Int) : Bool :=
  if CMasternodePing.eq mn.lastPing {} then false
  else
    let t := if nTimeToCheckAt == -1 then env.GetAdjustedTime else nTimeToCheckAt
    decide (int64_wrap (t - mn.lastPing.sigTime) < nSeconds)

def CMasternode.IsEnabled (mn : CMasternode) : Bool :=
  mn.nActiveState == MASTERNODE_ENABLED

def CMasternode.IsPreEnabled (mn : CMasternode) : Bool :=
  mn.nActiveState == MASTERNODE_PRE_ENABLED

def CMasternode.IsPoSeBanned (mn : CMasternode) : Bool :=
  mn.nActiveState == MASTERNODE_POSE_BAN

def CMasternode.IsExpired (mn : CMasternode) : Bool :=
  mn.nActiveState == MASTERNODE_EXPIRED

def CMasternode.IsUpdateRequired (mn : CMasternode) : Bool :=
  mn.nActiveState == MASTERNODE_UPDATE_REQUIRED

def CMasternode.IsNewStartRequired (mn : CMasternode) : Bool :=
  mn.nActiveState == MASTERNODE_NEW_START_REQUIRED

/-- The member IncreasePoSeBanScore (masternode.h, line 222). -/
def CMasternode.IncreasePoSeBanScore (mn : CMasternode) : CMasternode :=
  if mn.nPoSeBanScore < MASTERNODE_POSE_BAN_MAX_SCORE then
    { mn with nPoSeBanScore := mn.nPoSeBanScore + 1 }
  else mn

/-- The member DecreasePoSeBanScore (masternode.h, line 223). -/
def CMasternode.DecreasePoSeBanScore (mn : CMasternode) : CMasternode :=
  if mn.nPoSeBanScore > -MASTERNODE_POSE_BAN_MAX_SCORE then
    { mn with nPoSeBanScore := mn.nPoSeBanScore - 1 }
  else mn

/-- The member PoSeBan (masternode.h, line 224). -/
def CMasternode.PoSeBan (mn : CMasternode) : CMasternode :=
  { mn with nPoSeBanScore := MASTERNODE_POSE_BAN_MAX_SCORE }

/-! ## CMasternode::Check (masternode.cpp, lines 117-227) -/

/-- The local fOurMasternode of Check (masternode.cpp, line 160). -/
def CMasternode.fOurMasternode (env : Env) (mn : CMasternode) : Bool :=
  env.fMasterNode && (env.activePubKeyMasternode == mn.pubKeyMasternode)

/-- The local fRequireUpdate of Check (masternode.cpp, lines 163-165). -/
def CMasternode.fRequireUpdate (env : Env) (mn : CMasternode) : Bool :=
  decide (mn.nProtocolVersion < env.GetMinMasternodePaymentsProto) ||
    (mn.fOurMasternode env && decide (mn.nProtocolVersion < env.PROTOCOL_VERSION))

/-- The local fWaitForPing of Check (masternode.cpp, line 177). -/
def CMasternode.fWaitForPing (env : Env) (mn : CMasternode) : Bool :=
  !env.IsMasternodeListSynced && !mn.IsPingedWithin env MASTERNODE_MIN_MNP_SECONDS (-1)

/-- Lines 159-227 of Check: the part after the PoSe-ban block.  Each branch is one of the
source's return statements, in source order; a test nested in an if-block of the source
(lines 179-186 and 189-211) is written as the conjunction of the outer and the inner test. -/
def CMasternode.CheckStates (env : Env) (mn : CMasternode) : CMasternode :=
  if mn.fRequireUpdate env then
    { mn with nActiveState := MASTERNODE_UPDATE_REQUIRED }
  else if (mn.fWaitForPing env && !mn.fOurMasternode env) &&
      (mn.IsExpired || mn.IsNewStartRequired) then
    mn
  else if (!mn.fWaitForPing env || mn.fOurMasternode env) &&
      !mn.IsPingedWithin env MASTERNODE_NEW_START_REQUIRED_SECONDS (-1) then
    { mn with nActiveState := MASTERNODE_NEW_START_REQUIRED }
  else if (!mn.fWaitForPing env || mn.fOurMasternode env) &&
      !mn.IsPingedWithin env MASTERNODE_EXPIRATION_SECONDS (-1) then
    { mn with nActiveState := MASTERNODE_EXPIRED }
  else if int64_wrap (mn.lastPing.sigTime - mn.sigTime) < MASTERNODE_MIN_MNP_SECONDS then
    { mn with nActiveState := MASTERNODE_PRE_ENABLED }
  else
    { mn with nActiveState := MASTERNODE_ENABLED }

/-- Lines 132-227 of Check: everything after nTimeLastChecked has been stamped. -/
def CMasternode.CheckListed (env : Env) (mn : CMasternode) : CMasternode :=
  if !env.IsMNActive mn.pubKeyMasternode then mn
  else
    let nHeight := env.chainHeight
    if mn.IsPoSeBanned then
      if nHeight < mn.nPoSeBanHeight then mn
      else mn.DecreasePoSeBanScore.CheckStates env
    else if mn.nPoSeBanScore ≥ MASTERNODE_POSE_BAN_MAX_SCORE then
      { mn with nActiveState := MASTERNODE_POSE_BAN,
                nPoSeBanHeight := nHeight + (env.mnodemanSize : Int) }
    else mn.CheckStates env

/-- The method CMasternode::Check (masternode.cpp, lines 117-227). -/
def CMasternode.Check (env : Env) (fForce : Bool) (mn : CMasternode) : CMasternode :=
  if env.ShutdownRequested then mn
  else if !fForce && decide (env.GetTime - mn.nTimeLastChecked < MASTERNODE_CHECK_SECONDS) then mn
  else CMasternode.CheckListed env { mn with nTimeLastChecked := env.GetTime }

/-! ## std::map operations used on the seen caches -/

/-- The member std::map::count, as a Boolean. -/
def mapCount {V : Type} (m : List (uint256 × V)) (k : uint256) : Bool :=
  m.any (fun p => p.1 == k)

/-- The member std::map::insert: an existing key keeps its value. -/
def mapInsert {V : Type} (m : List (uint256 × V)) (k : uint256) (v : V) : List (uint256 × V) :=
  if mapCount m k then m else (k, v) :: m

/-- An assignment through std::map::operator[] to a key that is present. -/
def mapModify {V : Type} (m : List (uint256 × V)) (k : uint256) (f : V → V) :
    List (uint256 × V) :=
  m.map (fun p => if p.1 == k then (p.1, f p.2) else p)

/-! ## Result records: the return value together with every out-parameter -/

/-- Return value and nDos. -/
structure CheckResult where
  ret : Bool
  nDos : Int
deriving DecidableEq, Repr

/-- Outcome of CMasternodeBroadcast::SimpleCheck: return value, nDos, the broadcast after
the call. -/
structure BroadcastCheckResult where
  ret : Bool
  nDos : Int
  mnb : CMasternodeBroadcast
deriving DecidableEq, Repr

/-- Outcome of CMasternodePing::CheckAndUpdate: return value, nDos, the entry behind pmn
after the call, the collaborators after the call. -/
structure PingUpdateResult where
  ret : Bool
  nDos : Int
  pmn : Option CMasternode
  world : World
deriving DecidableEq, Repr

/-- Outcome of CMasternode::UpdateFromNewBroadcast. -/
structure MergeResult where
  ret : Bool
  mn : CMasternode
  world : World
deriving DecidableEq, Repr

/-- Outcome of CMasternodeBroadcast::Update. -/
structure UpdateResult where
  ret : Bool
  nDos : Int
  pmn : CMasternode
  world : World
deriving DecidableEq, Repr

/-! ## Hashes and relay (masternode.h, lines 51-57 and 290-297; masternode.cpp, 602-606, 772-776) -/

/-- The method CMasternodePing::GetHash. -/
def CMasternodePing.GetHash (env : Env) (mnp : CMasternodePing) : uint256 :=
  env.HashWriter [SerItem.pubkey mnp.pubKeyMasternode, SerItem.int64 mnp.sigTime]

/-- The method CMasternodeBroadcast::GetHash. -/
def CMasternodeBroadcast.GetHash (env : Env) (mnb : CMasternodeBroadcast) : uint256 :=
  env.HashWriter [SerItem.pubkey mnb.pubKeyMasternode, SerItem.address mnb.payee,
    SerItem.int64 mnb.sigTime]

/-- The method CMasternodePing::Relay. -/
def CMasternodePing.Relay (env : Env) (w : World) (mnp : CMasternodePing) : World :=
  { w with relayed := { type := InvType.MSG_MASTERNODE_PING, hash := mnp.GetHash env } :: w.relayed }

/-- The method CMasternodeBroadcast::Relay. -/
def CMasternodeBroadcast.Relay (env : Env) (w : World) (mnb : CMasternodeBroadcast) : World :=
  { w with relayed :=
      { type := InvType.MSG_MASTERNODE_ANNOUNCE, hash := mnb.GetHash env } :: w.relayed }

/-- The call masternodeSync.BumpAssetLastTime(label). -/
def BumpAssetLastTime (w : World) (label : String) : World :=
  { w with bumped := label :: w.bumped }

/-! ## CMasternodePing (masternode.cpp, lines 640-770) -/

/-- The signed string of a ping (masternode.cpp, lines 642-643). -/
def CMasternodePing.strMessage (env : Env) (mnp : CMasternodePing) (pubKeyMasternode : CPubKey) :
    String :=
  env.keyIDToString pubKeyMasternode ++ env.hashToString mnp.blockHash ++ toString mnp.sigTime

/-- The method CMasternodePing::CheckSignature (masternode.cpp, lines 640-654). -/
def CMasternodePing.CheckSignature (env : Env) (mnp : CMasternodePing)
    (pubKeyMasternode : CPubKey) : CheckResult :=
  if !env.VerifyMessage pubKeyMasternode mnp.vchSig (mnp.strMessage env pubKeyMasternode) then
    { ret := false, nDos := 33 }
  else { ret := true, nDos := 0 }

/-- The method CMasternodePing::SimpleCheck (masternode.cpp, lines 656-682). -/
def CMasternodePing.SimpleCheck (env : Env) (mnp : CMasternodePing) : CheckResult :=
  if mnp.sigTime > env.GetAdjustedTime + 60 * 60 then { ret := false, nDos := 1 }
  else
    match env.mapBlockIndex mnp.blockHash with
    | none => { ret := false, nDos := 0 }
    | some _ => { ret := true, nDos := 0 }

/-- Lines 750-769 of CheckAndUpdate: store the ping, patch the seen-broadcast cache, force a
Check, relay when the entry is ENABLED. -/
def CMasternodePing.install (env : Env) (w : World) (mnp : CMasternodePing) (mn : CMasternode)
    (nDos : Int) : PingUpdateResult :=
  let mn1 : CMasternode := { mn with lastPing := mnp }
  let mnb : CMasternodeBroadcast := { toCMasternode := mn1, fRecovery := false }
  let hash := mnb.GetHash env
  let patched := mapModify w.mapSeenMasternodeBroadcast hash
    (fun v => (v.1, { v.2 with lastPing := mnp }))
  let w1 : World :=
    if mapCount w.mapSeenMasternodeBroadcast hash then
      { w with mapSeenMasternodeBroadcast := patched }
    else w
  let mn2 := mn1.Check env true
  if !mn2.IsEnabled then { ret := false, nDos := nDos, pmn := some mn2, world := w1 }
  else { ret := true, nDos := nDos, pmn := some mn2, world := mnp.Relay env w1 }

/-- The method CMasternodePing::CheckAndUpdate (masternode.cpp, lines 684-770).  The result
is none exactly when the second block-index lookup (line 715) misses and the iterator end()
is dereferenced, which has no defined behaviour. -/
def CMasternodePing.CheckAndUpdate (env : Env) (w : World) (mnp : CMasternodePing)
    (pmn : Option CMasternode) (fFromNewBroadcast : Bool) : Option PingUpdateResult :=
  let sc := mnp.SimpleCheck env
  if !sc.ret then some { ret := false, nDos := sc.nDos, pmn := pmn, world := w }
  else
    match pmn with
    | none => some { ret := false, nDos := sc.nDos, pmn := none, world := w }
    | some mn =>
      if !fFromNewBroadcast && mn.IsUpdateRequired then
        some { ret := false, nDos := sc.nDos, pmn := some mn, world := w }
      else if !fFromNewBroadcast && mn.IsNewStartRequired then
        some { ret := false, nDos := sc.nDos, pmn := some mn, world := w }
      else
        match env.mapBlockIndex mnp.blockHash with
        | none => none
        | some pindex =>
          if (match pindex with
              | some bi => decide (bi.nHeight < env.chainHeight - 24)
              | none => false) then
            some { ret := false, nDos := sc.nDos, pmn := some mn, world := w }
          else if mn.IsPingedWithin env (MASTERNODE_MIN_MNP_SECONDS - 60) mnp.sigTime then
            some { ret := false, nDos := sc.nDos, pmn := some mn, world := w }
          else
            let cs := mnp.CheckSignature env mn.pubKeyMasternode
            if !cs.ret then some { ret := false, nDos := cs.nDos, pmn := some mn, world := w }
            else
              let w1 : World :=
                if !env.IsMasternodeListSynced &&
                    !mn.IsPingedWithin env (MASTERNODE_EXPIRATION_SECONDS / 2) (-1) then
                  BumpAssetLastTime w "CMasternodePing::CheckAndUpdate"
                else w
              some (mnp.install env w1 mn cs.nDos)

/-! ## CMasternode::UpdateFromNewBroadcast (masternode.cpp, lines 52-85) -/

/-- Lines 68-69: store the ping of the broadcast and insert it into the seen-ping cache. -/
def CMasternode.takePing (env : Env) (w : World) (mn : CMasternode) (mnp : CMasternodePing) :
    CMasternode × World :=
  let mn1 : CMasternode := { mn with lastPing := mnp }
  (mn1, { w with mapSeenMasternodePing :=
            mapInsert w.mapSeenMasternodePing (mn1.lastPing.GetHash env) mn1.lastPing })

/-- Lines 71-84: the branch for the locally operated masternode and the return value. -/
def CMasternode.finishMerge (env : Env) (w : World) (mn : CMasternode) : MergeResult :=
  if env.fMasterNode && (mn.pubKeyMasternode == env.activePubKeyMasternode) then
    let mn1 : CMasternode := { mn with nPoSeBanScore := -MASTERNODE_POSE_BAN_MAX_SCORE }
    if mn1.nProtocolVersion == env.PROTOCOL_VERSION then
      { ret := true, mn := mn1, world := { w with manageStateCalls := w.manageStateCalls + 1 } }
    else { ret := false, mn := mn1, world := w }
  else { ret := true, mn := mn, world := w }

/-- The method CMasternode::UpdateFromNewBroadcast (masternode.cpp, lines 52-85); none is
propagated from CheckAndUpdate. -/
def CMasternode.UpdateFromNewBroadcast (env : Env) (w : World) (mn : CMasternode)
    (mnb : CMasternodeBroadcast) : Option MergeResult :=
  if decide (mnb.sigTime ≤ mn.sigTime) && !mnb.fRecovery then
    some { ret := false, mn := mn, world := w }
  else
    let mn1 : CMasternode :=
      { mn with pubKeyMasternode := mnb.pubKeyMasternode,
                sigTime := mnb.sigTime,
                vchSig := mnb.vchSig,
                nProtocolVersion := mnb.nProtocolVersion,
                addr := mnb.addr,
                nPoSeBanScore := 0,
                nPoSeBanHeight := 0,
                nTimeLastChecked := 0 }
    if CMasternodePing.eq mnb.lastPing {} then
      let r := mn1.takePing env w mnb.lastPing
      some (r.1.finishMerge env r.2)
    else
      match mnb.lastPing.CheckAndUpdate env w (some mn1) true with
      | none => none
      | some c =>
        let mn2 := c.pmn.getD mn1
        if c.ret then
          let r := mn2.takePing env c.world mnb.lastPing
          some (r.1.finishMerge env r.2)
        else some (mn2.finishMerge env c.world)

/-! ## CMasternodeBroadcast (masternode.cpp, lines 229-240 and 401-600) -/

/-- The static CMasternode::IsValidNetAddr (masternode.cpp, lines 234-240). -/
def IsValidNetAddr (env : Env) (addrIn : CService) : Bool :=
  env.NetworkIDString == CBaseChainParams_REGTEST ||
    (env.IsIPv4 addrIn && env.IsReachable addrIn && env.IsRoutable addrIn)

/-- The signed string of a broadcast (masternode.cpp, lines 583-586). -/
def CMasternodeBroadcast.strMessage (env : Env) (mnb : CMasternodeBroadcast) : String :=
  env.addrToString mnb.addr ++ toString mnb.sigTime ++ env.keyIDToString mnb.pubKeyMasternode ++
    env.payeeToString mnb.payee ++ toString mnb.nProtocolVersion

/-- The method CMasternodeBroadcast::CheckSignature (masternode.cpp, lines 577-600). -/
def CMasternodeBroadcast.CheckSignature (env : Env) (mnb : CMasternodeBroadcast) : CheckResult :=
  if !env.VerifyMessage mnb.pubKeyMasternode mnb.vchSig (mnb.strMessage env) then
    { ret := false, nDos := 100 }
  else { ret := true, nDos := 0 }

/-- The method CMasternodeBroadcast::SimpleCheck (masternode.cpp, lines 401-460). -/
def CMasternodeBroadcast.SimpleCheck (env : Env) (mnb : CMasternodeBroadcast) :
    BroadcastCheckResult :=
  if !IsValidNetAddr env mnb.addr then { ret := false, nDos := 0, mnb := mnb }
  else if mnb.sigTime > env.GetAdjustedTime + 60 * 60 then { ret := false, nDos := 1, mnb := mnb }
  else
    let fEmpty := CMasternodePing.eq mnb.lastPing {}
    let sc := mnb.lastPing.SimpleCheck env
    let nDos1 : Int := if fEmpty then 0 else sc.nDos
    let mnb1 : CMasternodeBroadcast :=
      if fEmpty || !sc.ret then { mnb with nActiveState := MASTERNODE_EXPIRED } else mnb
    if mnb1.nProtocolVersion < env.GetMinMasternodePaymentsProto then
      { ret := false, nDos := nDos1, mnb := mnb1 }
    else if (env.scriptForPayee mnb1.payee).length != 25 then
      { ret := false, nDos := 100, mnb := mnb1 }
    else if (env.scriptForKeyID mnb1.pubKeyMasternode).length != 25 then
      { ret := false, nDos := 100, mnb := mnb1 }
    else if env.NetworkIDString == CBaseChainParams_MAIN then
      if mnb1.addr.port != env.mainnetDefaultPort then { ret := false, nDos := nDos1, mnb := mnb1 }
      else { ret := true, nDos := nDos1, mnb := mnb1 }
    else if mnb1.addr.port == env.mainnetDefaultPort then
      { ret := false, nDos := nDos1, mnb := mnb1 }
    else { ret := true, nDos := nDos1, mnb := mnb1 }

/-- The method CMasternodeBroadcast::Update (masternode.cpp, lines 462-515); pmn is
dereferenced unconditionally, so it is an entry.  The call payee.CompareTo(...) != 0 is
inequality of the two addresses; none is propagated from CheckAndUpdate. -/
def CMasternodeBroadcast.Update (env : Env) (w : World) (mnb : CMasternodeBroadcast)
    (pmn : CMasternode) : Option UpdateResult :=
  if pmn.sigTime == mnb.sigTime && !mnb.fRecovery then
    some { ret := false, nDos := 0, pmn := pmn, world := w }
  else if pmn.sigTime > mnb.sigTime then
    some { ret := false, nDos := 0, pmn := pmn, world := w }
  else
    let pmn1 := pmn.Check env false
    if pmn1.IsPoSeBanned then some { ret := false, nDos := 0, pmn := pmn1, world := w }
    else if pmn1.payee != mnb.payee then some { ret := false, nDos := 33, pmn := pmn1, world := w }
    else
      let cs := mnb.CheckSignature env
      if !cs.ret then some { ret := false, nDos := cs.nDos, pmn := pmn1, world := w }
      else if !pmn1.IsBroadcastedWithin env MASTERNODE_MIN_MNB_SECONDS ||
          (env.fMasterNode && (mnb.pubKeyMasternode == env.activePubKeyMasternode)) then
        match pmn1.UpdateFromNewBroadcast env w mnb with
        | none => none
        | some m =>
          let pmn2 := if m.ret then m.mn.Check env false else m.mn
          let w2 := if m.ret then mnb.Relay env m.world else m.world
          some { ret := true, nDos := cs.nDos, pmn := pmn2,
                 world := BumpAssetLastTime w2 "CMasternodeBroadcast::Update" }
      else some { ret := true, nDos := cs.nDos, pmn := pmn1, world := w }

/-! ## The decision tree of the State Evaluator, written from the specification (§4.4)

These definitions follow the pseudo-code of the specification, not the source; they are
compared with `CMasternode.Check` below. -/

/-- The three policy fields the decision tree assigns. -/
structure PolicyState where
  active_state : Int
  pose_ban_score : Int
  pose_ban_height : Int
deriving DecidableEq, Repr

/-- Outcome of one group of rules: either the tree returns, or it falls through. -/
inductive TreeStep where
  | returns (s : PolicyState)
  | fallsThrough (s : PolicyState)
deriving DecidableEq, Repr

/-- Spec: `is_self := (we operate a masternode && our pubkey == entry.pubkey)`. -/
def spec_is_self (env : Env) (entry : CMasternode) : Prop :=
  env.fMasterNode = true ∧ env.activePubKeyMasternode = entry.pubKeyMasternode

instance (env : Env) (entry : CMasternode) : Decidable (spec_is_self env entry) :=
  inferInstanceAs (Decidable (_ ∧ _))

/-- Spec: a ping record is empty when it equals the empty record under the ping identity
`(pub_key_masternode, block_hash)` of §3. -/
def spec_ping_empty (ping : CMasternodePing) : Prop :=
  ping.pubKeyMasternode = [] ∧ ping.blockHash = 0

instance (ping : CMasternodePing) : Decidable (spec_ping_empty ping) :=
  inferInstanceAs (Decidable (_ ∧ _))

/-- Spec: `pinged_within(n)`: there is a last ping and it was signed less than n seconds
before network-adjusted time. -/
def spec_pinged_within (env : Env) (entry : CMasternode) (n : Int) : Prop :=
  ¬ spec_ping_empty entry.lastPing ∧ env.GetAdjustedTime - entry.lastPing.sigTime < n

instance (env : Env) (entry : CMasternode) (n : Int) :
    Decidable (spec_pinged_within env entry n) :=
  inferInstanceAs (Decidable (_ ∧ _))

/-- Spec: `require_update := entry.protocol_version < payments.min_proto()
|| (is_self && entry.protocol_version < our_protocol_version)`. -/
def spec_require_update (env : Env) (entry : CMasternode) : Prop :=
  entry.nProtocolVersion < env.GetMinMasternodePaymentsProto ∨
    (spec_is_self env entry ∧ entry.nProtocolVersion < env.PROTOCOL_VERSION)

instance (env : Env) (entry : CMasternode) : Decidable (spec_require_update env entry) :=
  inferInstanceAs (Decidable (_ ∨ _))

/-- Spec: `wait_for_ping := !sync.is_list_synced() && !pinged_within(MIN_MNP)`. -/
def spec_wait_for_ping (env : Env) (entry : CMasternode) : Prop :=
  env.IsMasternodeListSynced = false ∧ ¬ spec_pinged_within env entry 600

instance (env : Env) (entry : CMasternode) : Decidable (spec_wait_for_ping env entry) :=
  inferInstanceAs (Decidable (_ ∧ _))

/-- Spec: `decrement pose_ban_score`, on a field that §3 declares clamped to [-MAX, +MAX]:
a score already at the lower clamp stays where it is. -/
def spec_decrement (score : Int) : Int :=
  if -5 < score then score - 1 else score

/-- Spec: the PoSe-ban rules of the tree (`if entry.is_pose_banned ... else if
entry.pose_ban_score >= MAX_SCORE ...`). -/
def spec_ban_rules (env : Env) (entry : CMasternode) : TreeStep :=
  let s : PolicyState := ⟨entry.nActiveState, entry.nPoSeBanScore, entry.nPoSeBanHeight⟩
  if entry.nActiveState = MASTERNODE_POSE_BAN then
    if env.chainHeight < entry.nPoSeBanHeight then TreeStep.returns s
    else TreeStep.fallsThrough { s with pose_ban_score := spec_decrement s.pose_ban_score }
  else if entry.nPoSeBanScore ≥ 5 then
    TreeStep.returns { s with active_state := MASTERNODE_POSE_BAN,
                              pose_ban_height := env.chainHeight + (env.mnodemanSize : Int) }
  else TreeStep.fallsThrough s

/-- Spec: the rules after the PoSe-ban rules, first match wins. -/
def spec_state_rules (env : Env) (entry : CMasternode) (s : PolicyState) : PolicyState :=
  if spec_require_update env entry then { s with active_state := MASTERNODE_UPDATE_REQUIRED }
  else if (spec_wait_for_ping env entry ∧ ¬ spec_is_self env entry) ∧
      (entry.nActiveState = MASTERNODE_EXPIRED ∨
        entry.nActiveState = MASTERNODE_NEW_START_REQUIRED) then s
  else if (¬ spec_wait_for_ping env entry ∨ spec_is_self env entry) ∧
      ¬ spec_pinged_within env entry (180 * 60) then
    { s with active_state := MASTERNODE_NEW_START_REQUIRED }
  else if (¬ spec_wait_for_ping env entry ∨ spec_is_self env entry) ∧
      ¬ spec_pinged_within env entry (65 * 60) then
    { s with active_state := MASTERNODE_EXPIRED }
  else if entry.lastPing.sigTime - entry.sigTime < 600 then
    { s with active_state := MASTERNODE_PRE_ENABLED }
  else { s with active_state := MASTERNODE_ENABLED }

/-- Spec: the whole decision tree of §4.4, from the allow-list test on. -/
def spec_evaluate (env : Env) (entry : CMasternode) : PolicyState :=
  if env.IsMNActive entry.pubKeyMasternode = false then
    ⟨entry.nActiveState, entry.nPoSeBanScore, entry.nPoSeBanHeight⟩
  else
    match spec_ban_rules env entry with
    | TreeStep.returns s => s
    | TreeStep.fallsThrough s => spec_state_rules env entry s

/-- The policy fields of an entry. -/
def CMasternode.policy (mn : CMasternode) : PolicyState :=
  ⟨mn.nActiveState, mn.nPoSeBanScore, mn.nPoSeBanHeight⟩

/-- The score lies within the clamp [-MAX, +MAX]. -/
def CMasternode.ScoreInRange (mn : CMasternode) : Prop :=
  -MASTERNODE_POSE_BAN_MAX_SCORE ≤ mn.nPoSeBanScore ∧
    mn.nPoSeBanScore ≤ MASTERNODE_POSE_BAN_MAX_SCORE

/-- Two entries agree on the fields a broadcast signs or carries: key, payee, sig_time,
signature, address and protocol version. -/
def CMasternode.SameIdentity (a b : CMasternode) : Prop :=
  a.pubKeyMasternode = b.pubKeyMasternode ∧ a.payee = b.payee ∧ a.sigTime = b.sigTime ∧
    a.vchSig = b.vchSig ∧ a.addr = b.addr ∧ a.nProtocolVersion = b.nProtocolVersion

/-! ## CalculateScore (masternode.cpp, lines 92-115) -/

/-- The conversion UintToArith256: the 256-bit number a hash value stands for. -/
def UintToArith256 (h : uint256) : Nat :=
  h % 2 ^ 256

/-- The conversion ArithToUint256. -/
def ArithToUint256 (a : Nat) : uint256 :=
  a % 2 ^ 256

/-- The operator- of arith_uint256: the sum of a and the 256-bit negation of b, modulo
2^256. -/
def arith_uint256_sub (a b : Nat) : Nat :=
  (a + (2 ^ 256 - b % 2 ^ 256)) % 2 ^ 256

/-- The method CMasternode::CalculateScore (masternode.cpp, lines 92-115). It assigns no
member of the entry, so the embedding returns the score only. -/
def CMasternode.CalculateScore (env : Env) (mn : CMasternode) (blockHash : uint256) : Nat :=
  if env.fDIP0001WasLockedIn then
    UintToArith256 (env.HashWriter [SerItem.pubkey mn.pubKeyMasternode,
      SerItem.hash256 mn.nCollateralMinConfBlockHash, SerItem.hash256 blockHash])
  else
    let aux := ArithToUint256 (UintToArith256 (env.pubKeyGetHash mn.pubKeyMasternode))
    let hash2 := UintToArith256 (env.HashWriter [SerItem.hash256 blockHash])
    let hash3 := UintToArith256 (env.HashWriter [SerItem.hash256 blockHash, SerItem.hash256 aux])
    if hash3 > hash2 then arith_uint256_sub hash3 hash2 else arith_uint256_sub hash2 hash3

/-! ## Signing and Create (masternode.cpp, lines 361-399, 517-550, 608-638) -/

/-- The constructor CMasternodePing(const CPubKey&) (masternode.cpp, lines 608-616): without
a tip, or with the tip below height 12, it returns early and every member keeps its default. -/
def CMasternodePing.construct (env : Env) (pubKey : CPubKey) : CMasternodePing :=
  if !env.chainHasTip || decide (env.chainHeight < 12) then {}
  else
    { pubKeyMasternode := pubKey,
      blockHash := env.chainBlockHash (env.chainHeight - 12),
      sigTime := env.GetAdjustedTime }

/-- The result of a Sign method: the return value and the object after the call. -/
structure SignResult (α : Type) where
  ret : Bool
  obj : α

/-- The method CMasternodePing::Sign (masternode.cpp, lines 618-638). The parameter
pubKeyMasternode hides the member of the same name. A failed SignMessage is taken to leave
vchSig as it was. -/
def CMasternodePing.Sign (env : Env) (mnp : CMasternodePing) (keyMasternode : CKey)
    (pubKeyMasternode : CPubKey) : SignResult CMasternodePing :=
  let mnp1 := { mnp with sigTime := env.GetAdjustedTime }
  let strMessage := env.keyIDToString pubKeyMasternode ++ env.hashToString mnp1.blockHash ++
    toString mnp1.sigTime
  match env.SignMessage strMessage keyMasternode with
  | none => { ret := false, obj := mnp1 }
  | some sig =>
    let mnp2 := { mnp1 with vchSig := sig }
    if !env.VerifyMessage pubKeyMasternode mnp2.vchSig strMessage then
      { ret := false, obj := mnp2 }
    else { ret := true, obj := mnp2 }

/-- The method CMasternodeBroadcast::Sign (masternode.cpp, lines 517-550). -/
def CMasternodeBroadcast.Sign (env : Env) (mnb : CMasternodeBroadcast) (keyMasternode : CKey) :
    SignResult CMasternodeBroadcast :=
  let mnb1 : CMasternodeBroadcast := { mnb with sigTime := env.GetAdjustedTime }
  let strMessage := env.addrToString mnb1.addr ++ toString mnb1.sigTime ++
    env.keyIDToString mnb1.pubKeyMasternode ++ env.payeeToString mnb1.payee ++
    toString mnb1.nProtocolVersion
  match env.SignMessage strMessage keyMasternode with
  | none => { ret := false, obj := mnb1 }
  | some sig =>
    let mnb2 : CMasternodeBroadcast := { mnb1 with vchSig := sig }
    if !env.VerifyMessage mnb2.pubKeyMasternode mnb2.vchSig strMessage then
      { ret := false, obj := mnb2 }
    else { ret := true, obj := mnb2 }

/-- The constructor CMasternodeBroadcast() (masternode.h, line 270; masternode.cpp, lines
19-21). -/
def CMasternodeBroadcast.constructDefault (env : Env) : CMasternodeBroadcast :=
  { nActiveState := MASTERNODE_ENABLED, nProtocolVersion := env.PROTOCOL_VERSION,
    sigTime := env.GetAdjustedTime, fRecovery := false }

/-- The constructor CMasternodeBroadcast(addrNew, pubKeyMasternodeNew, payee,
nProtocolVersionIn) (masternode.h, lines 272-275; masternode.cpp, lines 23-28). -/
def CMasternodeBroadcast.construct (env : Env) (addrNew : CService)
    (pubKeyMasternodeNew : CPubKey) (payee : CBitcoinAddress) (nProtocolVersionIn : Int) :
    CMasternodeBroadcast :=
  { nActiveState := MASTERNODE_ENABLED, nProtocolVersion := nProtocolVersionIn,
    sigTime := env.GetAdjustedTime, addr := addrNew, pubKeyMasternode := pubKeyMasternodeNew,
    payee := payee, fRecovery := false }

/-- The result of Create: the return value and mnbRet after the call. The text written to
strErrorRet is dropped with the log lines. -/
structure CreateResult where
  ret : Bool
  mnbRet : CMasternodeBroadcast
deriving DecidableEq, Repr

/-- The ping that Create signs: the constructed ping after CMasternodePing::Sign
(masternode.cpp, lines 379-381). -/
def CMasternodeBroadcast.CreatePing (env : Env) (keyMasternodeNew : CKey)
    (pubKeyMasternodeNew : CPubKey) : SignResult CMasternodePing :=
  (CMasternodePing.construct env pubKeyMasternodeNew).Sign env keyMasternodeNew
    pubKeyMasternodeNew

/-- The broadcast that Create signs: the constructed broadcast with the signed ping attached
(masternode.cpp, lines 385-392). -/
def CMasternodeBroadcast.CreateUnsigned (env : Env) (service : CService)
    (keyMasternodeNew : CKey) (pubKeyMasternodeNew : CPubKey) (payeeNew : CBitcoinAddress) :
    CMasternodeBroadcast :=
  let mnb := CMasternodeBroadcast.construct env service pubKeyMasternodeNew payeeNew
    env.PROTOCOL_VERSION
  { mnb with lastPing := (CMasternodeBroadcast.CreatePing env keyMasternodeNew
                            pubKeyMasternodeNew).obj }

/-- The function CMasternodeBroadcast::Create on a resolved service and key pair
(masternode.cpp, lines 361-399). The argument mnbRet is the broadcast object as the caller
passed it. -/
def CMasternodeBroadcast.Create (env : Env) (service : CService) (keyMasternodeNew : CKey)
    (pubKeyMasternodeNew : CPubKey) (payeeNew : CBitcoinAddress)
    (mnbRet : CMasternodeBroadcast) : CreateResult :=
  if env.fImporting || env.fReindex then { ret := false, mnbRet := mnbRet }
  else
    let mnp := CMasternodeBroadcast.CreatePing env keyMasternodeNew pubKeyMasternodeNew
    if !mnp.ret then
      { ret := false, mnbRet := CMasternodeBroadcast.constructDefault env }
    else
      let mnb := CMasternodeBroadcast.CreateUnsigned env service keyMasternodeNew
        pubKeyMasternodeNew payeeNew
      if !IsValidNetAddr env mnb.addr then
        { ret := false, mnbRet := CMasternodeBroadcast.constructDefault env }
      else
        let signed := mnb.Sign env keyMasternodeNew
        if !signed.ret then
          { ret := false, mnbRet := CMasternodeBroadcast.constructDefault env }
        else { ret := true, mnbRet := signed.obj }

/-! ## UpdateLastPaid (masternode.cpp, lines 274-313) -/

/-- The payment test in the body of the loop (masternode.cpp, lines 293-304): some output of
the first transaction pays the script exactly the expected masternode payment. -/
def CBlock.paysMasternode (env : Env) (block : CBlock) (nHeight : Int) (mnpayee : CScript) :
    Bool :=
  let nMasternodePayment := env.GetMasternodePayment nHeight block.nValueOut
  block.vout.any fun txout =>
    mnpayee == txout.scriptPubKey && nMasternodePayment == txout.nValue

/-- The loop of UpdateLastPaid (masternode.cpp, lines 285-308). The list is the block under
BlockReading followed by its pprev ancestors; the number counts the iterations left before i
reaches nMaxBlocksToScanBack. After a failed read the continue statement starts the next
iteration with BlockReading as it is. -/
def CMasternode.UpdateLastPaidLoop (env : Env) (mn : CMasternode) (mnpayee : CScript) :
    Nat → List CBlockIndex → CMasternode
  | 0, _ => mn
  | _, [] => mn
  | n + 1, BlockReading :: pprev =>
    if !decide (BlockReading.nHeight > mn.nBlockLastPaid) then mn
    else
      let next := match pprev with
        | [] => mn
        | _ :: _ => CMasternode.UpdateLastPaidLoop env mn mnpayee n pprev
      if env.HasPayeeWithVotes BlockReading.nHeight mnpayee 2 then
        match env.ReadBlockFromDisk BlockReading with
        | none => CMasternode.UpdateLastPaidLoop env mn mnpayee n (BlockReading :: pprev)
        | some block =>
          if block.paysMasternode env BlockReading.nHeight mnpayee then
            { mn with nBlockLastPaid := BlockReading.nHeight,
                      nTimeLastPaid := BlockReading.nTime }
          else next
      else next

/-- The method CMasternode::UpdateLastPaid (masternode.cpp, lines 274-313). The argument
pindex is the chain from the given block index back along pprev, empty for a null pointer. -/
def CMasternode.UpdateLastPaid (env : Env) (mn : CMasternode) (pindex : List CBlockIndex)
    (nMaxBlocksToScanBack : Int) : CMasternode :=
  match pindex with
  | [] => mn
  | _ :: _ =>
    CMasternode.UpdateLastPaidLoop env mn (env.scriptForPayee mn.payee)
      nMaxBlocksToScanBack.toNat pindex

/-- The for statement of UpdateLastPaid with its counter i written out (masternode.cpp, lines
285-308), run for at most the given number of iterations: the result is none when the loop
has not been left by then.  The loop is left when its condition fails, at the return inside
the body, and at the break on a null pprev. -/
def CMasternode.UpdateLastPaidFor (env : Env) (mn : CMasternode) (mnpayee : CScript)
    (nMaxBlocksToScanBack : Int) : Nat → Int → List CBlockIndex → Option CMasternode
  | _, _, [] => some mn
  | 0, i, BlockReading :: _ =>
    if decide (BlockReading.nHeight > mn.nBlockLastPaid) && decide (i < nMaxBlocksToScanBack)
    then none else some mn
  | fuel + 1, i, BlockReading :: pprev =>
    if !(decide (BlockReading.nHeight > mn.nBlockLastPaid) &&
        decide (i < nMaxBlocksToScanBack)) then some mn
    else
      let next := match pprev with
        | [] => some mn
        | _ :: _ =>
          CMasternode.UpdateLastPaidFor env mn mnpayee nMaxBlocksToScanBack fuel (i + 1) pprev
      if env.HasPayeeWithVotes BlockReading.nHeight mnpayee 2 then
        match env.ReadBlockFromDisk BlockReading with
        | none =>
          CMasternode.UpdateLastPaidFor env mn mnpayee nMaxBlocksToScanBack fuel (i + 1)
            (BlockReading :: pprev)
        | some block =>
          if block.paysMasternode env BlockReading.nHeight mnpayee then
            some { mn with nBlockLastPaid := BlockReading.nHeight,
                           nTimeLastPaid := BlockReading.nTime }
          else next
      else next

/-! ## The gates of CheckAndUpdate, one by one -/

/-- The test of masternode.cpp, lines 716-726: the block of the ping is more than 24 blocks
below the tip. A stored null pointer skips the test. -/
def CMasternodePing.blockTooOld (env : Env) (mnp : CMasternodePing) : Bool :=
  match env.mapBlockIndex mnp.blockHash with
  | some (some bi) => decide (bi.nHeight < env.chainHeight - 24)
  | _ => false

/-- The rejection of masternode.cpp, lines 702-714: outside a broadcast merge, an entry in
UPDATE_REQUIRED or NEW_START_REQUIRED takes no ping. -/
def CMasternode.needsNewBroadcast (mn : CMasternode) (fFromNewBroadcast : Bool) : Bool :=
  !fFromNewBroadcast && (mn.IsUpdateRequired || mn.IsNewStartRequired)

/-- The block is tallied for the script with at least 2 votes and its first transaction,
read from disk, pays the script exactly the expected masternode payment. -/
def CBlockIndex.paysPayee (env : Env) (b : CBlockIndex) (mnpayee : CScript) : Bool :=
  env.HasPayeeWithVotes b.nHeight mnpayee 2 &&
    match env.ReadBlockFromDisk b with
    | some block => block.paysMasternode env b.nHeight mnpayee
    | none => false

/-- The block is tallied for the script with at least 2 votes and cannot be read from disk. -/
def CBlockIndex.talliedUnreadable (env : Env) (b : CBlockIndex) (mnpayee : CScript) : Bool :=
  env.HasPayeeWithVotes b.nHeight mnpayee 2 && (env.ReadBlockFromDisk b).isNone

/-- No int64_t subtraction of Check overflows for the entry: the age of a non-empty last ping
and the distance from the announcement to the last ping both fit an int64_t. -/
def CMasternode.TimesFit (env : Env) (mn : CMasternode) : Prop :=
  (CMasternodePing.eq mn.lastPing {} = false →
      SubFits env.GetAdjustedTime mn.lastPing.sigTime) ∧
    SubFits mn.lastPing.sigTime mn.sigTime

instance (env : Env) (mn : CMasternode) : Decidable (mn.TimesFit env) :=
  inferInstanceAs (Decidable ((_ → _) ∧ _))

/-- The ban equivalence of an entry: the score is at most MAX, and the state is POSE_BAN
exactly when the score is at least MAX. -/
def CMasternode.BanConsistent (mn : CMasternode) : Prop :=
  mn.nPoSeBanScore ≤ MASTERNODE_POSE_BAN_MAX_SCORE ∧
    (mn.nActiveState = MASTERNODE_POSE_BAN ↔
      mn.nPoSeBanScore ≥ MASTERNODE_POSE_BAN_MAX_SCORE)

instance (mn : CMasternode) : Decidable mn.BanConsistent :=
  inferInstanceAs (Decidable (_ ∧ _))

/-- The entry is not POSE_BAN and its score is below MAX. -/
def CMasternode.Unbanned (mn : CMasternode) : Prop :=
  mn.nActiveState ≠ MASTERNODE_POSE_BAN ∧ mn.nPoSeBanScore < MASTERNODE_POSE_BAN_MAX_SCORE

/-! ## Concrete contexts and entries used in the examples below -/

/-- A context on mainnet: clocks at 100000, chain at height 100, ten registry entries, list
synced, every key on the allow-list, block 7 known at height 90, signature [1] valid and
produced by the private key [42], modern score mode, no payment tallied. -/
def sampleEnv : Env where
  ShutdownRequested := false
  GetTime := 100000
  GetAdjustedTime := 100000
  IsMNActive := fun _ => true
  chainHeight := 100
  mnodemanSize := 10
  fMasterNode := false
  activePubKeyMasternode := []
  GetMinMasternodePaymentsProto := 70206
  PROTOCOL_VERSION := 70208
  IsMasternodeListSynced := true
  NetworkIDString := "main"
  mainnetDefaultPort := 9999
  IsIPv4 := fun _ => true
  IsReachable := fun _ => true
  IsRoutable := fun _ => true
  scriptForPayee := fun _ => List.replicate 25 0
  scriptForKeyID := fun _ => List.replicate 25 0
  mapBlockIndex := fun h => if h = 7 then some (some ⟨90, 99000, 7⟩) else none
  VerifyMessage := fun _ sig _ => sig == [1]
  addrToString := fun _ => "addr"
  keyIDToString := fun _ => "id"
  payeeToString := fun _ => "payee"
  hashToString := fun _ => "hash"
  HashWriter := fun items => items.length
  fDIP0001WasLockedIn := true
  pubKeyGetHash := fun k => k.length + 40
  fImporting := false
  fReindex := false
  chainHasTip := true
  chainBlockHash := fun h => if h = 90 then 7 else h.toNat + 1000
  SignMessage := fun _ key => if key = [42] then some [1] else none
  HasPayeeWithVotes := fun _ _ _ => false
  ReadBlockFromDisk := fun _ => none
  GetMasternodePayment := fun _ v => v / 2

/-- A ping for key [1, 2, 3] on block 7, signed at 99900. -/
def samplePing : CMasternodePing :=
  { pubKeyMasternode := [1, 2, 3], blockHash := 7, sigTime := 99900, vchSig := [1] }

/-- An ENABLED entry for key [1, 2, 3], announced at 90000, pinged at 99900, score 0. -/
def sampleEntry : CMasternode :=
  { nActiveState := MASTERNODE_ENABLED, nProtocolVersion := 70208, sigTime := 90000,
    addr := { ip := [10, 0, 0, 1], port := 9999 }, pubKeyMasternode := [1, 2, 3],
    payee := [76, 1], lastPing := samplePing, vchSig := [1], nTimeLastChecked := 99000 }

/-- The sample entry while banned: POSE_BAN, score at MAX, ban over at height 50. -/
def bannedEntry : CMasternode :=
  { sampleEntry with nActiveState := MASTERNODE_POSE_BAN, nPoSeBanScore := 5,
                     nPoSeBanHeight := 50 }

/-- A broadcast announcing the sample entry anew at 99950 with a ping signed at 99960. -/
def sampleBroadcast : CMasternodeBroadcast :=
  { toCMasternode := { sampleEntry with sigTime := 99950,
                                        lastPing := { samplePing with sigTime := 99960 } },
    fRecovery := false }

/-- The sample context with an empty registry. -/
def emptyRegistryEnv : Env :=
  { sampleEnv with mnodemanSize := 0 }

/-- The sample context while shutdown is requested. -/
def shutdownEnv : Env :=
  { sampleEnv with ShutdownRequested := true }

/-- The sample context with the local clock ten seconds ahead of network-adjusted time. -/
def fastClockEnv : Env :=
  { sampleEnv with GetTime := 100010 }

/-- The sample context with the local clock eight seconds behind network-adjusted time. -/
def slowClockEnv : Env :=
  { sampleEnv with GetTime := 99992 }

/-- The sample context while the masternode list is still syncing. -/
def syncingEnv : Env :=
  { sampleEnv with IsMasternodeListSynced := false }

/-- An ENABLED entry announced at 0 whose only ping was signed at 1000. -/
def staleEntry : CMasternode :=
  { sampleEntry with sigTime := 0, lastPing := { samplePing with sigTime := 1000 } }

/-- The sample entry with its last ping signed at 95000, that is 5000 s before the clock of
the sample context. -/
def expiringEntry : CMasternode :=
  { sampleEntry with lastPing := { samplePing with sigTime := 95000 } }

/-- Lines 56-63 of UpdateFromNewBroadcast: the entry after the signed fields of the broadcast
have been copied and the PoSe fields and the check stamp have been reset. -/
def CMasternode.mergeFields (mn : CMasternode) (mnb : CMasternodeBroadcast) : CMasternode :=
  { mn with pubKeyMasternode := mnb.pubKeyMasternode,
            sigTime := mnb.sigTime,
            vchSig := mnb.vchSig,
            nProtocolVersion := mnb.nProtocolVersion,
            addr := mnb.addr,
            nPoSeBanScore := 0,
            nPoSeBanHeight := 0,
            nTimeLastChecked := 0 }

/-- The sample broadcast carrying a ping signed 3601 s after network-adjusted time. -/
def futurePingBroadcast : CMasternodeBroadcast :=
  { sampleBroadcast with lastPing := { samplePing with sigTime := 103601 } }

/-- The same broadcast announcing a protocol version below the payment minimum. -/
def outdatedFuturePingBroadcast : CMasternodeBroadcast :=
  { futurePingBroadcast with nProtocolVersion := 70000 }

/-- A recovery broadcast signed at 80000, before the sample entry's 90000. -/
def olderRecoveryBroadcast : CMasternodeBroadcast :=
  { sampleBroadcast with sigTime := 80000, fRecovery := true }

/-- A recovery broadcast signed at 90000, the sample entry's own sig_time. -/
def equalRecoveryBroadcast : CMasternodeBroadcast :=
  { sampleBroadcast with sigTime := 90000, fRecovery := true }

/-- The sample broadcast announcing another payee. -/
def otherPayeeBroadcast : CMasternodeBroadcast :=
  { sampleBroadcast with payee := [76, 2] }

/-- The sample broadcast with a signature the sample context rejects. -/
def badSigBroadcast : CMasternodeBroadcast :=
  { sampleBroadcast with vchSig := [2] }

/-- The sample broadcast without a ping. -/
def emptyPingBroadcast : CMasternodeBroadcast :=
  { sampleBroadcast with lastPing := {} }

/-- The sample entry announced at 99900, that is 100 s before the clock of the sample
context. -/
def recentEntry : CMasternode :=
  { sampleEntry with sigTime := 99900 }

/-- The sample context on a node that operates the masternode with key [1, 2, 3]. -/
def localEnv : Env :=
  { sampleEnv with fMasterNode := true, activePubKeyMasternode := [1, 2, 3] }

/-- The sample entry in UPDATE_REQUIRED. -/
def updateRequiredEntry : CMasternode :=
  { sampleEntry with nActiveState := MASTERNODE_UPDATE_REQUIRED }

/-- A ping for the sample entry signed at 100500, 600 s after the stored one. -/
def laterPing : CMasternodePing :=
  { samplePing with sigTime := 100500 }

/-- The later ping with a signature the sample context rejects. -/
def badSigPing : CMasternodePing :=
  { laterPing with vchSig := [2] }

/-- A ping signed 3601 s after network-adjusted time. -/
def futurePing : CMasternodePing :=
  { samplePing with sigTime := 103601 }

/-- The sample entry with a stored ping signed at 103500, within the hour of tolerance. -/
def aheadEntry : CMasternode :=
  { sampleEntry with lastPing := { samplePing with sigTime := 103500 } }

/-- A ping signed at 103700, 200 s after the stored ping of the entry above. -/
def aheadPing : CMasternodePing :=
  { samplePing with sigTime := 103700 }

/-- The sample entry with a stored ping signed at 99000. -/
def olderPingEntry : CMasternode :=
  { sampleEntry with lastPing := { samplePing with sigTime := 99000 } }

/-- A validly signed ping whose sig_time is -1. -/
def minusOnePing : CMasternodePing :=
  { samplePing with sigTime := -1 }

/-- The banned entry announced at 99900: its ban is over at the height of the sample
context. -/
def recentBannedEntry : CMasternode :=
  { bannedEntry with sigTime := 99900 }

/-- The recent entry with its score at the maximum and not yet banned. -/
def recentMaxScoreEntry : CMasternode :=
  { recentEntry with nPoSeBanScore := 5 }

/-- A broadcast that agrees with the sample broadcast on key, payee and sig_time only. -/
def sameHashBroadcast : CMasternodeBroadcast :=
  { sampleBroadcast with addr := { ip := [10, 0, 0, 2], port := 9998 }, vchSig := [9],
                         nProtocolVersion := 70000, lastPing := {}, fRecovery := true }

/-- The sample context in legacy score mode, with a digest of 2^256 - 1 for a single written
value and 5 otherwise. -/
def legacyEnv : Env :=
  { sampleEnv with fDIP0001WasLockedIn := false,
                   HashWriter := fun items => if items.length = 1 then 2 ^ 256 - 1 else 5 }

/-- The sample context with the tip of the active chain at height 5. -/
def shortChainEnv : Env :=
  { sampleEnv with chainHeight := 5 }

/-- The sample context with an active chain that has no tip. -/
def noTipEnv : Env :=
  { sampleEnv with chainHasTip := false, chainHeight := -1 }

/-- The sample context with blocks 10 and 9 tallied for the 25-byte script: block 10 cannot
be read from disk, every other block has a first transaction of value 100 that pays 50 to the
script. -/
def unreadableTipEnv : Env :=
  { sampleEnv with
      HasPayeeWithVotes := fun h script votes =>
        (h == 10 || h == 9) && script == List.replicate 25 0 && votes == 2,
      ReadBlockFromDisk := fun b =>
        if b.nHeight = 10 then none
        else some { nValueOut := 100, vout := [{ scriptPubKey := List.replicate 25 0,
                                                 nValue := 50 }] } }

/-- The same context where block 10 can be read and pays another script. -/
def unpaidTipEnv : Env :=
  { unreadableTipEnv with
      ReadBlockFromDisk := fun b =>
        if b.nHeight = 10 then
          some { nValueOut := 100, vout := [{ scriptPubKey := [1], nValue := 50 }] }
        else some { nValueOut := 100, vout := [{ scriptPubKey := List.replicate 25 0,
                                                 nValue := 50 }] } }

/-- A chain of three block indexes from height 10 back to height 8. -/
def sampleChain : List CBlockIndex :=
  [{ nHeight := 10, nTime := 1010, hash := 110 }, { nHeight := 9, nTime := 1009, hash := 109 },
   { nHeight := 8, nTime := 1008, hash := 108 }]

/-- The sample context with the tip at height 114: block 7, at height 90, is exactly 24
below the tip. -/
def edgeTipEnv : Env :=
  { sampleEnv with chainHeight := 114 }

/-- The sample context with the tip at height 115: block 7 is 25 below the tip. -/
def farTipEnv : Env :=
  { sampleEnv with chainHeight := 115 }

/-- The sample entry with a stored ping whose sig_time is the least int64_t value. -/
def minPingEntry : CMasternode :=
  { sampleEntry with lastPing := { samplePing with sigTime := -2 ^ 63 } }

/-- The sample entry announced with sig_time = -2^63, the least int64_t value, and stored
signature [9]. -/
def minSigEntry : CMasternode :=
  { sampleEntry with sigTime := -2 ^ 63, vchSig := [9] }

/-- A recovery broadcast with the same sig_time -2^63. -/
def minSigRecoveryBroadcast : CMasternodeBroadcast :=
  { sampleBroadcast with sigTime := -2 ^ 63, fRecovery := true }

/-- A validly signed ping whose sig_time is -2^63, the least int64_t value. -/
def minTimePing : CMasternodePing :=
  { samplePing with sigTime := -2 ^ 63 }

/-! ## Helper lemmas -/

theorem eq_empty_iff (ping : CMasternodePing) :
    CMasternodePing.eq ping {} = true ↔ spec_ping_empty ping := by
  simp [CMasternodePing.eq, spec_ping_empty]

/-- A subtraction that does not overflow is exact. -/
theorem int64_wrap_of_fits (a b : Int) (h : SubFits a b) : int64_wrap (a - b) = a - b := by
  unfold SubFits at h
  unfold int64_wrap
  omega

theorem IsPingedWithin_iff (env : Env) (mn : CMasternode) (n : Int)
    (hf : CMasternodePing.eq mn.lastPing {} = false →
      SubFits env.GetAdjustedTime mn.lastPing.sigTime) :
    mn.IsPingedWithin env n (-1) = true ↔ spec_pinged_within env mn n := by
  unfold CMasternode.IsPingedWithin spec_pinged_within
  by_cases h : CMasternodePing.eq mn.lastPing {} = true
  · have := (eq_empty_iff mn.lastPing).1 h
    simp [h, this]
  · have h2 : ¬ spec_ping_empty mn.lastPing := fun hh => h ((eq_empty_iff _).2 hh)
    have hw := int64_wrap_of_fits _ _ (hf (by simpa using h))
    simp [h, h2, hw]

theorem fOurMasternode_eq (env : Env) (mn : CMasternode) :
    mn.fOurMasternode env = decide (spec_is_self env mn) := by
  rw [Bool.eq_iff_iff]; simp [CMasternode.fOurMasternode, spec_is_self]

theorem IsPingedWithin_eq (env : Env) (mn : CMasternode) (n : Int)
    (hf : CMasternodePing.eq mn.lastPing {} = false →
      SubFits env.GetAdjustedTime mn.lastPing.sigTime) :
    mn.IsPingedWithin env n (-1) = decide (spec_pinged_within env mn n) := by
  rw [Bool.eq_iff_iff]; simp [IsPingedWithin_iff env mn n hf]

theorem fRequireUpdate_eq (env : Env) (mn : CMasternode) :
    mn.fRequireUpdate env = decide (spec_require_update env mn) := by
  simp [CMasternode.fRequireUpdate, spec_require_update, fOurMasternode_eq]

theorem fWaitForPing_eq (env : Env) (mn : CMasternode)
    (hf : CMasternodePing.eq mn.lastPing {} = false →
      SubFits env.GetAdjustedTime mn.lastPing.sigTime) :
    mn.fWaitForPing env = decide (spec_wait_for_ping env mn) := by
  simp [CMasternode.fWaitForPing, spec_wait_for_ping, IsPingedWithin_eq env mn _ hf,
    MASTERNODE_MIN_MNP_SECONDS]

/-- The rules after the ban block agree with the spec's rules when the entry the code works
on differs from the entry at the start of the call only in fields the rules do not read. -/
theorem CheckStates_policy (env : Env) (mn entry : CMasternode)
    (hk : mn.pubKeyMasternode = entry.pubKeyMasternode)
    (hv : mn.nProtocolVersion = entry.nProtocolVersion)
    (hp : mn.lastPing = entry.lastPing)
    (ht : mn.sigTime = entry.sigTime)
    (hs : mn.nActiveState = entry.nActiveState)
    (hf : mn.TimesFit env) :
    (mn.CheckStates env).policy = spec_state_rules env entry mn.policy := by
  have hw := int64_wrap_of_fits _ _ hf.2
  have e1 : spec_require_update env mn ↔ spec_require_update env entry := by
    simp [spec_require_update, spec_is_self, hk, hv]
  have e2 : spec_is_self env mn ↔ spec_is_self env entry := by
    simp [spec_is_self, hk]
  have e3 : ∀ n, spec_pinged_within env mn n ↔ spec_pinged_within env entry n := by
    intro n; simp [spec_pinged_within, hp]
  have e4 : spec_wait_for_ping env mn ↔ spec_wait_for_ping env entry := by
    simp [spec_wait_for_ping, e3]
  unfold CMasternode.CheckStates spec_state_rules
  simp only [fRequireUpdate_eq, fOurMasternode_eq, fWaitForPing_eq env mn hf.1,
    fun n => IsPingedWithin_eq env mn n hf.1, hw,
    CMasternode.IsExpired, CMasternode.IsNewStartRequired, e1, e2, e3, e4, hp, ht, hs]
  simp only [MASTERNODE_NEW_START_REQUIRED_SECONDS, MASTERNODE_EXPIRATION_SECONDS,
    MASTERNODE_MIN_MNP_SECONDS]
  split_ifs <;> simp_all [CMasternode.policy]

/-- When neither the shutdown test nor the throttle returns, Check stamps nTimeLastChecked
and runs the rest of its body. -/
theorem Check_run (env : Env) (fForce : Bool) (mn : CMasternode)
    (hsd : env.ShutdownRequested = false)
    (hgo : ¬ (fForce = false ∧ env.GetTime - mn.nTimeLastChecked < MASTERNODE_CHECK_SECONDS)) :
    mn.Check env fForce = CMasternode.CheckListed env { mn with nTimeLastChecked := env.GetTime } := by
  unfold CMasternode.Check
  have h2 : (!fForce && decide (env.GetTime - mn.nTimeLastChecked < MASTERNODE_CHECK_SECONDS))
      = false := by
    cases fForce
    · simp only [Bool.not_false, Bool.true_and, decide_eq_false_iff_not]
      intro h; exact hgo ⟨rfl, h⟩
    · rfl
  simp [hsd, h2]

theorem DecreasePoSeBanScore_policy (mn : CMasternode) :
    mn.DecreasePoSeBanScore.policy =
      ⟨mn.nActiveState, spec_decrement mn.nPoSeBanScore, mn.nPoSeBanHeight⟩ := by
  unfold CMasternode.DecreasePoSeBanScore spec_decrement CMasternode.policy
  simp only [MASTERNODE_POSE_BAN_MAX_SCORE]
  split_ifs <;> rfl

theorem DecreasePoSeBanScore_fields (mn : CMasternode) :
    mn.DecreasePoSeBanScore.nActiveState = mn.nActiveState ∧
    mn.DecreasePoSeBanScore.pubKeyMasternode = mn.pubKeyMasternode ∧
    mn.DecreasePoSeBanScore.nProtocolVersion = mn.nProtocolVersion ∧
    mn.DecreasePoSeBanScore.lastPing = mn.lastPing ∧
    mn.DecreasePoSeBanScore.sigTime = mn.sigTime ∧
    mn.DecreasePoSeBanScore.nPoSeBanHeight = mn.nPoSeBanHeight ∧
    mn.DecreasePoSeBanScore.nTimeLastChecked = mn.nTimeLastChecked := by
  unfold CMasternode.DecreasePoSeBanScore
  split_ifs <;> simp

/-- The rules after the ban block never touch the score, the ban height, the ping or the
check stamp. -/
theorem CheckStates_frame (env : Env) (mn : CMasternode) :
    mn.CheckStates env = { mn with nActiveState := (mn.CheckStates env).nActiveState } := by
  unfold CMasternode.CheckStates
  split_ifs <;> rfl

/-- From the allow-list test on, the body of Check computes the spec's tree. -/
theorem CheckListed_policy (env : Env) (mn : CMasternode) (hf : mn.TimesFit env) :
    (CMasternode.CheckListed env mn).policy = spec_evaluate env mn := by
  unfold CMasternode.CheckListed spec_evaluate spec_ban_rules
  by_cases hl : env.IsMNActive mn.pubKeyMasternode = true
  · by_cases hb : mn.nActiveState = MASTERNODE_POSE_BAN
    · by_cases hh : env.chainHeight < mn.nPoSeBanHeight
      · simp [hl, hb, hh, CMasternode.IsPoSeBanned, CMasternode.policy]
      · obtain ⟨f1, f2, f3, f4, f5, -, -⟩ := DecreasePoSeBanScore_fields mn
        have hfd : mn.DecreasePoSeBanScore.TimesFit env := by
          unfold CMasternode.TimesFit
          rw [f4, f5]
          exact hf
        have key := CheckStates_policy env mn.DecreasePoSeBanScore mn f2 f3 f4 f5 f1 hfd
        rw [DecreasePoSeBanScore_policy] at key
        simp only [hl, hb, hh, CMasternode.IsPoSeBanned, Bool.not_true, Bool.false_eq_true,
          if_false, beq_self_eq_true, if_true]
        rw [key, hb]
        simp
    · have key := CheckStates_policy env mn mn rfl rfl rfl rfl rfl hf
      by_cases hs : mn.nPoSeBanScore ≥ 5
      · simp [hl, hb, hs, CMasternode.IsPoSeBanned, CMasternode.policy]
      · simp only [hl, hb, hs, CMasternode.IsPoSeBanned, Bool.not_true, Bool.false_eq_true,
          if_false, beq_iff_eq, MASTERNODE_POSE_BAN_MAX_SCORE]
        rw [key]; rfl
  · simp [hl, CMasternode.policy]

/-- The rules after the ban block never leave an entry in POSE_BAN. -/
theorem CheckStates_not_banned (env : Env) (mn : CMasternode) :
    (mn.CheckStates env).nActiveState ≠ MASTERNODE_POSE_BAN := by
  unfold CMasternode.CheckStates
  split_ifs with h1 h2 h3 h4 h5
  · simp
  · simp only [CMasternode.IsExpired, CMasternode.IsNewStartRequired, Bool.and_eq_true,
      Bool.or_eq_true, beq_iff_eq] at h2
    rcases h2.2 with h | h <;> rw [h] <;> decide
  all_goals simp

theorem CheckStates_fields (env : Env) (mn : CMasternode) :
    (mn.CheckStates env).nPoSeBanScore = mn.nPoSeBanScore ∧
    (mn.CheckStates env).nPoSeBanHeight = mn.nPoSeBanHeight ∧
    (mn.CheckStates env).lastPing = mn.lastPing ∧
    (mn.CheckStates env).nTimeLastChecked = mn.nTimeLastChecked := by
  rw [CheckStates_frame]; simp

/-- The four ways through the body of Check for a key on the allow-list. -/
theorem CheckListed_cases (env : Env) (mn : CMasternode)
    (hl : env.IsMNActive mn.pubKeyMasternode = true) :
    (mn.nActiveState = MASTERNODE_POSE_BAN ∧ env.chainHeight < mn.nPoSeBanHeight ∧
        CMasternode.CheckListed env mn = mn) ∨
    (mn.nActiveState = MASTERNODE_POSE_BAN ∧ mn.nPoSeBanHeight ≤ env.chainHeight ∧
        CMasternode.CheckListed env mn = mn.DecreasePoSeBanScore.CheckStates env) ∨
    (mn.nActiveState ≠ MASTERNODE_POSE_BAN ∧ MASTERNODE_POSE_BAN_MAX_SCORE ≤ mn.nPoSeBanScore ∧
        CMasternode.CheckListed env mn =
          { mn with nActiveState := MASTERNODE_POSE_BAN,
                    nPoSeBanHeight := env.chainHeight + (env.mnodemanSize : Int) }) ∨
    (mn.nActiveState ≠ MASTERNODE_POSE_BAN ∧ mn.nPoSeBanScore < MASTERNODE_POSE_BAN_MAX_SCORE ∧
        CMasternode.CheckListed env mn = mn.CheckStates env) := by
  unfold CMasternode.CheckListed
  by_cases hb : mn.nActiveState = MASTERNODE_POSE_BAN
  · by_cases hh : env.chainHeight < mn.nPoSeBanHeight
    · left; simp [hl, hb, hh, CMasternode.IsPoSeBanned]
    · right; left
      refine ⟨hb, not_lt.1 hh, ?_⟩
      simp [hl, hb, hh, CMasternode.IsPoSeBanned]
  · by_cases hs : MASTERNODE_POSE_BAN_MAX_SCORE ≤ mn.nPoSeBanScore
    · right; right; left
      refine ⟨hb, hs, ?_⟩
      simp [hl, hb, hs, CMasternode.IsPoSeBanned]
    · right; right; right
      refine ⟨hb, not_le.1 hs, ?_⟩
      simp [hl, hb, hs, CMasternode.IsPoSeBanned]

/-- Check returns the entry itself or the result of its body on the stamped entry. -/
theorem Check_cases (env : Env) (fForce : Bool) (mn : CMasternode) :
    mn.Check env fForce = mn ∨
      mn.Check env fForce =
        CMasternode.CheckListed env { mn with nTimeLastChecked := env.GetTime } := by
  unfold CMasternode.Check
  split_ifs
  · left; rfl
  · left; rfl
  · right; rfl

theorem DecreasePoSeBanScore_range (mn : CMasternode) (h : mn.ScoreInRange) :
    mn.DecreasePoSeBanScore.ScoreInRange := by
  unfold CMasternode.DecreasePoSeBanScore CMasternode.ScoreInRange at *
  simp only [MASTERNODE_POSE_BAN_MAX_SCORE] at *
  split_ifs
  · constructor <;> (show _ ≤ _) <;> dsimp only <;> omega
  · exact h

theorem CheckListed_range (env : Env) (mn : CMasternode) (h : mn.ScoreInRange) :
    (CMasternode.CheckListed env mn).ScoreInRange := by
  by_cases hl : env.IsMNActive mn.pubKeyMasternode = true
  · rcases CheckListed_cases env mn hl with ⟨-, -, e⟩ | ⟨-, -, e⟩ | ⟨-, -, e⟩ | ⟨-, -, e⟩
    · rw [e]; exact h
    · rw [e]; unfold CMasternode.ScoreInRange
      rw [(CheckStates_fields env _).1]
      exact DecreasePoSeBanScore_range mn h
    · rw [e]; exact h
    · rw [e]; unfold CMasternode.ScoreInRange
      rw [(CheckStates_fields env _).1]
      exact h
  · unfold CMasternode.CheckListed
    simp [hl]; exact h

theorem Check_range (env : Env) (fForce : Bool) (mn : CMasternode) (h : mn.ScoreInRange) :
    (mn.Check env fForce).ScoreInRange := by
  rcases Check_cases env fForce mn with e | e
  · rw [e]; exact h
  · rw [e]; exact CheckListed_range env _ h

/-- A ping passes SimpleCheck only if its block is in the block index. -/
theorem ping_SimpleCheck_found (env : Env) (mnp : CMasternodePing)
    (h : (mnp.SimpleCheck env).ret = true) :
    ∃ pindex, env.mapBlockIndex mnp.blockHash = some pindex := by
  cases hb : env.mapBlockIndex mnp.blockHash with
  | none =>
    exfalso
    unfold CMasternodePing.SimpleCheck at h
    rw [hb] at h
    by_cases ht : mnp.sigTime > env.GetAdjustedTime + 60 * 60
    · rw [if_pos ht] at h; exact absurd h (by decide)
    · rw [if_neg ht] at h; exact absurd h (by decide)
  | some pindex => exact ⟨pindex, rfl⟩

/-- Storing a ping ends with a forced Check of the entry holding the new ping. -/
theorem install_pmn (env : Env) (w : World) (mnp : CMasternodePing) (mn : CMasternode)
    (nDos : Int) :
    (mnp.install env w mn nDos).pmn =
      some (CMasternode.Check env true { mn with lastPing := mnp }) := by
  unfold CMasternodePing.install
  dsimp only
  split_ifs <;> rfl

/-- CheckAndUpdate on an entry always has a defined result: the second block-index lookup
is reached only after SimpleCheck found the block.  The entry afterwards is the old one, or
the old one with the ping stored and a forced Check applied. -/
theorem CheckAndUpdate_entry (env : Env) (w : World) (mnp : CMasternodePing)
    (mn : CMasternode) (f : Bool) :
    ∃ r, mnp.CheckAndUpdate env w (some mn) f = some r ∧
      (r.pmn = some mn ∨
        r.pmn = some (CMasternode.Check env true { mn with lastPing := mnp })) := by
  unfold CMasternodePing.CheckAndUpdate
  by_cases hsc : (mnp.SimpleCheck env).ret = true
  · obtain ⟨pindex, hb⟩ := ping_SimpleCheck_found env mnp hsc
    simp only [hsc, hb, Bool.not_true, Bool.false_eq_true, if_false]
    split_ifs
    all_goals first
      | exact ⟨_, rfl, Or.inl rfl⟩
      | exact ⟨_, rfl, Or.inr (install_pmn _ _ _ _ _)⟩
  · simp [hsc]

theorem CheckAndUpdate_range (env : Env) (w : World) (mnp : CMasternodePing)
    (mn : CMasternode) (f : Bool) (h : mn.ScoreInRange) :
    ∃ r, mnp.CheckAndUpdate env w (some mn) f = some r ∧
      ∃ mn2, r.pmn = some mn2 ∧ mn2.ScoreInRange := by
  obtain ⟨r, hr, hp | hp⟩ := CheckAndUpdate_entry env w mnp mn f
  · exact ⟨r, hr, mn, hp, h⟩
  · exact ⟨r, hr, _, hp, Check_range env true _ h⟩

theorem finishMerge_score (env : Env) (w : World) (mn : CMasternode) :
    (mn.finishMerge env w).mn.nPoSeBanScore = mn.nPoSeBanScore ∨
      (mn.finishMerge env w).mn.nPoSeBanScore = -MASTERNODE_POSE_BAN_MAX_SCORE := by
  unfold CMasternode.finishMerge
  dsimp only
  split_ifs
  · right; rfl
  · right; rfl
  · left; rfl

theorem finishMerge_range (env : Env) (w : World) (mn : CMasternode) (h : mn.ScoreInRange) :
    (mn.finishMerge env w).mn.ScoreInRange := by
  unfold CMasternode.ScoreInRange at *
  rcases finishMerge_score env w mn with e | e <;> rw [e]
  · exact h
  · constructor <;> decide

theorem ScoreInRange_of_zero (mn : CMasternode) (h : mn.nPoSeBanScore = 0) :
    mn.ScoreInRange := by
  unfold CMasternode.ScoreInRange
  rw [h]; constructor <;> decide

theorem takePing_range (env : Env) (w : World) (mn : CMasternode) (mnp : CMasternodePing)
    (h : mn.ScoreInRange) : (mn.takePing env w mnp).1.ScoreInRange := h

theorem UpdateFromNewBroadcast_range (env : Env) (w : World) (mn : CMasternode)
    (mnb : CMasternodeBroadcast) (h : mn.ScoreInRange) :
    ∃ r, mn.UpdateFromNewBroadcast env w mnb = some r ∧ r.mn.ScoreInRange := by
  unfold CMasternode.UpdateFromNewBroadcast
  split_ifs with h1 h2
  · exact ⟨_, rfl, h⟩
  · exact ⟨_, rfl, finishMerge_range _ _ _ (takePing_range _ _ _ _
      (ScoreInRange_of_zero _ rfl))⟩
  · dsimp only
    have h0 : CMasternode.ScoreInRange
        { mn with pubKeyMasternode := mnb.pubKeyMasternode, sigTime := mnb.sigTime,
                  vchSig := mnb.vchSig, nProtocolVersion := mnb.nProtocolVersion,
                  addr := mnb.addr, nPoSeBanScore := 0, nPoSeBanHeight := 0,
                  nTimeLastChecked := 0 } := ScoreInRange_of_zero _ rfl
    obtain ⟨c, hc, mn2, hp, hr⟩ := CheckAndUpdate_range env w mnb.lastPing _ true h0
    rw [hc]
    dsimp only
    rw [hp]
    split_ifs
    · exact ⟨_, rfl, finishMerge_range _ _ _ (takePing_range _ _ _ _ hr)⟩
    · exact ⟨_, rfl, finishMerge_range _ _ _ hr⟩

theorem Update_range (env : Env) (w : World) (mnb : CMasternodeBroadcast) (pmn : CMasternode)
    (h : pmn.ScoreInRange) :
    ∃ r, mnb.Update env w pmn = some r ∧ r.pmn.ScoreInRange := by
  unfold CMasternodeBroadcast.Update
  have hc := Check_range env false pmn h
  obtain ⟨m, hm, hr⟩ := UpdateFromNewBroadcast_range env w (pmn.Check env false) mnb hc
  dsimp only
  rw [hm]
  dsimp only
  split_ifs
  all_goals first
    | exact ⟨_, rfl, h⟩
    | exact ⟨_, rfl, hc⟩
    | exact ⟨_, rfl, Check_range _ _ _ hr⟩
    | exact ⟨_, rfl, hr⟩

theorem DecreasePoSeBanScore_of_gt (mn : CMasternode)
    (h : -MASTERNODE_POSE_BAN_MAX_SCORE < mn.nPoSeBanScore) :
    mn.DecreasePoSeBanScore.nPoSeBanScore = mn.nPoSeBanScore - 1 := by
  unfold CMasternode.DecreasePoSeBanScore
  rw [if_pos h]

theorem CheckListed_nTimeLastChecked (env : Env) (mn : CMasternode) :
    (CMasternode.CheckListed env mn).nTimeLastChecked = mn.nTimeLastChecked := by
  by_cases hl : env.IsMNActive mn.pubKeyMasternode = true
  · rcases CheckListed_cases env mn hl with ⟨-, -, e⟩ | ⟨-, -, e⟩ | ⟨-, -, e⟩ | ⟨-, -, e⟩
    · rw [e]
    · rw [e, (CheckStates_fields env _).2.2.2]
      exact (DecreasePoSeBanScore_fields mn).2.2.2.2.2.2
    · rw [e]
    · rw [e, (CheckStates_fields env _).2.2.2]
  · unfold CMasternode.CheckListed
    simp [hl]

/-- When the rules after the ban block end in ENABLED while the list is synced or the entry
is the local masternode, the last ping is present and younger than the expiration time. -/
theorem CheckStates_enabled (env : Env) (mn : CMasternode)
    (hs : env.IsMasternodeListSynced = true ∨ mn.fOurMasternode env = true)
    (hf : SubFits env.GetAdjustedTime mn.lastPing.sigTime)
    (hen : (mn.CheckStates env).nActiveState = MASTERNODE_ENABLED) :
    CMasternodePing.eq mn.lastPing {} = false ∧
      env.GetAdjustedTime - mn.lastPing.sigTime < MASTERNODE_EXPIRATION_SECONDS := by
  have hw : (!mn.fWaitForPing env || mn.fOurMasternode env) = true := by
    rcases hs with h | h
    · simp [CMasternode.fWaitForPing, h]
    · simp [h]
  unfold CMasternode.CheckStates at hen
  split_ifs at hen with h1 h2 h3 h4 h5
  · exact absurd hen (by dsimp only; decide)
  · exfalso
    simp only [Bool.and_eq_true, Bool.or_eq_true, Bool.not_eq_true'] at h2 hw
    rcases hw with h | h
    · rw [h2.1.1] at h; exact absurd h (by decide)
    · rw [h2.1.2] at h; exact absurd h (by decide)
  · exact absurd hen (by dsimp only; decide)
  · exact absurd hen (by dsimp only; decide)
  · exact absurd hen (by dsimp only; decide)
  · rw [hw, Bool.true_and] at h4
    simp only [Bool.not_eq_true', Bool.not_eq_false] at h4
    unfold CMasternode.IsPingedWithin at h4
    by_cases he : CMasternodePing.eq mn.lastPing {} = true
    · rw [if_pos he] at h4; exact absurd h4 (by decide)
    · rw [if_neg he] at h4
      simp only [beq_self_eq_true, if_true, decide_eq_true_eq] at h4
      rw [int64_wrap_of_fits _ _ hf] at h4
      exact ⟨by simpa using he, h4⟩

/-- For every entry and every context in which shutdown is not requested, the
check-interval short-circuit is not taken and no subtraction on a sig_time overflows, Check
leaves (active_state, pose_ban_score, pose_ban_height) exactly as the decision tree of §4.4
of the specification computes them from the entry at the start of the call. -/
theorem Check_follows_decision_tree (env : Env) (fForce : Bool) (mn : CMasternode)
    (hsd : env.ShutdownRequested = false)
    (hgo : ¬ (fForce = false ∧ env.GetTime - mn.nTimeLastChecked < MASTERNODE_CHECK_SECONDS))
    (hf : mn.TimesFit env) :
    (mn.Check env fForce).policy = spec_evaluate env mn := by
  rw [Check_run env fForce mn hsd hgo,
    CheckListed_policy env { mn with nTimeLastChecked := env.GetTime } hf]
  rfl

/-- The decision tree at a concrete input: the banned sample entry under a forced Check in
the sample context. -/
theorem Check_follows_decision_tree_sample :
    (sampleEnv.ShutdownRequested = false ∧ bannedEntry.TimesFit sampleEnv) ∧
    (bannedEntry.Check sampleEnv true).policy = spec_evaluate sampleEnv bannedEntry :=
  ⟨⟨by decide, by decide⟩,
    Check_follows_decision_tree sampleEnv true bannedEntry (by decide) (by decide) (by decide)⟩

/-- C1 (code at the failing input): shutdown is not requested, the Check is forced, the list
is synced, and the stored ping carries sig_time = -2^63.  The decision tree of §4.4 gives
NEW_START_REQUIRED (the ping is older than 3 h); Check ends in ENABLED, because the int64_t
subtraction adjusted_now - last_ping.sig_time overflows and both age tests pass. -/
theorem C1_Check_overflow_ends_enabled :
    sampleEnv.ShutdownRequested = false ∧
    sampleEnv.GetAdjustedTime - minPingEntry.lastPing.sigTime ≥
      MASTERNODE_NEW_START_REQUIRED_SECONDS ∧
    spec_evaluate sampleEnv minPingEntry = ⟨MASTERNODE_NEW_START_REQUIRED, 0, 0⟩ ∧
    (minPingEntry.Check sampleEnv true).policy = ⟨MASTERNODE_ENABLED, 0, 0⟩ := by
  decide

/-- C3: for every entry whose pose_ban_score starts in [-5, 5], each of
IncreasePoSeBanScore, DecreasePoSeBanScore, PoSeBan, Check, UpdateFromNewBroadcast,
CMasternodeBroadcast::Update and CMasternodePing::CheckAndUpdate has a defined result and
leaves pose_ban_score in [-5, 5]. -/
theorem C3_score_stays_in_range (env : Env) (w : World) (mn : CMasternode)
    (mnb : CMasternodeBroadcast) (mnp : CMasternodePing) (fForce fFromNewBroadcast : Bool)
    (h : -5 ≤ mn.nPoSeBanScore ∧ mn.nPoSeBanScore ≤ 5) :
    (-5 ≤ mn.IncreasePoSeBanScore.nPoSeBanScore ∧ mn.IncreasePoSeBanScore.nPoSeBanScore ≤ 5) ∧
    (-5 ≤ mn.DecreasePoSeBanScore.nPoSeBanScore ∧ mn.DecreasePoSeBanScore.nPoSeBanScore ≤ 5) ∧
    (-5 ≤ mn.PoSeBan.nPoSeBanScore ∧ mn.PoSeBan.nPoSeBanScore ≤ 5) ∧
    (-5 ≤ (mn.Check env fForce).nPoSeBanScore ∧ (mn.Check env fForce).nPoSeBanScore ≤ 5) ∧
    (∃ r, mn.UpdateFromNewBroadcast env w mnb = some r ∧
      -5 ≤ r.mn.nPoSeBanScore ∧ r.mn.nPoSeBanScore ≤ 5) ∧
    (∃ r, mnb.Update env w mn = some r ∧
      -5 ≤ r.pmn.nPoSeBanScore ∧ r.pmn.nPoSeBanScore ≤ 5) ∧
    (∃ r, mnp.CheckAndUpdate env w (some mn) fFromNewBroadcast = some r ∧
      ∃ mn2, r.pmn = some mn2 ∧ -5 ≤ mn2.nPoSeBanScore ∧ mn2.nPoSeBanScore ≤ 5) := by
  have hr : mn.ScoreInRange := h
  have hp : mn.PoSeBan.nPoSeBanScore = 5 := rfl
  refine ⟨?_, DecreasePoSeBanScore_range mn hr, by rw [hp]; constructor <;> decide,
    Check_range env fForce mn hr, UpdateFromNewBroadcast_range env w mn mnb hr,
    Update_range env w mnb mn hr, CheckAndUpdate_range env w mnp mn fFromNewBroadcast hr⟩
  unfold CMasternode.IncreasePoSeBanScore
  simp only [MASTERNODE_POSE_BAN_MAX_SCORE]
  split_ifs
  · constructor <;> dsimp only <;> omega
  · exact h

/-- C3 (witness): the banned sample entry, score 5, under a forced Check. -/
theorem C3_witness :
    (-5 ≤ bannedEntry.nPoSeBanScore ∧ bannedEntry.nPoSeBanScore ≤ 5) ∧
    (-5 ≤ (bannedEntry.Check sampleEnv true).nPoSeBanScore ∧
      (bannedEntry.Check sampleEnv true).nPoSeBanScore ≤ 5) :=
  ⟨by decide,
    (C3_score_stays_in_range sampleEnv {} bannedEntry sampleBroadcast samplePing true false
      (by decide)).2.2.2.1⟩

/-- C4 (counterexample): with an empty registry an ENABLED entry whose score is 5 is moved
into POSE_BAN with pose_ban_height equal to chain.height, not above it; and an entry whose
stored score is 6 is moved into POSE_BAN with score 6, not MAX. -/
theorem C4_ban_height_not_above_chain :
    (sampleEntry.PoSeBan.nActiveState ≠ MASTERNODE_POSE_BAN ∧
      (sampleEntry.PoSeBan.Check emptyRegistryEnv true).nActiveState = MASTERNODE_POSE_BAN ∧
      ¬ ((sampleEntry.PoSeBan.Check emptyRegistryEnv true).nPoSeBanHeight >
          emptyRegistryEnv.chainHeight)) ∧
    (({ sampleEntry with nPoSeBanScore := 6 } : CMasternode).Check sampleEnv true).nActiveState
        = MASTERNODE_POSE_BAN ∧
    (({ sampleEntry with nPoSeBanScore := 6 } : CMasternode).Check sampleEnv true).nPoSeBanScore
        ≠ MASTERNODE_POSE_BAN_MAX_SCORE := by
  decide

/-- C4 (amended): immediately after any call of Check that moves an entry whose score was at
most MAX into POSE_BAN (not POSE_BAN before the call, POSE_BAN after it), pose_ban_score ==
MAX and pose_ban_height == chain.height + registry.size(); so pose_ban_height >= chain.height,
and pose_ban_height > chain.height when the registry is not empty. -/
theorem C4_ban_transition (env : Env) (fForce : Bool) (mn : CMasternode)
    (hpre : mn.nActiveState ≠ MASTERNODE_POSE_BAN)
    (hpost : (mn.Check env fForce).nActiveState = MASTERNODE_POSE_BAN)
    (hle : mn.nPoSeBanScore ≤ MASTERNODE_POSE_BAN_MAX_SCORE) :
    (mn.Check env fForce).nPoSeBanScore = MASTERNODE_POSE_BAN_MAX_SCORE ∧
    (mn.Check env fForce).nPoSeBanHeight = env.chainHeight + (env.mnodemanSize : Int) ∧
    (mn.Check env fForce).nPoSeBanHeight ≥ env.chainHeight ∧
    (0 < env.mnodemanSize → (mn.Check env fForce).nPoSeBanHeight > env.chainHeight) := by
  rcases Check_cases env fForce mn with e | e
  · rw [e] at hpost; exact absurd hpost hpre
  · rw [e] at hpost ⊢
    by_cases hl : env.IsMNActive mn.pubKeyMasternode = true
    · rcases CheckListed_cases env { mn with nTimeLastChecked := env.GetTime } hl with
        ⟨hb, -, -⟩ | ⟨hb, -, -⟩ | ⟨-, hs, e2⟩ | ⟨-, -, e2⟩
      · exact absurd hb hpre
      · exact absurd hb hpre
      · rw [e2]
        refine ⟨le_antisymm hle hs, rfl, ?_, ?_⟩
        · show env.chainHeight + (env.mnodemanSize : Int) ≥ env.chainHeight
          omega
        · intro hpos
          show env.chainHeight + (env.mnodemanSize : Int) > env.chainHeight
          omega
      · rw [e2] at hpost; exact absurd hpost (CheckStates_not_banned env _)
    · have e3 : CMasternode.CheckListed env { mn with nTimeLastChecked := env.GetTime } =
          { mn with nTimeLastChecked := env.GetTime } := by
        unfold CMasternode.CheckListed
        simp [hl]
      rw [e3] at hpost; exact absurd hpost hpre

/-- C4 (witness): the sample entry after PoSeBan is banned until height 100 + 10. -/
theorem C4_witness :
    (sampleEntry.PoSeBan.nActiveState ≠ MASTERNODE_POSE_BAN ∧
      (sampleEntry.PoSeBan.Check sampleEnv true).nActiveState = MASTERNODE_POSE_BAN ∧
      sampleEntry.PoSeBan.nPoSeBanScore ≤ MASTERNODE_POSE_BAN_MAX_SCORE) ∧
    (sampleEntry.PoSeBan.Check sampleEnv true).nPoSeBanScore = MASTERNODE_POSE_BAN_MAX_SCORE ∧
    (sampleEntry.PoSeBan.Check sampleEnv true).nPoSeBanHeight = 110 :=
  ⟨by decide,
    (C4_ban_transition sampleEnv true sampleEntry.PoSeBan (by decide) (by decide)
      (by decide)).1,
    (C4_ban_transition sampleEnv true sampleEntry.PoSeBan (by decide) (by decide)
      (by decide)).2.1⟩

/-- C5 (counterexample): while shutdown is requested, a forced Check of an allow-listed
entry in POSE_BAN with score MAX whose ban height has been reached returns at once: the score
is not decremented and the entry stays in POSE_BAN. -/
theorem C5_shutdown_keeps_ban :
    shutdownEnv.IsMNActive bannedEntry.pubKeyMasternode = true ∧
    bannedEntry.nActiveState = MASTERNODE_POSE_BAN ∧
    bannedEntry.nPoSeBanScore = MASTERNODE_POSE_BAN_MAX_SCORE ∧
    shutdownEnv.chainHeight ≥ bannedEntry.nPoSeBanHeight ∧
    (bannedEntry.Check shutdownEnv true).nPoSeBanScore = bannedEntry.nPoSeBanScore ∧
    (bannedEntry.Check shutdownEnv true).nActiveState = MASTERNODE_POSE_BAN := by
  decide

/-- C5 (amended): when shutdown is not requested, for every allow-listed entry in POSE_BAN
with pose_ban_score == MAX, once chain.height >= pose_ban_height a forced Check decrements
pose_ban_score by exactly one and leaves the entry in a state other than POSE_BAN, whatever
the protocol version, sync status and ping times are. -/
theorem C5_forced_Check_unbans (env : Env) (mn : CMasternode)
    (hsd : env.ShutdownRequested = false)
    (hl : env.IsMNActive mn.pubKeyMasternode = true)
    (hb : mn.nActiveState = MASTERNODE_POSE_BAN)
    (hs : mn.nPoSeBanScore = MASTERNODE_POSE_BAN_MAX_SCORE)
    (hh : env.chainHeight ≥ mn.nPoSeBanHeight) :
    (mn.Check env true).nPoSeBanScore = mn.nPoSeBanScore - 1 ∧
    (mn.Check env true).nActiveState ≠ MASTERNODE_POSE_BAN := by
  rw [Check_run env true mn hsd (by simp)]
  rcases CheckListed_cases env { mn with nTimeLastChecked := env.GetTime } hl with
    ⟨-, hlt, -⟩ | ⟨-, -, e⟩ | ⟨hnb, -, -⟩ | ⟨hnb, -, -⟩
  · exact absurd hh (not_le.2 hlt)
  · rw [e]
    refine ⟨?_, CheckStates_not_banned env _⟩
    rw [(CheckStates_fields env _).1]
    exact DecreasePoSeBanScore_of_gt _ (by
      show -MASTERNODE_POSE_BAN_MAX_SCORE < mn.nPoSeBanScore
      rw [hs]; decide)
  · exact absurd hb hnb
  · exact absurd hb hnb

/-- C5 (witness): the banned sample entry is unbanned by a forced Check at height 100. -/
theorem C5_witness :
    (sampleEnv.ShutdownRequested = false ∧
      sampleEnv.IsMNActive bannedEntry.pubKeyMasternode = true ∧
      bannedEntry.nActiveState = MASTERNODE_POSE_BAN ∧
      bannedEntry.nPoSeBanScore = MASTERNODE_POSE_BAN_MAX_SCORE ∧
      sampleEnv.chainHeight ≥ bannedEntry.nPoSeBanHeight) ∧
    (bannedEntry.Check sampleEnv true).nPoSeBanScore = bannedEntry.nPoSeBanScore - 1 ∧
    (bannedEntry.Check sampleEnv true).nActiveState ≠ MASTERNODE_POSE_BAN :=
  ⟨by decide,
    C5_forced_Check_unbans sampleEnv bannedEntry (by decide) (by decide) (by decide)
      (by decide) (by decide)⟩

/-- C6 (counterexample): with the local clock ahead of network-adjusted time, an unforced
Check of an entry checked 2 s ago by network-adjusted time proceeds and changes the entry;
with the local clock behind, an unforced Check of an entry checked 10 s ago by
network-adjusted time is throttled and changes nothing. -/
theorem C6_throttle_ignores_adjusted_time :
    (fastClockEnv.GetAdjustedTime -
        ({ sampleEntry with nTimeLastChecked := 99998 } : CMasternode).nTimeLastChecked < 5 ∧
      ({ sampleEntry with nTimeLastChecked := 99998 } : CMasternode).Check fastClockEnv false ≠
        { sampleEntry with nTimeLastChecked := 99998 }) ∧
    (¬ (slowClockEnv.GetAdjustedTime -
        ({ sampleEntry with nTimeLastChecked := 99990 } : CMasternode).nTimeLastChecked < 5) ∧
      slowClockEnv.ShutdownRequested = false ∧
      ({ sampleEntry with nTimeLastChecked := 99990 } : CMasternode).Check slowClockEnv false =
        { sampleEntry with nTimeLastChecked := 99990 }) := by
  decide

/-- C6 (amended): for every entry, if force is false and local_now - n_time_last_checked < 5,
where local_now is the local wall clock GetTime(), then Check leaves every field of the entry
unchanged, whatever network-adjusted time is; otherwise, unless shutdown is requested, it
proceeds: it stamps n_time_last_checked with local_now and runs the decision tree.  The
throttle reads the local wall clock only; the decision tree, with its ping-age tests, reads
network-adjusted time and gives the same result whatever the local wall clock is. -/
theorem C6_throttle_uses_local_clock (env : Env) (fForce : Bool) (mn : CMasternode) :
    (fForce = false → env.GetTime - mn.nTimeLastChecked < MASTERNODE_CHECK_SECONDS →
      ∀ t : Int, mn.Check { env with GetAdjustedTime := t } fForce = mn) ∧
    (env.ShutdownRequested = false →
      (fForce = true ∨ MASTERNODE_CHECK_SECONDS ≤ env.GetTime - mn.nTimeLastChecked) →
      mn.Check env fForce =
          CMasternode.CheckListed env { mn with nTimeLastChecked := env.GetTime } ∧
        (mn.Check env fForce).nTimeLastChecked = env.GetTime) ∧
    (∀ (t : Int) (e : CMasternode),
      CMasternode.CheckListed { env with GetTime := t } e = CMasternode.CheckListed env e) := by
  refine ⟨?_, ?_, fun _ _ => rfl⟩
  · intro hf ht t
    unfold CMasternode.Check
    subst hf
    have h2 : decide (env.GetTime - mn.nTimeLastChecked < MASTERNODE_CHECK_SECONDS) = true :=
      decide_eq_true ht
    simp only [Bool.not_false, Bool.true_and, h2, if_true]
    split_ifs <;> rfl
  · intro hsd hgo
    have hrun := Check_run env fForce mn hsd (by
      rintro ⟨hf, hlt⟩
      rcases hgo with h | h
      · rw [hf] at h; exact absurd h (by decide)
      · exact absurd hlt (not_lt.2 h))
    refine ⟨hrun, ?_⟩
    rw [hrun, CheckListed_nTimeLastChecked]

/-- C6 (witness): an entry checked 2 s ago by the local clock is left alone, whatever
network-adjusted time is; the decision tree gives the same result under another local clock
and another result under another network-adjusted time. -/
theorem C6_witness :
    (sampleEnv.GetTime -
        ({ sampleEntry with nTimeLastChecked := 99998 } : CMasternode).nTimeLastChecked <
          MASTERNODE_CHECK_SECONDS) ∧
    ({ sampleEntry with nTimeLastChecked := 99998 } : CMasternode).Check
        { sampleEnv with GetAdjustedTime := 5 } false =
      { sampleEntry with nTimeLastChecked := 99998 } ∧
    CMasternode.CheckListed { sampleEnv with GetTime := 5 } sampleEntry =
      CMasternode.CheckListed sampleEnv sampleEntry ∧
    CMasternode.CheckListed { sampleEnv with GetAdjustedTime := 200000 } sampleEntry ≠
      CMasternode.CheckListed sampleEnv sampleEntry :=
  ⟨by decide,
    (C6_throttle_uses_local_clock sampleEnv false
      { sampleEntry with nTimeLastChecked := 99998 }).1 rfl (by decide) 5,
    (C6_throttle_uses_local_clock sampleEnv false
      { sampleEntry with nTimeLastChecked := 99998 }).2.2 5 sampleEntry,
    by decide⟩

/-- C7 (counterexample): while the masternode list is still syncing, a forced Check of an
allow-listed ENABLED entry of another operator whose last ping is 99000 s old runs the whole
decision tree and returns with the entry in ENABLED.  With the list synced, a forced Check of
an entry whose stored ping carries sig_time = -2^63 also returns with the entry in ENABLED:
the int64_t subtraction adjusted_now - last_ping.sig_time overflows. -/
theorem C7_enabled_with_old_ping :
    (syncingEnv.ShutdownRequested = false ∧
      (staleEntry.Check syncingEnv true).nActiveState = MASTERNODE_ENABLED ∧
      (staleEntry.Check syncingEnv true).nTimeLastChecked = syncingEnv.GetTime ∧
      ¬ (syncingEnv.GetAdjustedTime - (staleEntry.Check syncingEnv true).lastPing.sigTime <
          MASTERNODE_EXPIRATION_SECONDS)) ∧
    (sampleEnv.IsMasternodeListSynced = true ∧
      (minPingEntry.Check sampleEnv true).nActiveState = MASTERNODE_ENABLED ∧
      ¬ (sampleEnv.GetAdjustedTime - (minPingEntry.Check sampleEnv true).lastPing.sigTime <
          MASTERNODE_EXPIRATION_SECONDS)) := by
  decide

/-- C7 (amended): whenever Check runs its decision tree (shutdown not requested, throttle not
taken, key on the allow-list) while the masternode list is synced or the entry is the locally
operated masternode, the int64_t subtraction adjusted_now - last_ping.sig_time does not
overflow, and Check returns with the entry in ENABLED, the entry's last ping is non-empty and
adjusted_now - last_ping.sig_time < MASTERNODE_EXPIRATION_SECONDS (65 min). -/
theorem C7_enabled_means_fresh_ping (env : Env) (fForce : Bool) (mn : CMasternode)
    (hsd : env.ShutdownRequested = false)
    (hgo : ¬ (fForce = false ∧ env.GetTime - mn.nTimeLastChecked < MASTERNODE_CHECK_SECONDS))
    (hl : env.IsMNActive mn.pubKeyMasternode = true)
    (hs : env.IsMasternodeListSynced = true ∨ mn.fOurMasternode env = true)
    (hf : SubFits env.GetAdjustedTime mn.lastPing.sigTime)
    (hen : (mn.Check env fForce).nActiveState = MASTERNODE_ENABLED) :
    CMasternodePing.eq (mn.Check env fForce).lastPing {} = false ∧
      env.GetAdjustedTime - (mn.Check env fForce).lastPing.sigTime <
        MASTERNODE_EXPIRATION_SECONDS := by
  rw [Check_run env fForce mn hsd hgo] at hen ⊢
  rcases CheckListed_cases env { mn with nTimeLastChecked := env.GetTime } hl with
    ⟨hb, -, e⟩ | ⟨-, -, e⟩ | ⟨-, -, e⟩ | ⟨-, -, e⟩
  · rw [e] at hen
    rw [hen] at hb; exact absurd hb (by decide)
  · rw [e] at hen ⊢
    rw [(CheckStates_fields env _).2.2.1]
    refine CheckStates_enabled env _ ?_ ?_ hen
    · rcases hs with h | h
      · exact Or.inl h
      · right
        unfold CMasternode.fOurMasternode at h ⊢
        rw [(DecreasePoSeBanScore_fields _).2.1]
        exact h
    · rw [(DecreasePoSeBanScore_fields _).2.2.2.1]
      exact hf
  · rw [e] at hen; exact absurd hen (by dsimp only; decide)
  · rw [e] at hen ⊢
    rw [(CheckStates_fields env _).2.2.1]
    exact CheckStates_enabled env _ hs hf hen

/-- C7 (witness): the sample entry stays ENABLED with a ping 100 s old. -/
theorem C7_witness :
    (sampleEnv.ShutdownRequested = false ∧
      sampleEnv.IsMNActive sampleEntry.pubKeyMasternode = true ∧
      sampleEnv.IsMasternodeListSynced = true ∧
      SubFits sampleEnv.GetAdjustedTime sampleEntry.lastPing.sigTime ∧
      (sampleEntry.Check sampleEnv true).nActiveState = MASTERNODE_ENABLED) ∧
    CMasternodePing.eq (sampleEntry.Check sampleEnv true).lastPing {} = false ∧
    sampleEnv.GetAdjustedTime - (sampleEntry.Check sampleEnv true).lastPing.sigTime <
      MASTERNODE_EXPIRATION_SECONDS :=
  ⟨by decide,
    C7_enabled_means_fresh_ping sampleEnv true sampleEntry (by decide) (by decide) (by decide)
      (Or.inl (by decide)) (by decide) (by decide)⟩

/-- C8 (counterexample): while shutdown is requested, a forced Check of an allow-listed
ENABLED entry with score 0, current protocol version and a ping 5000 s old (between 65 and
180 min), list synced, returns at once and the entry stays ENABLED instead of EXPIRED.
Without shutdown, the same kind of entry with a stored ping of sig_time = -2^63 stays
ENABLED instead of NEW_START_REQUIRED: the int64_t subtraction of the age test overflows. -/
theorem C8_shutdown_keeps_enabled :
    (shutdownEnv.IsMNActive expiringEntry.pubKeyMasternode = true ∧
      expiringEntry.nActiveState = MASTERNODE_ENABLED ∧
      expiringEntry.nPoSeBanScore < MASTERNODE_POSE_BAN_MAX_SCORE ∧
      expiringEntry.fRequireUpdate shutdownEnv = false ∧
      shutdownEnv.IsMasternodeListSynced = true ∧
      (MASTERNODE_EXPIRATION_SECONDS ≤
          shutdownEnv.GetAdjustedTime - expiringEntry.lastPing.sigTime ∧
        shutdownEnv.GetAdjustedTime - expiringEntry.lastPing.sigTime <
          MASTERNODE_NEW_START_REQUIRED_SECONDS) ∧
      (expiringEntry.Check shutdownEnv true).nActiveState ≠ MASTERNODE_EXPIRED) ∧
    (sampleEnv.ShutdownRequested = false ∧
      sampleEnv.IsMNActive minPingEntry.pubKeyMasternode = true ∧
      minPingEntry.nActiveState = MASTERNODE_ENABLED ∧
      minPingEntry.nPoSeBanScore < MASTERNODE_POSE_BAN_MAX_SCORE ∧
      minPingEntry.fRequireUpdate sampleEnv = false ∧
      sampleEnv.IsMasternodeListSynced = true ∧
      MASTERNODE_NEW_START_REQUIRED_SECONDS ≤
        sampleEnv.GetAdjustedTime - minPingEntry.lastPing.sigTime ∧
      (minPingEntry.Check sampleEnv true).nActiveState ≠ MASTERNODE_NEW_START_REQUIRED) := by
  decide

/-- C8 (amended): when shutdown is not requested, for every allow-listed entry that is
ENABLED, has pose_ban_score < MAX and a protocol version that needs no update (at least the
minimum payment protocol and, for the local masternode, at least PROTOCOL_VERSION), with the
masternode list synced: a forced Check sets EXPIRED when the last ping is non-empty and
65 min <= adjusted_now - last_ping.sig_time < 180 min, and sets NEW_START_REQUIRED when the
last ping is empty, or adjusted_now - last_ping.sig_time >= 180 min and that int64_t
subtraction does not overflow (the difference is below 2^63). -/
theorem C8_ping_drought (env : Env) (mn : CMasternode)
    (hsd : env.ShutdownRequested = false)
    (hl : env.IsMNActive mn.pubKeyMasternode = true)
    (hen : mn.nActiveState = MASTERNODE_ENABLED)
    (hs : mn.nPoSeBanScore < MASTERNODE_POSE_BAN_MAX_SCORE)
    (hmin : env.GetMinMasternodePaymentsProto ≤ mn.nProtocolVersion)
    (hown : mn.fOurMasternode env = true → env.PROTOCOL_VERSION ≤ mn.nProtocolVersion)
    (hsync : env.IsMasternodeListSynced = true) :
    (CMasternodePing.eq mn.lastPing {} = false →
      MASTERNODE_EXPIRATION_SECONDS ≤ env.GetAdjustedTime - mn.lastPing.sigTime →
      env.GetAdjustedTime - mn.lastPing.sigTime < MASTERNODE_NEW_START_REQUIRED_SECONDS →
      (mn.Check env true).nActiveState = MASTERNODE_EXPIRED) ∧
    (CMasternodePing.eq mn.lastPing {} = true ∨
        (MASTERNODE_NEW_START_REQUIRED_SECONDS ≤ env.GetAdjustedTime - mn.lastPing.sigTime ∧
          env.GetAdjustedTime - mn.lastPing.sigTime < 2 ^ 63) →
      (mn.Check env true).nActiveState = MASTERNODE_NEW_START_REQUIRED) := by
  rw [Check_run env true mn hsd (by simp)]
  have hnb : mn.nActiveState ≠ MASTERNODE_POSE_BAN := by rw [hen]; decide
  have hru : CMasternode.fRequireUpdate env { mn with nTimeLastChecked := env.GetTime } = false := by
    unfold CMasternode.fRequireUpdate
    rw [Bool.or_eq_false_iff]
    constructor
    · exact decide_eq_false (not_lt.2 hmin)
    · by_cases ho : mn.fOurMasternode env = true
      · rw [Bool.and_eq_false_iff]; right
        exact decide_eq_false (not_lt.2 (hown ho))
      · rw [Bool.and_eq_false_iff]; left
        simpa using ho
  have hwf : CMasternode.fWaitForPing env { mn with nTimeLastChecked := env.GetTime } = false := by
    unfold CMasternode.fWaitForPing
    rw [hsync]; rfl
  rcases CheckListed_cases env { mn with nTimeLastChecked := env.GetTime } hl with
    ⟨hb, -, -⟩ | ⟨hb, -, -⟩ | ⟨-, h5, -⟩ | ⟨-, -, e⟩
  · exact absurd hb hnb
  · exact absurd hb hnb
  · exact absurd h5 (not_le.2 hs)
  · rw [e]
    unfold CMasternode.CheckStates
    rw [hru, hwf]
    simp only [Bool.false_eq_true, if_false, Bool.false_and, Bool.not_false, Bool.true_or,
      Bool.true_and, Bool.not_eq_true']
    unfold CMasternode.IsPingedWithin
    constructor
    · intro he h1 h2
      have he2 : CMasternodePing.eq
          ({ mn with nTimeLastChecked := env.GetTime } : CMasternode).lastPing {} = false := he
      rw [he2]
      have h1b : (65 * 60 : Int) ≤ env.GetAdjustedTime - mn.lastPing.sigTime := h1
      have h2b : env.GetAdjustedTime - mn.lastPing.sigTime < (180 * 60 : Int) := h2
      have hw := int64_wrap_of_fits env.GetAdjustedTime mn.lastPing.sigTime
        ⟨by omega, by omega⟩
      simp only [Bool.false_eq_true, if_false, beq_self_eq_true, if_true,
        decide_eq_false_iff_not, not_lt, hw]
      rw [if_neg (not_le.2 h2), if_pos h1]
    · intro h
      by_cases he : CMasternodePing.eq mn.lastPing {} = true
      · have he2 : CMasternodePing.eq
            ({ mn with nTimeLastChecked := env.GetTime } : CMasternode).lastPing {} = true := he
        rw [he2]
        simp
      · have he2 : CMasternodePing.eq
            ({ mn with nTimeLastChecked := env.GetTime } : CMasternode).lastPing {} = false := by
          simpa using he
        rcases h with h | ⟨h, hlt⟩
        · exact absurd h he
        · rw [he2]
          have hb : (180 * 60 : Int) ≤ env.GetAdjustedTime - mn.lastPing.sigTime := h
          have hw := int64_wrap_of_fits env.GetAdjustedTime mn.lastPing.sigTime
            ⟨by omega, hlt⟩
          simp only [Bool.false_eq_true, if_false, beq_self_eq_true, if_true,
            decide_eq_false_iff_not, not_lt, hw]
          rw [if_pos h]

/-- C8 (witness): a ping 5000 s old expires the entry. -/
theorem C8_witness :
    (sampleEnv.ShutdownRequested = false ∧
      sampleEnv.IsMNActive expiringEntry.pubKeyMasternode = true ∧
      expiringEntry.nActiveState = MASTERNODE_ENABLED ∧
      expiringEntry.nPoSeBanScore < MASTERNODE_POSE_BAN_MAX_SCORE ∧
      sampleEnv.GetMinMasternodePaymentsProto ≤ expiringEntry.nProtocolVersion ∧
      sampleEnv.IsMasternodeListSynced = true ∧
      CMasternodePing.eq expiringEntry.lastPing {} = false ∧
      MASTERNODE_EXPIRATION_SECONDS ≤
        sampleEnv.GetAdjustedTime - expiringEntry.lastPing.sigTime ∧
      sampleEnv.GetAdjustedTime - expiringEntry.lastPing.sigTime <
        MASTERNODE_NEW_START_REQUIRED_SECONDS) ∧
    (expiringEntry.Check sampleEnv true).nActiveState = MASTERNODE_EXPIRED :=
  ⟨by decide,
    (C8_ping_drought sampleEnv expiringEntry (by decide) (by decide) (by decide) (by decide)
      (by decide) (by decide) (by decide)).1 (by decide) (by decide) (by decide)⟩

/-- The return value of the broadcast SimpleCheck as one Boolean formula: the ping test
only writes nActiveState and nDos. -/
theorem SimpleCheck_ret (env : Env) (mnb : CMasternodeBroadcast) :
    (mnb.SimpleCheck env).ret = true ↔
      (IsValidNetAddr env mnb.addr = true ∧
        mnb.sigTime ≤ env.GetAdjustedTime + 60 * 60 ∧
        env.GetMinMasternodePaymentsProto ≤ mnb.nProtocolVersion ∧
        (env.scriptForPayee mnb.payee).length = 25 ∧
        (env.scriptForKeyID mnb.pubKeyMasternode).length = 25 ∧
        (env.NetworkIDString = CBaseChainParams_MAIN →
          mnb.addr.port = env.mainnetDefaultPort) ∧
        (env.NetworkIDString ≠ CBaseChainParams_MAIN →
          mnb.addr.port ≠ env.mainnetDefaultPort)) := by
  unfold CMasternodeBroadcast.SimpleCheck
  by_cases h1 : IsValidNetAddr env mnb.addr = true
  swap
  · simp [h1]
  by_cases h2 : mnb.sigTime > env.GetAdjustedTime + 60 * 60
  · rw [if_neg (by simp [h1]), if_pos h2]
    constructor
    · intro h; exact absurd h Bool.false_ne_true
    · intro h; exact absurd h.2.1 (not_le.2 h2)
  rw [if_neg (by simp [h1]), if_neg h2]
  have hp : ∀ b : Bool,
      (if b = true then ({ mnb with nActiveState := MASTERNODE_EXPIRED } : CMasternodeBroadcast)
        else mnb).nProtocolVersion = mnb.nProtocolVersion ∧
      (if b = true then ({ mnb with nActiveState := MASTERNODE_EXPIRED } : CMasternodeBroadcast)
        else mnb).payee = mnb.payee ∧
      (if b = true then ({ mnb with nActiveState := MASTERNODE_EXPIRED } : CMasternodeBroadcast)
        else mnb).pubKeyMasternode = mnb.pubKeyMasternode ∧
      (if b = true then ({ mnb with nActiveState := MASTERNODE_EXPIRED } : CMasternodeBroadcast)
        else mnb).addr = mnb.addr := by
    intro b; cases b <;> simp
  dsimp only
  obtain ⟨p1, p2, p3, p4⟩ := hp (CMasternodePing.eq mnb.lastPing {} ||
    !(mnb.lastPing.SimpleCheck env).ret)
  rw [p1, p2, p3, p4]
  have h2' : mnb.sigTime ≤ env.GetAdjustedTime + 60 * 60 := not_lt.1 h2
  by_cases h3 : mnb.nProtocolVersion < env.GetMinMasternodePaymentsProto
  · rw [if_pos h3]
    constructor
    · intro h; exact absurd h Bool.false_ne_true
    · intro h; exact absurd h.2.2.1 (not_le.2 h3)
  rw [if_neg h3]
  by_cases h4 : (env.scriptForPayee mnb.payee).length = 25
  swap
  · rw [if_pos (by simpa using h4)]
    constructor
    · intro h; exact absurd h Bool.false_ne_true
    · intro h; exact absurd h.2.2.2.1 h4
  rw [if_neg (by simpa using h4)]
  by_cases h5 : (env.scriptForKeyID mnb.pubKeyMasternode).length = 25
  swap
  · rw [if_pos (by simpa using h5)]
    constructor
    · intro h; exact absurd h Bool.false_ne_true
    · intro h; exact absurd h.2.2.2.2.1 h5
  rw [if_neg (by simpa using h5)]
  by_cases h6 : env.NetworkIDString = CBaseChainParams_MAIN
  · rw [if_pos (by simpa using h6)]
    by_cases h7 : mnb.addr.port = env.mainnetDefaultPort
    · rw [if_neg (by simpa using h7)]
      exact ⟨fun _ => ⟨h1, h2', not_lt.1 h3, h4, h5, fun _ => h7, fun h => absurd h6 h⟩,
        fun _ => rfl⟩
    · rw [if_pos (by simpa using h7)]
      constructor
      · intro h; exact absurd h Bool.false_ne_true
      · intro h; exact absurd (h.2.2.2.2.2.1 h6) h7
  · rw [if_neg (by simpa using h6)]
    by_cases h7 : mnb.addr.port = env.mainnetDefaultPort
    · rw [if_pos (by simpa using h7)]
      constructor
      · intro h; exact absurd h Bool.false_ne_true
      · intro h; exact absurd h7 (h.2.2.2.2.2.2 h6)
    · rw [if_neg (by simpa using h7)]
      exact ⟨fun _ => ⟨h1, h2', not_lt.1 h3, h4, h5, fun h => absurd h h6, fun _ => h7⟩,
        fun _ => rfl⟩

/-- C9: CMasternodeBroadcast::SimpleCheck returns true exactly when the address passes
IsValidNetAddr (the network is regtest, or the address is IPv4, reachable and routable),
sig_time <= adjusted_now + 3600, protocol_version >= min_payment_proto, the payee script and
the pub-key-id script are each exactly 25 bytes, and the port equals the mainnet default on
mainnet and differs from it on every other network; and the returned value is the same for
every value of last_ping. -/
theorem C9_SimpleCheck_accepts_iff (env : Env) (mnb : CMasternodeBroadcast) :
    ((mnb.SimpleCheck env).ret = true ↔
      ((env.NetworkIDString = "regtest" ∨
          (env.IsIPv4 mnb.addr = true ∧ env.IsReachable mnb.addr = true ∧
            env.IsRoutable mnb.addr = true)) ∧
        mnb.sigTime ≤ env.GetAdjustedTime + 3600 ∧
        mnb.nProtocolVersion ≥ env.GetMinMasternodePaymentsProto ∧
        (env.scriptForPayee mnb.payee).length = 25 ∧
        (env.scriptForKeyID mnb.pubKeyMasternode).length = 25 ∧
        (env.NetworkIDString = "main" → mnb.addr.port = env.mainnetDefaultPort) ∧
        (env.NetworkIDString ≠ "main" → mnb.addr.port ≠ env.mainnetDefaultPort))) ∧
    (IsValidNetAddr env mnb.addr = true ↔
      (env.NetworkIDString = "regtest" ∨
        (env.IsIPv4 mnb.addr = true ∧ env.IsReachable mnb.addr = true ∧
          env.IsRoutable mnb.addr = true))) ∧
    (∀ ping : CMasternodePing,
      (CMasternodeBroadcast.SimpleCheck env { mnb with lastPing := ping }).ret =
        (mnb.SimpleCheck env).ret) := by
  have hv : IsValidNetAddr env mnb.addr = true ↔
      (env.NetworkIDString = "regtest" ∨
        (env.IsIPv4 mnb.addr = true ∧ env.IsReachable mnb.addr = true ∧
          env.IsRoutable mnb.addr = true)) := by
    unfold IsValidNetAddr
    simp only [Bool.or_eq_true, Bool.and_eq_true, beq_iff_eq, and_assoc]
  refine ⟨?_, hv, ?_⟩
  · rw [SimpleCheck_ret, hv]
    have e : (60 : Int) * 60 = 3600 := by decide
    rw [e]
  · intro ping
    rw [Bool.eq_iff_iff, SimpleCheck_ret, SimpleCheck_ret]

/-- C9 (witness): the sample broadcast meets all conditions and is accepted. -/
theorem C9_witness : (sampleBroadcast.SimpleCheck sampleEnv).ret = true :=
  (C9_SimpleCheck_accepts_iff sampleEnv sampleBroadcast).1.2
    ⟨Or.inr (by decide), by decide, by decide, by decide, by decide, fun _ => by decide,
      fun h => absurd rfl h⟩

/-- C10: for every broadcast with a valid network address and sig_time > adjusted_now + 3600,
CMasternodeBroadcast::SimpleCheck returns false with nDos == 1 and leaves the broadcast
record, the only entry it can write to, exactly as it was; it has no access to the
registry. -/
theorem C10_future_sigTime_rejected (env : Env) (mnb : CMasternodeBroadcast)
    (haddr : IsValidNetAddr env mnb.addr = true)
    (hfut : mnb.sigTime > env.GetAdjustedTime + 3600) :
    (mnb.SimpleCheck env).ret = false ∧ (mnb.SimpleCheck env).nDos = 1 ∧
      (mnb.SimpleCheck env).mnb = mnb := by
  unfold CMasternodeBroadcast.SimpleCheck
  have e : (60 : Int) * 60 = 3600 := by decide
  rw [if_neg (by simp [haddr]), e, if_pos hfut]
  exact ⟨rfl, rfl, rfl⟩

/-- C10 (witness): the sample broadcast signed at adjusted_now + 3601. -/
theorem C10_witness :
    (IsValidNetAddr sampleEnv
        ({ sampleBroadcast with sigTime := 103601 } : CMasternodeBroadcast).addr = true ∧
      ({ sampleBroadcast with sigTime := 103601 } : CMasternodeBroadcast).sigTime =
        sampleEnv.GetAdjustedTime + 3601) ∧
    (CMasternodeBroadcast.SimpleCheck sampleEnv { sampleBroadcast with sigTime := 103601 }).ret
        = false ∧
    (CMasternodeBroadcast.SimpleCheck sampleEnv { sampleBroadcast with sigTime := 103601 }).nDos
        = 1 ∧
    (CMasternodeBroadcast.SimpleCheck sampleEnv { sampleBroadcast with sigTime := 103601 }).mnb
        = { sampleBroadcast with sigTime := 103601 } :=
  ⟨by decide,
    C10_future_sigTime_rejected sampleEnv { sampleBroadcast with sigTime := 103601 }
      (by decide) (by decide)⟩

/-- The nDos of the ping SimpleCheck: 1 for a sig_time more than an hour ahead, else 0. -/
theorem ping_SimpleCheck_nDos (env : Env) (mnp : CMasternodePing) :
    (mnp.sigTime > env.GetAdjustedTime + 3600 → (mnp.SimpleCheck env).nDos = 1) ∧
    (mnp.sigTime ≤ env.GetAdjustedTime + 3600 → (mnp.SimpleCheck env).nDos = 0) := by
  have e : (60 : Int) * 60 = 3600 := by decide
  unfold CMasternodePing.SimpleCheck
  rw [e]
  constructor
  · intro h; rw [if_pos h]
  · intro h
    rw [if_neg (not_lt.2 h)]
    cases env.mapBlockIndex mnp.blockHash <;> rfl

/-- The nDos that the broadcast SimpleCheck reports when its own sig_time and both script
sizes pass: 1 exactly when the embedded ping is non-empty and signed more than an hour
ahead, 0 otherwise; an invalid address returns before the ping is looked at. -/
theorem SimpleCheck_nDos (env : Env) (mnb : CMasternodeBroadcast)
    (ht : mnb.sigTime ≤ env.GetAdjustedTime + 3600)
    (h1 : (env.scriptForPayee mnb.payee).length = 25)
    (h2 : (env.scriptForKeyID mnb.pubKeyMasternode).length = 25) :
    (mnb.SimpleCheck env).nDos =
      (if IsValidNetAddr env mnb.addr = true ∧ CMasternodePing.eq mnb.lastPing {} = false ∧
          mnb.lastPing.sigTime > env.GetAdjustedTime + 3600 then 1 else 0) := by
  have e : (60 : Int) * 60 = 3600 := by decide
  unfold CMasternodeBroadcast.SimpleCheck
  by_cases ha : IsValidNetAddr env mnb.addr = true
  swap
  · rw [if_pos (by simpa using ha), if_neg (fun h => ha h.1)]
  rw [if_neg (by simp [ha]), e, if_neg (not_lt.2 ht)]
  dsimp only
  have hp : ∀ b : Bool,
      (if b = true then ({ mnb with nActiveState := MASTERNODE_EXPIRED } : CMasternodeBroadcast)
        else mnb).nProtocolVersion = mnb.nProtocolVersion ∧
      (if b = true then ({ mnb with nActiveState := MASTERNODE_EXPIRED } : CMasternodeBroadcast)
        else mnb).payee = mnb.payee ∧
      (if b = true then ({ mnb with nActiveState := MASTERNODE_EXPIRED } : CMasternodeBroadcast)
        else mnb).pubKeyMasternode = mnb.pubKeyMasternode ∧
      (if b = true then ({ mnb with nActiveState := MASTERNODE_EXPIRED } : CMasternodeBroadcast)
        else mnb).addr = mnb.addr := by
    intro b; cases b <;> simp
  obtain ⟨p1, p2, p3, p4⟩ := hp (CMasternodePing.eq mnb.lastPing {} ||
    !(mnb.lastPing.SimpleCheck env).ret)
  rw [p1, p2, p3, p4]
  have hn : (if CMasternodePing.eq mnb.lastPing {} = true then (0 : Int)
      else (mnb.lastPing.SimpleCheck env).nDos) =
      (if IsValidNetAddr env mnb.addr = true ∧ CMasternodePing.eq mnb.lastPing {} = false ∧
          mnb.lastPing.sigTime > env.GetAdjustedTime + 3600 then 1 else 0) := by
    by_cases he : CMasternodePing.eq mnb.lastPing {} = true
    · rw [if_pos he, if_neg (by simp [he])]
    · rw [if_neg he]
      by_cases hf : mnb.lastPing.sigTime > env.GetAdjustedTime + 3600
      · rw [if_pos ⟨ha, by simpa using he, hf⟩]
        exact (ping_SimpleCheck_nDos env mnb.lastPing).1 hf
      · rw [if_neg (fun h => hf h.2.2)]
        exact (ping_SimpleCheck_nDos env mnb.lastPing).2 (not_lt.1 hf)
  rw [hn]
  have h1b : ¬ ((env.scriptForPayee mnb.payee).length != 25) = true := by simp [h1]
  have h2b : ¬ ((env.scriptForKeyID mnb.pubKeyMasternode).length != 25) = true := by simp [h2]
  rw [if_neg h1b, if_neg h2b]
  split_ifs <;> rfl

/-! ## Frame lemmas for the merge of a broadcast -/

theorem SameIdentity_refl (a : CMasternode) : a.SameIdentity a :=
  ⟨rfl, rfl, rfl, rfl, rfl, rfl⟩

theorem SameIdentity_trans {a b c : CMasternode} (h1 : a.SameIdentity b)
    (h2 : b.SameIdentity c) : a.SameIdentity c :=
  ⟨h1.1.trans h2.1, h1.2.1.trans h2.2.1, h1.2.2.1.trans h2.2.2.1,
    h1.2.2.2.1.trans h2.2.2.2.1, h1.2.2.2.2.1.trans h2.2.2.2.2.1,
    h1.2.2.2.2.2.trans h2.2.2.2.2.2⟩

theorem DecreasePoSeBanScore_identity (mn : CMasternode) :
    mn.DecreasePoSeBanScore.SameIdentity mn ∧ mn.DecreasePoSeBanScore.lastPing = mn.lastPing := by
  unfold CMasternode.DecreasePoSeBanScore
  split_ifs
  · exact ⟨⟨rfl, rfl, rfl, rfl, rfl, rfl⟩, rfl⟩
  · exact ⟨SameIdentity_refl mn, rfl⟩

theorem CheckStates_identity (env : Env) (mn : CMasternode) :
    (mn.CheckStates env).SameIdentity mn ∧ (mn.CheckStates env).lastPing = mn.lastPing := by
  rw [CheckStates_frame]
  exact ⟨⟨rfl, rfl, rfl, rfl, rfl, rfl⟩, rfl⟩

theorem CheckListed_identity (env : Env) (mn : CMasternode) :
    (CMasternode.CheckListed env mn).SameIdentity mn ∧
      (CMasternode.CheckListed env mn).lastPing = mn.lastPing := by
  by_cases hl : env.IsMNActive mn.pubKeyMasternode = true
  · rcases CheckListed_cases env mn hl with ⟨-, -, e⟩ | ⟨-, -, e⟩ | ⟨-, -, e⟩ | ⟨-, -, e⟩
    · rw [e]; exact ⟨SameIdentity_refl mn, rfl⟩
    · rw [e]
      exact ⟨SameIdentity_trans (CheckStates_identity env _).1
          (DecreasePoSeBanScore_identity mn).1,
        (CheckStates_identity env _).2.trans (DecreasePoSeBanScore_identity mn).2⟩
    · rw [e]; exact ⟨⟨rfl, rfl, rfl, rfl, rfl, rfl⟩, rfl⟩
    · rw [e]; exact CheckStates_identity env mn
  · have e : CMasternode.CheckListed env mn = mn := by
      unfold CMasternode.CheckListed
      simp [hl]
    rw [e]; exact ⟨SameIdentity_refl mn, rfl⟩

/-- Check writes neither the signed fields nor the last ping. -/
theorem Check_identity (env : Env) (fForce : Bool) (mn : CMasternode) :
    (mn.Check env fForce).SameIdentity mn ∧ (mn.Check env fForce).lastPing = mn.lastPing := by
  rcases Check_cases env fForce mn with e | e
  · rw [e]; exact ⟨SameIdentity_refl mn, rfl⟩
  · rw [e]
    have h := CheckListed_identity env { mn with nTimeLastChecked := env.GetTime }
    exact ⟨SameIdentity_trans h.1 ⟨rfl, rfl, rfl, rfl, rfl, rfl⟩, h.2⟩

/-- An unforced Check applied twice in the same context does what it does once: the first
run stamps the local time, so the second run is throttled. -/
theorem Check_idem (env : Env) (mn : CMasternode) :
    (mn.Check env false).Check env false = mn.Check env false := by
  by_cases hsd : env.ShutdownRequested = true
  · unfold CMasternode.Check
    simp [hsd]
  · have hsd2 : env.ShutdownRequested = false := by simpa using hsd
    by_cases ht : env.GetTime - mn.nTimeLastChecked < MASTERNODE_CHECK_SECONDS
    · have e : mn.Check env false = mn := by
        unfold CMasternode.Check
        simp [hsd2, ht]
      rw [e, e]
    · have e := Check_run env false mn hsd2 (fun h => ht h.2)
      have hstamp : (mn.Check env false).nTimeLastChecked = env.GetTime := by
        rw [e, CheckListed_nTimeLastChecked]
      generalize mn.Check env false = x at hstamp ⊢
      unfold CMasternode.Check
      have h0 : env.GetTime - x.nTimeLastChecked < MASTERNODE_CHECK_SECONDS := by
        rw [hstamp, sub_self]; decide
      simp [hsd2, h0]

/-! ## Case lemmas for CMasternodeBroadcast::Update -/

/-- The duplicate rule and the stale rule return before the entry is evaluated. -/
theorem Update_early (env : Env) (w : World) (mnb : CMasternodeBroadcast) (pmn : CMasternode)
    (h : (pmn.sigTime = mnb.sigTime ∧ mnb.fRecovery = false) ∨ pmn.sigTime > mnb.sigTime) :
    mnb.Update env w pmn = some { ret := false, nDos := 0, pmn := pmn, world := w } := by
  unfold CMasternodeBroadcast.Update
  rcases h with ⟨h1, h2⟩ | h
  · simp [h1, h2]
  · by_cases hd : (pmn.sigTime == mnb.sigTime && !mnb.fRecovery) = true
    · rw [if_pos hd]
    · rw [if_neg hd, if_pos h]

/-- Past the duplicate and stale rules, a banned entry makes Update return false. -/
theorem Update_banned (env : Env) (w : World) (mnb : CMasternodeBroadcast) (pmn : CMasternode)
    (hne : ¬ ((pmn.sigTime = mnb.sigTime ∧ mnb.fRecovery = false) ∨ pmn.sigTime > mnb.sigTime))
    (hb : (pmn.Check env false).IsPoSeBanned = true) :
    mnb.Update env w pmn =
      some { ret := false, nDos := 0, pmn := pmn.Check env false, world := w } := by
  unfold CMasternodeBroadcast.Update
  have h1 : ¬ (pmn.sigTime == mnb.sigTime && !mnb.fRecovery) = true := by
    intro h; apply hne; left; simpa using h
  have h2 : ¬ pmn.sigTime > mnb.sigTime := fun h => hne (Or.inr h)
  rw [if_neg h1, if_neg h2]
  dsimp only
  rw [if_pos hb]

/-- Past the ban test, a different payee makes Update return false with nDos 33. -/
theorem Update_payee (env : Env) (w : World) (mnb : CMasternodeBroadcast) (pmn : CMasternode)
    (hne : ¬ ((pmn.sigTime = mnb.sigTime ∧ mnb.fRecovery = false) ∨ pmn.sigTime > mnb.sigTime))
    (hb : (pmn.Check env false).IsPoSeBanned = false)
    (hp : pmn.payee ≠ mnb.payee) :
    mnb.Update env w pmn =
      some { ret := false, nDos := 33, pmn := pmn.Check env false, world := w } := by
  unfold CMasternodeBroadcast.Update
  have h1 : ¬ (pmn.sigTime == mnb.sigTime && !mnb.fRecovery) = true := by
    intro h; apply hne; left; simpa using h
  have h2 : ¬ pmn.sigTime > mnb.sigTime := fun h => hne (Or.inr h)
  have h3 : ((pmn.Check env false).payee != mnb.payee) = true := by
    rw [(Check_identity env false pmn).1.2.1]; simpa using hp
  rw [if_neg h1, if_neg h2]
  dsimp only
  rw [if_neg (by simp [hb]), if_pos h3]

/-- Past the payee test, a signature that does not verify makes Update return false with
the nDos of CheckSignature, which is 100. -/
theorem Update_badsig (env : Env) (w : World) (mnb : CMasternodeBroadcast) (pmn : CMasternode)
    (hne : ¬ ((pmn.sigTime = mnb.sigTime ∧ mnb.fRecovery = false) ∨ pmn.sigTime > mnb.sigTime))
    (hb : (pmn.Check env false).IsPoSeBanned = false)
    (hp : pmn.payee = mnb.payee)
    (hs : env.VerifyMessage mnb.pubKeyMasternode mnb.vchSig (mnb.strMessage env) = false) :
    mnb.Update env w pmn =
      some { ret := false, nDos := 100, pmn := pmn.Check env false, world := w } := by
  unfold CMasternodeBroadcast.Update
  have h1 : ¬ (pmn.sigTime == mnb.sigTime && !mnb.fRecovery) = true := by
    intro h; apply hne; left; simpa using h
  have h2 : ¬ pmn.sigTime > mnb.sigTime := fun h => hne (Or.inr h)
  have h3 : ¬ ((pmn.Check env false).payee != mnb.payee) = true := by
    rw [(Check_identity env false pmn).1.2.1]; simpa using hp
  have h4 : mnb.CheckSignature env = { ret := false, nDos := 100 } := by
    unfold CMasternodeBroadcast.CheckSignature
    simp [hs]
  rw [if_neg h1, if_neg h2]
  dsimp only
  rw [if_neg (by simp [hb]), if_neg h3, h4]
  rfl

/-- Past the signature test, Update returns true; with the acceptance gate closed the entry
is the evaluated entry and nothing else happens. -/
theorem Update_gate_closed (env : Env) (w : World) (mnb : CMasternodeBroadcast)
    (pmn : CMasternode)
    (hne : ¬ ((pmn.sigTime = mnb.sigTime ∧ mnb.fRecovery = false) ∨ pmn.sigTime > mnb.sigTime))
    (hb : (pmn.Check env false).IsPoSeBanned = false)
    (hp : pmn.payee = mnb.payee)
    (hs : env.VerifyMessage mnb.pubKeyMasternode mnb.vchSig (mnb.strMessage env) = true)
    (hg : (!(pmn.Check env false).IsBroadcastedWithin env MASTERNODE_MIN_MNB_SECONDS ||
      (env.fMasterNode && (mnb.pubKeyMasternode == env.activePubKeyMasternode))) = false) :
    mnb.Update env w pmn =
      some { ret := true, nDos := 0, pmn := pmn.Check env false, world := w } := by
  unfold CMasternodeBroadcast.Update
  have h1 : ¬ (pmn.sigTime == mnb.sigTime && !mnb.fRecovery) = true := by
    intro h; apply hne; left; simpa using h
  have h2 : ¬ pmn.sigTime > mnb.sigTime := fun h => hne (Or.inr h)
  have h3 : ¬ ((pmn.Check env false).payee != mnb.payee) = true := by
    rw [(Check_identity env false pmn).1.2.1]; simpa using hp
  have h4 : mnb.CheckSignature env = { ret := true, nDos := 0 } := by
    unfold CMasternodeBroadcast.CheckSignature
    simp [hs]
  rw [if_neg h1, if_neg h2]
  dsimp only
  rw [if_neg (by simp [hb]), if_neg h3, h4]
  dsimp only
  rw [if_neg (by decide), hg]
  rfl

/-- With the acceptance gate open, Update hands the broadcast to UpdateFromNewBroadcast,
re-evaluates and relays when that returns true, and returns true either way. -/
theorem Update_gate_open (env : Env) (w : World) (mnb : CMasternodeBroadcast)
    (pmn : CMasternode) (m : MergeResult)
    (hne : ¬ ((pmn.sigTime = mnb.sigTime ∧ mnb.fRecovery = false) ∨ pmn.sigTime > mnb.sigTime))
    (hb : (pmn.Check env false).IsPoSeBanned = false)
    (hp : pmn.payee = mnb.payee)
    (hs : env.VerifyMessage mnb.pubKeyMasternode mnb.vchSig (mnb.strMessage env) = true)
    (hg : (!(pmn.Check env false).IsBroadcastedWithin env MASTERNODE_MIN_MNB_SECONDS ||
      (env.fMasterNode && (mnb.pubKeyMasternode == env.activePubKeyMasternode))) = true)
    (hm : (pmn.Check env false).UpdateFromNewBroadcast env w mnb = some m) :
    mnb.Update env w pmn =
      some { ret := true, nDos := 0,
             pmn := if m.ret then m.mn.Check env false else m.mn,
             world := BumpAssetLastTime (if m.ret then mnb.Relay env m.world else m.world)
               "CMasternodeBroadcast::Update" } := by
  unfold CMasternodeBroadcast.Update
  have h1 : ¬ (pmn.sigTime == mnb.sigTime && !mnb.fRecovery) = true := by
    intro h; apply hne; left; simpa using h
  have h2 : ¬ pmn.sigTime > mnb.sigTime := fun h => hne (Or.inr h)
  have h3 : ¬ ((pmn.Check env false).payee != mnb.payee) = true := by
    rw [(Check_identity env false pmn).1.2.1]; simpa using hp
  have h4 : mnb.CheckSignature env = { ret := true, nDos := 0 } := by
    unfold CMasternodeBroadcast.CheckSignature
    simp [hs]
  rw [if_neg h1, if_neg h2]
  dsimp only
  rw [if_neg (by simp [hb]), if_neg h3, h4]
  dsimp only
  rw [if_neg (by decide), hg, hm]
  rfl

/-! ## Case lemmas for CheckAndUpdate and UpdateFromNewBroadcast -/

/-- What storing a ping leaves behind: the forced Check of the entry with the new ping, the
seen-ping cache untouched, and the return value saying whether the entry is ENABLED. -/
theorem install_outcome (env : Env) (w : World) (mnp : CMasternodePing) (mn : CMasternode)
    (nDos : Int) :
    (mnp.install env w mn nDos).pmn =
        some (CMasternode.Check env true { mn with lastPing := mnp }) ∧
    (mnp.install env w mn nDos).world.mapSeenMasternodePing = w.mapSeenMasternodePing ∧
    (mnp.install env w mn nDos).ret =
        (CMasternode.Check env true { mn with lastPing := mnp }).IsEnabled := by
  unfold CMasternodePing.install
  dsimp only
  cases he : (CMasternode.Check env true { mn with lastPing := mnp }).IsEnabled
  · simp only [Bool.not_false, if_true]
    refine ⟨trivial, ?_, trivial⟩
    split_ifs <;> rfl
  · simp only [Bool.not_true, Bool.false_eq_true, if_false]
    refine ⟨trivial, ?_, trivial⟩
    unfold CMasternodePing.Relay
    split_ifs <;> rfl

/-- The two outcomes of CheckAndUpdate on an entry: the ping is refused before anything is
written, or it passed SimpleCheck and the signature check and was stored. -/
theorem CheckAndUpdate_outcome (env : Env) (w : World) (mnp : CMasternodePing)
    (mn : CMasternode) (f : Bool) :
    ∃ r, mnp.CheckAndUpdate env w (some mn) f = some r ∧
      ((r.ret = false ∧ r.pmn = some mn ∧ r.world = w) ∨
        ((mnp.SimpleCheck env).ret = true ∧
          (mnp.CheckSignature env mn.pubKeyMasternode).ret = true ∧
          r.pmn = some (CMasternode.Check env true { mn with lastPing := mnp }) ∧
          r.world.mapSeenMasternodePing = w.mapSeenMasternodePing ∧
          r.ret = (CMasternode.Check env true { mn with lastPing := mnp }).IsEnabled)) := by
  unfold CMasternodePing.CheckAndUpdate
  by_cases hsc : (mnp.SimpleCheck env).ret = true
  · obtain ⟨pindex, hb⟩ := ping_SimpleCheck_found env mnp hsc
    simp only [hsc, hb, Bool.not_true, Bool.false_eq_true, if_false]
    by_cases hcs : (mnp.CheckSignature env mn.pubKeyMasternode).ret = true
    · simp only [hcs, Bool.not_true, Bool.false_eq_true, if_false]
      split_ifs
      all_goals first
        | exact ⟨_, rfl, Or.inl ⟨rfl, rfl, rfl⟩⟩
        | exact ⟨_, rfl, Or.inr ⟨trivial, trivial, (install_outcome _ _ _ _ _).1,
            (install_outcome _ _ _ _ _).2.1, (install_outcome _ _ _ _ _).2.2⟩⟩
    · have hcs2 : (mnp.CheckSignature env mn.pubKeyMasternode).ret = false := by
        simpa using hcs
      simp only [hcs2, Bool.not_false, if_true]
      split_ifs
      all_goals exact ⟨_, rfl, Or.inl ⟨rfl, rfl, rfl⟩⟩
  · have hsc2 : (mnp.SimpleCheck env).ret = false := by simpa using hsc
    simp only [hsc2, Bool.not_false, if_true]
    exact ⟨_, rfl, Or.inl ⟨rfl, rfl, rfl⟩⟩

/-- What the last lines of UpdateFromNewBroadcast write: only the score, and only for the
locally operated masternode. -/
theorem finishMerge_outcome (env : Env) (w : World) (mn : CMasternode) :
    (mn.finishMerge env w).mn.SameIdentity mn ∧
    (mn.finishMerge env w).mn.lastPing = mn.lastPing ∧
    (mn.finishMerge env w).mn.nPoSeBanHeight = mn.nPoSeBanHeight ∧
    (mn.finishMerge env w).mn.nTimeLastChecked = mn.nTimeLastChecked ∧
    (mn.finishMerge env w).world.mapSeenMasternodePing = w.mapSeenMasternodePing ∧
    (mn.finishMerge env w).mn.nPoSeBanScore =
      (if env.fMasterNode = true ∧ mn.pubKeyMasternode = env.activePubKeyMasternode then
        -MASTERNODE_POSE_BAN_MAX_SCORE else mn.nPoSeBanScore) := by
  unfold CMasternode.finishMerge
  by_cases ho : env.fMasterNode = true ∧ mn.pubKeyMasternode = env.activePubKeyMasternode
  · have hc : (env.fMasterNode && (mn.pubKeyMasternode == env.activePubKeyMasternode)) = true := by
      simp [ho.1, ho.2]
    rw [if_pos hc, if_pos ho]
    dsimp only
    split_ifs <;> exact ⟨⟨rfl, rfl, rfl, rfl, rfl, rfl⟩, rfl, rfl, rfl, rfl, rfl⟩
  · have hc : ¬ (env.fMasterNode && (mn.pubKeyMasternode == env.activePubKeyMasternode)) = true := by
      simpa using ho
    rw [if_neg hc, if_neg ho]
    exact ⟨⟨rfl, rfl, rfl, rfl, rfl, rfl⟩, rfl, rfl, rfl, rfl, rfl⟩

/-- UpdateFromNewBroadcast returns at once for an equal-or-older broadcast without the
recovery flag. -/
theorem UpdateFromNewBroadcast_guard (env : Env) (w : World) (mn : CMasternode)
    (mnb : CMasternodeBroadcast) (hg : mnb.sigTime ≤ mn.sigTime ∧ mnb.fRecovery = false) :
    mn.UpdateFromNewBroadcast env w mnb = some { ret := false, mn := mn, world := w } := by
  unfold CMasternode.UpdateFromNewBroadcast
  simp [hg.1, hg.2]

/-- UpdateFromNewBroadcast with an empty ping in the broadcast. -/
theorem UpdateFromNewBroadcast_empty (env : Env) (w : World) (mn : CMasternode)
    (mnb : CMasternodeBroadcast) (hg : ¬ (mnb.sigTime ≤ mn.sigTime ∧ mnb.fRecovery = false))
    (he : CMasternodePing.eq mnb.lastPing {} = true) :
    mn.UpdateFromNewBroadcast env w mnb =
      some (((mn.mergeFields mnb).takePing env w mnb.lastPing).1.finishMerge env
        ((mn.mergeFields mnb).takePing env w mnb.lastPing).2) := by
  unfold CMasternode.UpdateFromNewBroadcast
  have h1 : ¬ (decide (mnb.sigTime ≤ mn.sigTime) && !mnb.fRecovery) = true := by
    simpa using hg
  rw [if_neg h1]
  dsimp only
  rw [if_pos he]
  rfl

/-- UpdateFromNewBroadcast with a non-empty ping in the broadcast. -/
theorem UpdateFromNewBroadcast_ping (env : Env) (w : World) (mn : CMasternode)
    (mnb : CMasternodeBroadcast) (c : PingUpdateResult)
    (hg : ¬ (mnb.sigTime ≤ mn.sigTime ∧ mnb.fRecovery = false))
    (he : CMasternodePing.eq mnb.lastPing {} = false)
    (hc : mnb.lastPing.CheckAndUpdate env w (some (mn.mergeFields mnb)) true = some c) :
    mn.UpdateFromNewBroadcast env w mnb =
      some (if c.ret = true then
          ((c.pmn.getD (mn.mergeFields mnb)).takePing env c.world mnb.lastPing).1.finishMerge env
            ((c.pmn.getD (mn.mergeFields mnb)).takePing env c.world mnb.lastPing).2
        else (c.pmn.getD (mn.mergeFields mnb)).finishMerge env c.world) := by
  unfold CMasternode.UpdateFromNewBroadcast
  have h1 : ¬ (decide (mnb.sigTime ≤ mn.sigTime) && !mnb.fRecovery) = true := by
    simpa using hg
  have hc2 : mnb.lastPing.CheckAndUpdate env w (some
      { mn with pubKeyMasternode := mnb.pubKeyMasternode, sigTime := mnb.sigTime,
                vchSig := mnb.vchSig, nProtocolVersion := mnb.nProtocolVersion,
                addr := mnb.addr, nPoSeBanScore := 0, nPoSeBanHeight := 0,
                nTimeLastChecked := 0 }) true = some c := hc
  rw [if_neg h1]
  dsimp only
  rw [if_neg (by simp [he]), hc2]
  dsimp only
  split_ifs <;> rfl

/-- A merge leaves the entry with the signed fields of the broadcast and its own payee. -/
theorem UpdateFromNewBroadcast_identity (env : Env) (w : World) (mn : CMasternode)
    (mnb : CMasternodeBroadcast) (hg : ¬ (mnb.sigTime ≤ mn.sigTime ∧ mnb.fRecovery = false)) :
    ∃ m, mn.UpdateFromNewBroadcast env w mnb = some m ∧
      m.mn.SameIdentity (mn.mergeFields mnb) := by
  by_cases he : CMasternodePing.eq mnb.lastPing {} = true
  · refine ⟨_, UpdateFromNewBroadcast_empty env w mn mnb hg he, ?_⟩
    exact SameIdentity_trans (finishMerge_outcome env _ _).1 ⟨rfl, rfl, rfl, rfl, rfl, rfl⟩
  · have he2 : CMasternodePing.eq mnb.lastPing {} = false := by simpa using he
    obtain ⟨c, hc, hout⟩ := CheckAndUpdate_outcome env w mnb.lastPing (mn.mergeFields mnb) true
    refine ⟨_, UpdateFromNewBroadcast_ping env w mn mnb c hg he2 hc, ?_⟩
    have hid : (c.pmn.getD (mn.mergeFields mnb)).SameIdentity (mn.mergeFields mnb) := by
      rcases hout with ⟨-, hp, -⟩ | ⟨-, -, hp, -, -⟩
      · rw [hp]; exact SameIdentity_refl _
      · rw [hp]
        exact SameIdentity_trans (Check_identity env true _).1 ⟨rfl, rfl, rfl, rfl, rfl, rfl⟩
    split_ifs
    · exact SameIdentity_trans (finishMerge_outcome env _ _).1
        (SameIdentity_trans ⟨rfl, rfl, rfl, rfl, rfl, rfl⟩ hid)
    · exact SameIdentity_trans (finishMerge_outcome env _ _).1 hid

/-- The acceptance gate of Update in terms of the entry before evaluation. -/
theorem gate_iff (env : Env) (mnb : CMasternodeBroadcast) (pmn : CMasternode)
    (hf : SubFits env.GetAdjustedTime pmn.sigTime) :
    (!(pmn.Check env false).IsBroadcastedWithin env MASTERNODE_MIN_MNB_SECONDS ||
      (env.fMasterNode && (mnb.pubKeyMasternode == env.activePubKeyMasternode))) = true ↔
    (MASTERNODE_MIN_MNB_SECONDS ≤ env.GetAdjustedTime - pmn.sigTime ∨
      (env.fMasterNode = true ∧ mnb.pubKeyMasternode = env.activePubKeyMasternode)) := by
  unfold CMasternode.IsBroadcastedWithin
  rw [(Check_identity env false pmn).1.2.2.1, int64_wrap_of_fits _ _ hf]
  simp

/-- Past the duplicate and stale rules the guard of UpdateFromNewBroadcast is not taken. -/
theorem not_early_guard (env : Env) (mnb : CMasternodeBroadcast) (pmn : CMasternode)
    (hne : ¬ ((pmn.sigTime = mnb.sigTime ∧ mnb.fRecovery = false) ∨
      pmn.sigTime > mnb.sigTime)) :
    ¬ (mnb.sigTime ≤ (pmn.Check env false).sigTime ∧ mnb.fRecovery = false) := by
  rw [(Check_identity env false pmn).1.2.2.1]
  rintro ⟨hle, hr⟩
  rcases lt_or_eq_of_le hle with h | h
  · exact hne (Or.inr h)
  · exact hne (Or.inl ⟨h.symm, hr⟩)

/-- Update returns true only past the duplicate, stale, ban, payee and signature tests. -/
theorem Update_true_inv (env : Env) (w : World) (mnb : CMasternodeBroadcast)
    (pmn : CMasternode) (r : UpdateResult)
    (h : mnb.Update env w pmn = some r) (hret : r.ret = true) :
    ¬ ((pmn.sigTime = mnb.sigTime ∧ mnb.fRecovery = false) ∨ pmn.sigTime > mnb.sigTime) ∧
    (pmn.Check env false).IsPoSeBanned = false ∧
    pmn.payee = mnb.payee ∧
    env.VerifyMessage mnb.pubKeyMasternode mnb.vchSig (mnb.strMessage env) = true := by
  by_cases hne : (pmn.sigTime = mnb.sigTime ∧ mnb.fRecovery = false) ∨ pmn.sigTime > mnb.sigTime
  · rw [Update_early env w mnb pmn hne] at h
    cases h; exact absurd hret Bool.false_ne_true
  by_cases hb : (pmn.Check env false).IsPoSeBanned = true
  · rw [Update_banned env w mnb pmn hne hb] at h
    cases h; exact absurd hret Bool.false_ne_true
  have hb2 : (pmn.Check env false).IsPoSeBanned = false := by simpa using hb
  by_cases hp : pmn.payee = mnb.payee
  swap
  · rw [Update_payee env w mnb pmn hne hb2 hp] at h
    cases h; exact absurd hret Bool.false_ne_true
  by_cases hs : env.VerifyMessage mnb.pubKeyMasternode mnb.vchSig (mnb.strMessage env) = true
  swap
  · rw [Update_badsig env w mnb pmn hne hb2 hp (by simpa using hs)] at h
    cases h; exact absurd hret Bool.false_ne_true
  exact ⟨hne, hb2, hp, hs⟩

/-- With the gate of the code open, Update leaves the entry with the signed fields of the
broadcast. -/
theorem Update_merged_gate (env : Env) (w : World) (mnb : CMasternodeBroadcast)
    (pmn : CMasternode)
    (hne : ¬ ((pmn.sigTime = mnb.sigTime ∧ mnb.fRecovery = false) ∨ pmn.sigTime > mnb.sigTime))
    (hb : (pmn.Check env false).IsPoSeBanned = false)
    (hp : pmn.payee = mnb.payee)
    (hs : env.VerifyMessage mnb.pubKeyMasternode mnb.vchSig (mnb.strMessage env) = true)
    (hg : (!(pmn.Check env false).IsBroadcastedWithin env MASTERNODE_MIN_MNB_SECONDS ||
      (env.fMasterNode && (mnb.pubKeyMasternode == env.activePubKeyMasternode))) = true) :
    ∃ r, mnb.Update env w pmn = some r ∧ r.ret = true ∧ r.nDos = 0 ∧
      r.pmn.pubKeyMasternode = mnb.pubKeyMasternode ∧ r.pmn.sigTime = mnb.sigTime ∧
      r.pmn.vchSig = mnb.vchSig ∧ r.pmn.addr = mnb.addr ∧
      r.pmn.nProtocolVersion = mnb.nProtocolVersion ∧ r.pmn.payee = pmn.payee := by
  obtain ⟨m, hm, hid⟩ := UpdateFromNewBroadcast_identity env w (pmn.Check env false) mnb
    (not_early_guard env mnb pmn hne)
  refine ⟨_, Update_gate_open env w mnb pmn m hne hb hp hs hg hm,
    rfl, rfl, ?_⟩
  have hfin : (if m.ret = true then m.mn.Check env false else m.mn).SameIdentity
      ((pmn.Check env false).mergeFields mnb) := by
    split_ifs
    · exact SameIdentity_trans (Check_identity env false _).1 hid
    · exact hid
  obtain ⟨h1, h2, h3, h4, h5, h6⟩ := hfin
  exact ⟨h1, h3, h4, h5, h6, h2.trans (Check_identity env false pmn).1.2.1⟩

/-- With the gate open and no overflow in the subtraction of the gate, Update leaves the
entry with the signed fields of the broadcast. -/
theorem Update_merged (env : Env) (w : World) (mnb : CMasternodeBroadcast) (pmn : CMasternode)
    (hne : ¬ ((pmn.sigTime = mnb.sigTime ∧ mnb.fRecovery = false) ∨ pmn.sigTime > mnb.sigTime))
    (hb : (pmn.Check env false).IsPoSeBanned = false)
    (hp : pmn.payee = mnb.payee)
    (hs : env.VerifyMessage mnb.pubKeyMasternode mnb.vchSig (mnb.strMessage env) = true)
    (hf : SubFits env.GetAdjustedTime pmn.sigTime)
    (hg : MASTERNODE_MIN_MNB_SECONDS ≤ env.GetAdjustedTime - pmn.sigTime ∨
      (env.fMasterNode = true ∧ mnb.pubKeyMasternode = env.activePubKeyMasternode)) :
    ∃ r, mnb.Update env w pmn = some r ∧ r.ret = true ∧ r.nDos = 0 ∧
      r.pmn.pubKeyMasternode = mnb.pubKeyMasternode ∧ r.pmn.sigTime = mnb.sigTime ∧
      r.pmn.vchSig = mnb.vchSig ∧ r.pmn.addr = mnb.addr ∧
      r.pmn.nProtocolVersion = mnb.nProtocolVersion ∧ r.pmn.payee = pmn.payee :=
  Update_merged_gate env w mnb pmn hne hb hp hs ((gate_iff env mnb pmn hf).2 hg)

/-- Update has a defined result on every entry. -/
theorem Update_total (env : Env) (w : World) (mnb : CMasternodeBroadcast) (pmn : CMasternode) :
    ∃ r, mnb.Update env w pmn = some r := by
  by_cases hne : (pmn.sigTime = mnb.sigTime ∧ mnb.fRecovery = false) ∨ pmn.sigTime > mnb.sigTime
  · exact ⟨_, Update_early env w mnb pmn hne⟩
  by_cases hb : (pmn.Check env false).IsPoSeBanned = true
  · exact ⟨_, Update_banned env w mnb pmn hne hb⟩
  have hb2 : (pmn.Check env false).IsPoSeBanned = false := by simpa using hb
  by_cases hp : pmn.payee = mnb.payee
  swap
  · exact ⟨_, Update_payee env w mnb pmn hne hb2 hp⟩
  by_cases hs : env.VerifyMessage mnb.pubKeyMasternode mnb.vchSig (mnb.strMessage env) = true
  swap
  · exact ⟨_, Update_badsig env w mnb pmn hne hb2 hp (by simpa using hs)⟩
  by_cases hg : (!(pmn.Check env false).IsBroadcastedWithin env MASTERNODE_MIN_MNB_SECONDS ||
      (env.fMasterNode && (mnb.pubKeyMasternode == env.activePubKeyMasternode))) = true
  · obtain ⟨m, hm, -⟩ := UpdateFromNewBroadcast_identity env w (pmn.Check env false) mnb
      (not_early_guard env mnb pmn hne)
    exact ⟨_, Update_gate_open env w mnb pmn m hne hb2 hp hs hg hm⟩
  · exact ⟨_, Update_gate_closed env w mnb pmn hne hb2 hp hs (by simpa using hg)⟩

/-- C11 (code at the failing input): the sample broadcast, with its own sig_time in range
and both scripts 25 bytes long, carrying a ping signed 3601 s ahead of network-adjusted time,
is accepted with nDos == 1; the same broadcast with an outdated protocol version is rejected
with nDos == 1.  The claim says nDos == 0 in both cases. -/
theorem C11_future_ping_sets_nDos :
    futurePingBroadcast.sigTime ≤ sampleEnv.GetAdjustedTime + 3600 ∧
    (sampleEnv.scriptForPayee futurePingBroadcast.payee).length = 25 ∧
    (sampleEnv.scriptForKeyID futurePingBroadcast.pubKeyMasternode).length = 25 ∧
    (futurePingBroadcast.SimpleCheck sampleEnv).ret = true ∧
    (futurePingBroadcast.SimpleCheck sampleEnv).nDos = 1 ∧
    (outdatedFuturePingBroadcast.SimpleCheck sampleEnv).ret = false ∧
    (outdatedFuturePingBroadcast.SimpleCheck sampleEnv).nDos = 1 := by
  decide

/-- C12: for every existing entry E and broadcast B with B.sig_time == E.sig_time and
f_recovery == false, CMasternodeBroadcast::Update returns false with nDos == 0, leaves every
field of E unchanged and relays nothing (the collaborators are left as they were); and for
every B with B.sig_time < E.sig_time it likewise returns false with nDos == 0 and E
unchanged. -/
theorem C12_duplicate_and_stale_dropped (env : Env) (w : World) (mnb : CMasternodeBroadcast)
    (pmn : CMasternode) :
    (mnb.sigTime = pmn.sigTime → mnb.fRecovery = false →
      mnb.Update env w pmn = some { ret := false, nDos := 0, pmn := pmn, world := w }) ∧
    (mnb.sigTime < pmn.sigTime →
      mnb.Update env w pmn = some { ret := false, nDos := 0, pmn := pmn, world := w }) :=
  ⟨fun h1 h2 => Update_early env w mnb pmn (Or.inl ⟨h1.symm, h2⟩),
    fun h => Update_early env w mnb pmn (Or.inr h)⟩

/-- C12 (witness): the sample entry announced at 99950 drops the sample broadcast, also
signed at 99950, and a broadcast signed at 80000 is dropped by the sample entry. -/
theorem C12_witness :
    (sampleBroadcast.sigTime = ({ sampleEntry with sigTime := 99950 } : CMasternode).sigTime ∧
      sampleBroadcast.fRecovery = false ∧ olderRecoveryBroadcast.sigTime < sampleEntry.sigTime) ∧
    sampleBroadcast.Update sampleEnv {} { sampleEntry with sigTime := 99950 } =
      some { ret := false, nDos := 0, pmn := { sampleEntry with sigTime := 99950 },
             world := {} } ∧
    olderRecoveryBroadcast.Update sampleEnv {} sampleEntry =
      some { ret := false, nDos := 0, pmn := sampleEntry, world := {} } :=
  ⟨by decide,
    (C12_duplicate_and_stale_dropped sampleEnv {} sampleBroadcast
      { sampleEntry with sigTime := 99950 }).1 (by decide) (by decide),
    (C12_duplicate_and_stale_dropped sampleEnv {} olderRecoveryBroadcast sampleEntry).2
      (by decide)⟩

/-- C13 (counterexample): a recovery broadcast signed at 80000 for the sample entry
(announced at 90000, not banned, same payee, valid signature, gate open) is dropped, not
merged; and a recovery broadcast with the entry's own sig_time is dropped when the entry,
ENABLED with score 5 before the call, is banned by the evaluator run inside Update.  For an
entry and a recovery broadcast with sig_time = -2^63 the int64_t subtraction of the gate
overflows: Update returns true and the stored signature stays. -/
theorem C13_older_recovery_dropped :
    (sampleEntry.IsPoSeBanned = false ∧ olderRecoveryBroadcast.fRecovery = true ∧
      olderRecoveryBroadcast.sigTime ≤ sampleEntry.sigTime ∧
      sampleEntry.payee = olderRecoveryBroadcast.payee ∧
      (olderRecoveryBroadcast.CheckSignature sampleEnv).ret = true ∧
      sampleEntry.IsBroadcastedWithin sampleEnv MASTERNODE_MIN_MNB_SECONDS = false ∧
      olderRecoveryBroadcast.Update sampleEnv {} sampleEntry =
        some { ret := false, nDos := 0, pmn := sampleEntry, world := {} } ∧
      sampleEntry.sigTime ≠ olderRecoveryBroadcast.sigTime) ∧
    (({ sampleEntry.PoSeBan with vchSig := [9] } : CMasternode).IsPoSeBanned = false ∧
      equalRecoveryBroadcast.sigTime ≤
        ({ sampleEntry.PoSeBan with vchSig := [9] } : CMasternode).sigTime ∧
      (equalRecoveryBroadcast.Update sampleEnv {}
        { sampleEntry.PoSeBan with vchSig := [9] }).map (fun r => (r.ret, r.pmn.vchSig)) =
        some (false, [9]) ∧
      equalRecoveryBroadcast.vchSig ≠ [9]) ∧
    (minSigRecoveryBroadcast.fRecovery = true ∧
      minSigRecoveryBroadcast.sigTime = minSigEntry.sigTime ∧
      (minSigEntry.Check sampleEnv false).IsPoSeBanned = false ∧
      minSigEntry.payee = minSigRecoveryBroadcast.payee ∧
      (minSigRecoveryBroadcast.CheckSignature sampleEnv).ret = true ∧
      MASTERNODE_MIN_MNB_SECONDS ≤ sampleEnv.GetAdjustedTime - minSigEntry.sigTime ∧
      (minSigRecoveryBroadcast.Update sampleEnv {} minSigEntry).map
        (fun r => (r.ret, r.pmn.vchSig)) = some (true, [9]) ∧
      minSigRecoveryBroadcast.vchSig ≠ [9]) := by
  decide

/-- C13 (amended): with f_recovery set, a broadcast with E's own sig_time is reprocessed: for
every existing entry E that is not POSE_BAN after the evaluator run inside Update and every
broadcast B with f_recovery == true, B.sig_time == E.sig_time, the same payee, a valid
signature and the acceptance gate satisfied without overflow of the int64_t subtraction
adjusted_now - E.sig_time, CMasternodeBroadcast::Update returns true and merges B into E
(E's key, sig_time, vch_sig, addr and protocol version become B's).  A broadcast strictly
older than E is dropped whatever f_recovery is. -/
theorem C13_recovery_reprocesses_equal (env : Env) (w : World) (mnb : CMasternodeBroadcast)
    (pmn : CMasternode)
    (hrec : mnb.fRecovery = true)
    (heq : mnb.sigTime = pmn.sigTime)
    (hb : (pmn.Check env false).IsPoSeBanned = false)
    (hp : pmn.payee = mnb.payee)
    (hs : env.VerifyMessage mnb.pubKeyMasternode mnb.vchSig (mnb.strMessage env) = true)
    (hf : SubFits env.GetAdjustedTime pmn.sigTime)
    (hg : MASTERNODE_MIN_MNB_SECONDS ≤ env.GetAdjustedTime - pmn.sigTime ∨
      (env.fMasterNode = true ∧ mnb.pubKeyMasternode = env.activePubKeyMasternode)) :
    (∃ r, mnb.Update env w pmn = some r ∧ r.ret = true ∧
      r.pmn.sigTime = mnb.sigTime ∧ r.pmn.vchSig = mnb.vchSig ∧
      r.pmn.pubKeyMasternode = mnb.pubKeyMasternode ∧ r.pmn.addr = mnb.addr ∧
      r.pmn.nProtocolVersion = mnb.nProtocolVersion) ∧
    (∀ older : CMasternodeBroadcast, older.sigTime < pmn.sigTime →
      older.Update env w pmn = some { ret := false, nDos := 0, pmn := pmn, world := w }) := by
  constructor
  · have hne : ¬ ((pmn.sigTime = mnb.sigTime ∧ mnb.fRecovery = false) ∨
        pmn.sigTime > mnb.sigTime) := by
      rintro (⟨-, h⟩ | h)
      · rw [hrec] at h; exact absurd h (by decide)
      · rw [heq] at h; exact lt_irrefl _ h
    obtain ⟨r, hr, h1, -, h2, h3, h4, h5, h6, -⟩ :=
      Update_merged env w mnb pmn hne hb hp hs hf hg
    exact ⟨r, hr, h1, h3, h4, h2, h5, h6⟩
  · intro older h
    exact Update_early env w older pmn (Or.inr h)

/-- C13 (witness): the recovery broadcast signed at 90000 is merged into the sample entry
whose stored signature was [9]. -/
theorem C13_witness :
    (equalRecoveryBroadcast.fRecovery = true ∧
      equalRecoveryBroadcast.sigTime = ({ sampleEntry with vchSig := [9] } : CMasternode).sigTime ∧
      (CMasternode.Check sampleEnv false { sampleEntry with vchSig := [9] }).IsPoSeBanned
        = false ∧
      SubFits sampleEnv.GetAdjustedTime
        ({ sampleEntry with vchSig := [9] } : CMasternode).sigTime) ∧
    ∃ r, equalRecoveryBroadcast.Update sampleEnv {} { sampleEntry with vchSig := [9] } = some r ∧
      r.ret = true ∧ r.pmn.sigTime = equalRecoveryBroadcast.sigTime ∧
      r.pmn.vchSig = equalRecoveryBroadcast.vchSig ∧
      r.pmn.pubKeyMasternode = equalRecoveryBroadcast.pubKeyMasternode ∧
      r.pmn.addr = equalRecoveryBroadcast.addr ∧
      r.pmn.nProtocolVersion = equalRecoveryBroadcast.nProtocolVersion :=
  ⟨by decide,
    (C13_recovery_reprocesses_equal sampleEnv {} equalRecoveryBroadcast
      { sampleEntry with vchSig := [9] } (by decide) (by decide) (by decide) (by decide)
      (by decide) (by decide) (Or.inl (by decide))).1⟩

/-- C14: for every existing entry E and broadcast B that passes the duplicate and stale
rules, where E is not POSE_BAN after evaluation and E.payee differs from B.payee,
CMasternodeBroadcast::Update returns false with nDos == 33, whatever VerifyMessage says about
B's signature, and leaves E's pub key, payee, sig_time, vch_sig, addr, protocol_version and
last_ping unchanged. -/
theorem C14_payee_mismatch (env : Env) (w : World) (mnb : CMasternodeBroadcast)
    (pmn : CMasternode)
    (hdup : ¬ (pmn.sigTime = mnb.sigTime ∧ mnb.fRecovery = false))
    (hstale : ¬ pmn.sigTime > mnb.sigTime)
    (hb : (pmn.Check env false).nActiveState ≠ MASTERNODE_POSE_BAN)
    (hp : pmn.payee ≠ mnb.payee) :
    ∃ r, mnb.Update env w pmn = some r ∧ r.ret = false ∧ r.nDos = 33 ∧
      r.pmn.pubKeyMasternode = pmn.pubKeyMasternode ∧ r.pmn.payee = pmn.payee ∧
      r.pmn.sigTime = pmn.sigTime ∧ r.pmn.vchSig = pmn.vchSig ∧ r.pmn.addr = pmn.addr ∧
      r.pmn.nProtocolVersion = pmn.nProtocolVersion ∧ r.pmn.lastPing = pmn.lastPing := by
  have hne : ¬ ((pmn.sigTime = mnb.sigTime ∧ mnb.fRecovery = false) ∨
      pmn.sigTime > mnb.sigTime) := by
    rintro (h | h)
    · exact hdup h
    · exact hstale h
  have hb2 : (pmn.Check env false).IsPoSeBanned = false := by
    unfold CMasternode.IsPoSeBanned
    simpa using hb
  obtain ⟨⟨h1, h2, h3, h4, h5, h6⟩, h7⟩ := Check_identity env false pmn
  exact ⟨_, Update_payee env w mnb pmn hne hb2 hp, rfl, rfl, h1, h2, h3, h4, h5, h6, h7⟩

/-- C14 (witness): the sample broadcast naming another payee, offered to the sample entry. -/
theorem C14_witness :
    (¬ (sampleEntry.sigTime = otherPayeeBroadcast.sigTime ∧
        otherPayeeBroadcast.fRecovery = false) ∧
      ¬ sampleEntry.sigTime > otherPayeeBroadcast.sigTime ∧
      (sampleEntry.Check sampleEnv false).nActiveState ≠ MASTERNODE_POSE_BAN ∧
      sampleEntry.payee ≠ otherPayeeBroadcast.payee) ∧
    ∃ r, otherPayeeBroadcast.Update sampleEnv {} sampleEntry = some r ∧ r.ret = false ∧
      r.nDos = 33 ∧
      r.pmn.pubKeyMasternode = sampleEntry.pubKeyMasternode ∧ r.pmn.payee = sampleEntry.payee ∧
      r.pmn.sigTime = sampleEntry.sigTime ∧ r.pmn.vchSig = sampleEntry.vchSig ∧
      r.pmn.addr = sampleEntry.addr ∧
      r.pmn.nProtocolVersion = sampleEntry.nProtocolVersion ∧
      r.pmn.lastPing = sampleEntry.lastPing :=
  ⟨by decide,
    C14_payee_mismatch sampleEnv {} otherPayeeBroadcast sampleEntry (by decide) (by decide)
      (by decide) (by decide)⟩

/-- C15 (counterexample): the sample broadcast with a signature that does not verify,
offered to the sample entry (older sig_time, not banned, same payee), is rejected with nDos ==
100, not 0. -/
theorem C15_bad_signature_scores_100 :
    ¬ (sampleEntry.sigTime = badSigBroadcast.sigTime ∧ badSigBroadcast.fRecovery = false) ∧
    ¬ sampleEntry.sigTime > badSigBroadcast.sigTime ∧
    (sampleEntry.Check sampleEnv false).IsPoSeBanned = false ∧
    sampleEntry.payee = badSigBroadcast.payee ∧
    sampleEnv.VerifyMessage badSigBroadcast.pubKeyMasternode badSigBroadcast.vchSig
      (badSigBroadcast.strMessage sampleEnv) = false ∧
    (badSigBroadcast.Update sampleEnv {} sampleEntry).map (fun r => (r.ret, r.nDos)) =
      some (false, 100) := by
  decide

/-- C15 (amended): for every existing entry E and broadcast B that reaches the signature
step of CMasternodeBroadcast::Update (not duplicate or stale, E not POSE_BAN after
evaluation, payees equal) and whose signature does not verify against B.pub_key_masternode,
Update returns false with nDos == 100, the score CheckSignature assigns, and leaves E's
identity fields (pub key, payee, sig_time, vch_sig, addr, protocol_version) unchanged. -/
theorem C15_bad_signature (env : Env) (w : World) (mnb : CMasternodeBroadcast)
    (pmn : CMasternode)
    (hdup : ¬ (pmn.sigTime = mnb.sigTime ∧ mnb.fRecovery = false))
    (hstale : ¬ pmn.sigTime > mnb.sigTime)
    (hb : (pmn.Check env false).nActiveState ≠ MASTERNODE_POSE_BAN)
    (hp : pmn.payee = mnb.payee)
    (hs : env.VerifyMessage mnb.pubKeyMasternode mnb.vchSig (mnb.strMessage env) = false) :
    ∃ r, mnb.Update env w pmn = some r ∧ r.ret = false ∧ r.nDos = 100 ∧
      r.pmn.pubKeyMasternode = pmn.pubKeyMasternode ∧ r.pmn.payee = pmn.payee ∧
      r.pmn.sigTime = pmn.sigTime ∧ r.pmn.vchSig = pmn.vchSig ∧ r.pmn.addr = pmn.addr ∧
      r.pmn.nProtocolVersion = pmn.nProtocolVersion := by
  have hne : ¬ ((pmn.sigTime = mnb.sigTime ∧ mnb.fRecovery = false) ∨
      pmn.sigTime > mnb.sigTime) := by
    rintro (h | h)
    · exact hdup h
    · exact hstale h
  have hb2 : (pmn.Check env false).IsPoSeBanned = false := by
    unfold CMasternode.IsPoSeBanned
    simpa using hb
  obtain ⟨⟨h1, h2, h3, h4, h5, h6⟩, -⟩ := Check_identity env false pmn
  exact ⟨_, Update_badsig env w mnb pmn hne hb2 hp hs, rfl, rfl, h1, h2, h3, h4, h5, h6⟩

/-- C15 (witness): the badly signed sample broadcast, offered to the sample entry. -/
theorem C15_witness :
    (¬ (sampleEntry.sigTime = badSigBroadcast.sigTime ∧ badSigBroadcast.fRecovery = false) ∧
      ¬ sampleEntry.sigTime > badSigBroadcast.sigTime ∧
      (sampleEntry.Check sampleEnv false).nActiveState ≠ MASTERNODE_POSE_BAN ∧
      sampleEntry.payee = badSigBroadcast.payee ∧
      sampleEnv.VerifyMessage badSigBroadcast.pubKeyMasternode badSigBroadcast.vchSig
        (badSigBroadcast.strMessage sampleEnv) = false) ∧
    ∃ r, badSigBroadcast.Update sampleEnv {} sampleEntry = some r ∧ r.ret = false ∧
      r.nDos = 100 ∧
      r.pmn.pubKeyMasternode = sampleEntry.pubKeyMasternode ∧ r.pmn.payee = sampleEntry.payee ∧
      r.pmn.sigTime = sampleEntry.sigTime ∧ r.pmn.vchSig = sampleEntry.vchSig ∧
      r.pmn.addr = sampleEntry.addr ∧
      r.pmn.nProtocolVersion = sampleEntry.nProtocolVersion :=
  ⟨by decide,
    C15_bad_signature sampleEnv {} badSigBroadcast sampleEntry (by decide) (by decide)
      (by decide) (by decide) (by decide)⟩

/-- C16 (counterexample): the sample broadcast (signed at 99950, valid signature, same
payee) offered to an entry announced 100 s ago by another operator: the acceptance gate is
closed, Update returns true, and the entry keeps its own sig_time 99900.  Offered to an
entry with sig_time = -2^63, the int64_t subtraction of the gate overflows: Update returns
true and the entry keeps its sig_time and signature. -/
theorem C16_true_without_merge :
    ((sampleBroadcast.Update sampleEnv {} recentEntry).map (fun r => (r.ret, r.pmn.sigTime)) =
        some (true, 99900) ∧
      sampleBroadcast.sigTime ≠ 99900) ∧
    (MASTERNODE_MIN_MNB_SECONDS ≤ sampleEnv.GetAdjustedTime - minSigEntry.sigTime ∧
      (sampleBroadcast.Update sampleEnv {} minSigEntry).map
        (fun r => (r.ret, r.pmn.sigTime, r.pmn.vchSig)) = some (true, -2 ^ 63, [9]) ∧
      sampleBroadcast.sigTime ≠ -2 ^ 63) := by
  decide

/-- C16 (amended): whenever CMasternodeBroadcast::Update returns true for broadcast B on
entry E, the int64_t subtraction adjusted_now - E.sig_time did not overflow and the
acceptance gate was open (E announced at least MASTERNODE_MIN_MNB_SECONDS ago, or B's key is
the locally operated masternode's key), afterwards E.sig_time == B.sig_time, E.vch_sig ==
B.vch_sig, and E.vch_sig verifies against E.pub_key_masternode over B's signed string.
Update has a defined result in every case. -/
theorem C16_accepted_broadcast_merged (env : Env) (w : World) (mnb : CMasternodeBroadcast)
    (pmn : CMasternode) :
    ∃ r, mnb.Update env w pmn = some r ∧
      (r.ret = true → SubFits env.GetAdjustedTime pmn.sigTime →
        (MASTERNODE_MIN_MNB_SECONDS ≤ env.GetAdjustedTime - pmn.sigTime ∨
          (env.fMasterNode = true ∧ mnb.pubKeyMasternode = env.activePubKeyMasternode)) →
        r.pmn.sigTime = mnb.sigTime ∧ r.pmn.vchSig = mnb.vchSig ∧
          env.VerifyMessage r.pmn.pubKeyMasternode r.pmn.vchSig (mnb.strMessage env) = true) := by
  obtain ⟨r, hr⟩ := Update_total env w mnb pmn
  refine ⟨r, hr, ?_⟩
  intro hret hf hg
  obtain ⟨hne, hb, hp, hs⟩ := Update_true_inv env w mnb pmn r hr hret
  obtain ⟨r2, hr2, -, -, h1, h2, h3, -, -, -⟩ :=
    Update_merged env w mnb pmn hne hb hp hs hf hg
  rw [hr] at hr2
  cases hr2
  exact ⟨h2, h3, by rw [h1, h3]; exact hs⟩

/-- C16 (witness): the sample broadcast is accepted by the sample entry, announced 10000 s
ago, and merged into it. -/
theorem C16_witness :
    MASTERNODE_MIN_MNB_SECONDS ≤ sampleEnv.GetAdjustedTime - sampleEntry.sigTime ∧
    ∃ r, sampleBroadcast.Update sampleEnv {} sampleEntry = some r ∧ r.ret = true ∧
      r.pmn.sigTime = sampleBroadcast.sigTime ∧ r.pmn.vchSig = sampleBroadcast.vchSig ∧
      sampleEnv.VerifyMessage r.pmn.pubKeyMasternode r.pmn.vchSig
        (sampleBroadcast.strMessage sampleEnv) = true := by
  refine ⟨by decide, ?_⟩
  obtain ⟨r, hr, h⟩ := C16_accepted_broadcast_merged sampleEnv {} sampleBroadcast sampleEntry
  have e : (sampleBroadcast.Update sampleEnv {} sampleEntry).map (fun x => x.ret) = some true := by
    decide
  rw [hr] at e
  have hret : r.ret = true := by simpa using e
  exact ⟨r, hr, hret, h hret (by decide) (Or.inl (by decide))⟩

/-- C18 (counterexample): a broadcast with an empty ping, merged into the sample entry,
replaces the entry's ping by the empty ping and adds an item to the seen-ping cache; and a
broadcast whose ping CheckAndUpdate stores but answers false for (the entry is PRE_ENABLED
after the forced Check) leaves the entry with the broadcast's ping. -/
theorem C18_empty_ping_installed :
    (CMasternodePing.eq emptyPingBroadcast.lastPing {} = true ∧
      CMasternodePing.eq sampleEntry.lastPing {} = false ∧
      (sampleEntry.UpdateFromNewBroadcast sampleEnv {} emptyPingBroadcast).map
        (fun m => (m.ret, m.mn.lastPing, m.world.mapSeenMasternodePing)) =
        some (true, {}, [(2, {})])) ∧
    ((sampleBroadcast.lastPing.CheckAndUpdate sampleEnv {}
        (some (expiringEntry.mergeFields sampleBroadcast)) true).map (fun c => c.ret) =
        some false ∧
      (expiringEntry.UpdateFromNewBroadcast sampleEnv {} sampleBroadcast).map
        (fun m => (m.ret, m.mn.lastPing, m.world.mapSeenMasternodePing)) =
        some (true, sampleBroadcast.lastPing, []) ∧
      expiringEntry.lastPing ≠ sampleBroadcast.lastPing) := by
  decide

/-- C18 (amended): during a merge (the guard on an equal-or-older broadcast is not taken),
UpdateFromNewBroadcast sets E.last_ping to B.last_ping and inserts it into the seen-ping
cache when B.last_ping is empty, and when it is non-empty and CheckAndUpdate returns true.
When B.last_ping is non-empty and CheckAndUpdate returns false, the seen-ping cache is left
as it was and E.last_ping is the old ping or, if CheckAndUpdate had stored the ping before
finding the entry not ENABLED, B.last_ping; when B.last_ping is non-empty and fails
CMasternodePing::SimpleCheck or its signature check against B's key, E.last_ping and the
seen-ping cache are left as they were. -/
theorem C18_ping_of_merged_broadcast (env : Env) (w : World) (mn : CMasternode)
    (mnb : CMasternodeBroadcast)
    (hg : ¬ (mnb.sigTime ≤ mn.sigTime ∧ mnb.fRecovery = false)) :
    ∃ m, mn.UpdateFromNewBroadcast env w mnb = some m ∧
      (CMasternodePing.eq mnb.lastPing {} = true →
        m.mn.lastPing = mnb.lastPing ∧
        m.world.mapSeenMasternodePing =
          mapInsert w.mapSeenMasternodePing (mnb.lastPing.GetHash env) mnb.lastPing) ∧
      (CMasternodePing.eq mnb.lastPing {} = false →
        ∃ c, mnb.lastPing.CheckAndUpdate env w (some (mn.mergeFields mnb)) true = some c ∧
          (c.ret = true →
            m.mn.lastPing = mnb.lastPing ∧
            m.world.mapSeenMasternodePing =
              mapInsert w.mapSeenMasternodePing (mnb.lastPing.GetHash env) mnb.lastPing) ∧
          (c.ret = false →
            m.world.mapSeenMasternodePing = w.mapSeenMasternodePing ∧
            (m.mn.lastPing = mn.lastPing ∨ m.mn.lastPing = mnb.lastPing)) ∧
          ((mnb.lastPing.SimpleCheck env).ret = false ∨
              (mnb.lastPing.CheckSignature env mnb.pubKeyMasternode).ret = false →
            m.mn.lastPing = mn.lastPing ∧
            m.world.mapSeenMasternodePing = w.mapSeenMasternodePing)) := by
  by_cases he : CMasternodePing.eq mnb.lastPing {} = true
  · refine ⟨_, UpdateFromNewBroadcast_empty env w mn mnb hg he, fun _ => ?_,
      fun h => absurd (he.symm.trans h) (by decide)⟩
    obtain ⟨-, f2, -, -, f5, -⟩ := finishMerge_outcome env
      ((mn.mergeFields mnb).takePing env w mnb.lastPing).2
      ((mn.mergeFields mnb).takePing env w mnb.lastPing).1
    exact ⟨f2, f5⟩
  · have he2 : CMasternodePing.eq mnb.lastPing {} = false := by simpa using he
    obtain ⟨c, hc, hout⟩ := CheckAndUpdate_outcome env w mnb.lastPing (mn.mergeFields mnb) true
    refine ⟨_, UpdateFromNewBroadcast_ping env w mn mnb c hg he2 hc,
      fun h => absurd h he, fun _ => ⟨c, hc, ?_⟩⟩
    rcases hout with ⟨hr, hp, hw⟩ | ⟨hs, hcs, hp, hw, hr⟩
    · rw [hr, hp, hw]
      obtain ⟨-, f2, -, -, f5, -⟩ := finishMerge_outcome env w (mn.mergeFields mnb)
      refine ⟨fun h => absurd h Bool.false_ne_true, fun _ => ⟨f5, Or.inl f2⟩,
        fun _ => ⟨f2, f5⟩⟩
    · have hlp : ∃ x, c.pmn = some x ∧ x.lastPing = mnb.lastPing :=
        ⟨_, hp, (Check_identity env true _).2⟩
      obtain ⟨x, hx, hxl⟩ := hlp
      rw [hx]
      simp only [Option.getD_some]
      refine ⟨?_, ?_, ?_⟩
      · intro hret
        rw [if_pos hret]
        obtain ⟨-, f2, -, -, f5, -⟩ := finishMerge_outcome env
          (x.takePing env c.world mnb.lastPing).2 (x.takePing env c.world mnb.lastPing).1
        refine ⟨f2, f5.trans ?_⟩
        show mapInsert c.world.mapSeenMasternodePing _ _ = _
        rw [hw]
      · intro hret
        rw [if_neg (by rw [hret]; decide)]
        obtain ⟨-, f2, -, -, f5, -⟩ := finishMerge_outcome env c.world x
        exact ⟨f5.trans hw, Or.inr (f2.trans hxl)⟩
      · rintro (h | h)
        · rw [hs] at h; exact absurd h (by decide)
        · have hcs2 : (mnb.lastPing.CheckSignature env mnb.pubKeyMasternode).ret = true := hcs
          rw [hcs2] at h; exact absurd h (by decide)

/-- C18 (witness): the sample broadcast's ping, too early after the sample entry's ping, is
refused by CheckAndUpdate; the merge leaves the cache alone and the entry with its old
ping. -/
theorem C18_witness :
    ¬ (sampleBroadcast.sigTime ≤ sampleEntry.sigTime ∧ sampleBroadcast.fRecovery = false) ∧
    CMasternodePing.eq sampleBroadcast.lastPing {} = false ∧
    ∃ m, sampleEntry.UpdateFromNewBroadcast sampleEnv {} sampleBroadcast = some m ∧
      m.world.mapSeenMasternodePing = [] ∧
      (m.mn.lastPing = sampleEntry.lastPing ∨ m.mn.lastPing = sampleBroadcast.lastPing) := by
  refine ⟨by decide, by decide, ?_⟩
  obtain ⟨m, hm, -, h⟩ := C18_ping_of_merged_broadcast sampleEnv {} sampleEntry
    sampleBroadcast (by decide)
  obtain ⟨c, hc, -, h2, -⟩ := h (by decide)
  have e : (sampleBroadcast.lastPing.CheckAndUpdate sampleEnv {}
      (some (sampleEntry.mergeFields sampleBroadcast)) true).map (fun x => x.ret) =
      some false := by decide
  rw [hc] at e
  have hret : c.ret = false := by simpa using e
  exact ⟨m, hm, h2 hret⟩

/-- C19: duplicate delivery is idempotent: for every entry E, broadcast B with f_recovery
== false and fixed context, CMasternodeBroadcast::Update with B has a defined result, and
applying it a second time to the entry the first application left behind leaves that entry
exactly as it is. -/
theorem C19_duplicate_delivery_idempotent (env : Env) (w : World) (mnb : CMasternodeBroadcast)
    (pmn : CMasternode) (hrec : mnb.fRecovery = false) :
    ∃ r1, mnb.Update env w pmn = some r1 ∧
      ∃ r2, mnb.Update env r1.world r1.pmn = some r2 ∧ r2.pmn = r1.pmn := by
  by_cases hne : (pmn.sigTime = mnb.sigTime ∧ mnb.fRecovery = false) ∨ pmn.sigTime > mnb.sigTime
  · exact ⟨_, Update_early env w mnb pmn hne, _, Update_early env w mnb pmn hne, rfl⟩
  -- the entry after the evaluator run of the first application
  have hst : (pmn.Check env false).sigTime = pmn.sigTime := (Check_identity env false pmn).1.2.2.1
  have hpay : (pmn.Check env false).payee = pmn.payee := (Check_identity env false pmn).1.2.1
  have hne1 : ¬ (((pmn.Check env false).sigTime = mnb.sigTime ∧ mnb.fRecovery = false) ∨
      (pmn.Check env false).sigTime > mnb.sigTime) := by
    rw [hst]; exact hne
  have hid := Check_idem env pmn
  by_cases hb : (pmn.Check env false).IsPoSeBanned = true
  · refine ⟨_, Update_banned env w mnb pmn hne hb, ?_⟩
    have h2 := Update_banned env w mnb (pmn.Check env false) hne1 (by rw [hid]; exact hb)
    rw [hid] at h2
    exact ⟨_, h2, rfl⟩
  have hb2 : (pmn.Check env false).IsPoSeBanned = false := by simpa using hb
  by_cases hp : pmn.payee = mnb.payee
  swap
  · refine ⟨_, Update_payee env w mnb pmn hne hb2 hp, ?_⟩
    have h2 := Update_payee env w mnb (pmn.Check env false) hne1 (by rw [hid]; exact hb2)
      (by rw [hpay]; exact hp)
    rw [hid] at h2
    exact ⟨_, h2, rfl⟩
  by_cases hs : env.VerifyMessage mnb.pubKeyMasternode mnb.vchSig (mnb.strMessage env) = true
  swap
  · have hs2 : env.VerifyMessage mnb.pubKeyMasternode mnb.vchSig (mnb.strMessage env) = false := by
      simpa using hs
    refine ⟨_, Update_badsig env w mnb pmn hne hb2 hp hs2, ?_⟩
    have h2 := Update_badsig env w mnb (pmn.Check env false) hne1 (by rw [hid]; exact hb2)
      (by rw [hpay]; exact hp) hs2
    rw [hid] at h2
    exact ⟨_, h2, rfl⟩
  by_cases hg : (!(pmn.Check env false).IsBroadcastedWithin env MASTERNODE_MIN_MNB_SECONDS ||
      (env.fMasterNode && (mnb.pubKeyMasternode == env.activePubKeyMasternode))) = true
  · obtain ⟨r1, hr1, -, -, -, hsig, -⟩ := Update_merged_gate env w mnb pmn hne hb2 hp hs hg
    exact ⟨r1, hr1, _, Update_early env r1.world mnb r1.pmn (Or.inl ⟨hsig, hrec⟩), rfl⟩
  · have hg2 : (!(pmn.Check env false).IsBroadcastedWithin env MASTERNODE_MIN_MNB_SECONDS ||
        (env.fMasterNode && (mnb.pubKeyMasternode == env.activePubKeyMasternode))) = false := by
      simpa using hg
    refine ⟨_, Update_gate_closed env w mnb pmn hne hb2 hp hs hg2, ?_⟩
    have h2 := Update_gate_closed env w mnb (pmn.Check env false) hne1 (by rw [hid]; exact hb2)
      (by rw [hpay]; exact hp) hs (by rw [hid]; exact hg2)
    rw [hid] at h2
    exact ⟨_, h2, rfl⟩

/-- C19 (witness): the sample broadcast delivered twice to the sample entry. -/
theorem C19_witness :
    sampleBroadcast.fRecovery = false ∧
    ∃ r1, sampleBroadcast.Update sampleEnv {} sampleEntry = some r1 ∧
      ∃ r2, sampleBroadcast.Update sampleEnv r1.world r1.pmn = some r2 ∧ r2.pmn = r1.pmn :=
  ⟨by decide,
    C19_duplicate_delivery_idempotent sampleEnv {} sampleBroadcast sampleEntry (by decide)⟩

/-- C20: CMasternodePing::SimpleCheck returns true exactly when sig_time <= adjusted_now +
3600 and block_hash is present in the chain's block index; it reports nDos == 1 when sig_time
is too far in the future and nDos == 0 in every other case, including an unknown block
hash. -/
theorem C20_ping_SimpleCheck (env : Env) (mnp : CMasternodePing) :
    ((mnp.SimpleCheck env).ret = true ↔
      (mnp.sigTime ≤ env.GetAdjustedTime + 3600 ∧
        (env.mapBlockIndex mnp.blockHash).isSome = true)) ∧
    (mnp.sigTime > env.GetAdjustedTime + 3600 → (mnp.SimpleCheck env).nDos = 1) ∧
    (mnp.sigTime ≤ env.GetAdjustedTime + 3600 → (mnp.SimpleCheck env).nDos = 0) := by
  have e : (60 : Int) * 60 = 3600 := by decide
  unfold CMasternodePing.SimpleCheck
  rw [e]
  by_cases ht : mnp.sigTime > env.GetAdjustedTime + 3600
  · rw [if_pos ht]
    refine ⟨⟨fun h => absurd h Bool.false_ne_true, fun h => absurd h.1 (not_le.2 ht)⟩,
      fun _ => rfl, fun h => absurd h (not_le.2 ht)⟩
  · rw [if_neg ht]
    cases hb : env.mapBlockIndex mnp.blockHash with
    | none =>
      refine ⟨⟨fun h => absurd h Bool.false_ne_true, fun h => absurd h.2 Bool.false_ne_true⟩,
        fun h => absurd h ht, fun _ => rfl⟩
    | some pindex =>
      exact ⟨⟨fun _ => ⟨not_lt.1 ht, rfl⟩, fun _ => rfl⟩, fun h => absurd h ht, fun _ => rfl⟩

/-- C20 (witness): a ping signed one hour and one second ahead is refused with nDos 1. -/
theorem C20_witness :
    ({ samplePing with sigTime := 103601 } : CMasternodePing).sigTime >
        sampleEnv.GetAdjustedTime + 3600 ∧
    (CMasternodePing.SimpleCheck sampleEnv { samplePing with sigTime := 103601 }).nDos = 1 :=
  ⟨by decide,
    (C20_ping_SimpleCheck sampleEnv { samplePing with sigTime := 103601 }).2.1 (by decide)⟩

/-! ## CheckAndUpdate, gate by gate -/

/-- A ping that passes SimpleCheck leaves nDos at 0. -/
theorem ping_SimpleCheck_ok (env : Env) (mnp : CMasternodePing)
    (h : (mnp.SimpleCheck env).ret = true) : (mnp.SimpleCheck env).nDos = 0 := by
  unfold CMasternodePing.SimpleCheck at h ⊢
  by_cases ht : mnp.sigTime > env.GetAdjustedTime + 60 * 60
  · rw [if_pos ht] at h; exact absurd h (by decide)
  · rw [if_neg ht]
    cases env.mapBlockIndex mnp.blockHash <;> rfl

/-- The ping signature check, as a function of the verification result. -/
theorem ping_CheckSignature_eq (env : Env) (mnp : CMasternodePing) (pk : CPubKey) :
    mnp.CheckSignature env pk =
      if env.VerifyMessage pk mnp.vchSig (env.keyIDToString pk ++
          env.hashToString mnp.blockHash ++ toString mnp.sigTime) = true
      then { ret := true, nDos := 0 } else { ret := false, nDos := 33 } := by
  unfold CMasternodePing.CheckSignature CMasternodePing.strMessage
  cases env.VerifyMessage pk mnp.vchSig (env.keyIDToString pk ++
      env.hashToString mnp.blockHash ++ toString mnp.sigTime) <;> rfl

/-- CheckAndUpdate on an entry as one decision list: SimpleCheck, the state of the entry, the
age of the block, the distance to the stored ping, the signature, and then the write. -/
theorem CheckAndUpdate_eq (env : Env) (w : World) (mnp : CMasternodePing)
    (mn : CMasternode) (f : Bool) :
    mnp.CheckAndUpdate env w (some mn) f = some (
      if (mnp.SimpleCheck env).ret = false then
        { ret := false, nDos := (mnp.SimpleCheck env).nDos, pmn := some mn, world := w }
      else if mn.needsNewBroadcast f = true then
        { ret := false, nDos := 0, pmn := some mn, world := w }
      else if mnp.blockTooOld env = true then
        { ret := false, nDos := 0, pmn := some mn, world := w }
      else if mn.IsPingedWithin env (MASTERNODE_MIN_MNP_SECONDS - 60) mnp.sigTime = true then
        { ret := false, nDos := 0, pmn := some mn, world := w }
      else if (mnp.CheckSignature env mn.pubKeyMasternode).ret = false then
        { ret := false, nDos := 33, pmn := some mn, world := w }
      else
        mnp.install env
          (if (!env.IsMasternodeListSynced &&
              !mn.IsPingedWithin env (MASTERNODE_EXPIRATION_SECONDS / 2) (-1)) = true then
            BumpAssetLastTime w "CMasternodePing::CheckAndUpdate"
          else w) mn 0) := by
  unfold CMasternodePing.CheckAndUpdate
  by_cases hsc : (mnp.SimpleCheck env).ret = true
  · obtain ⟨pindex, hb⟩ := ping_SimpleCheck_found env mnp hsc
    have hn := ping_SimpleCheck_ok env mnp hsc
    have hcs := ping_CheckSignature_eq env mnp mn.pubKeyMasternode
    simp only [hsc, hb, hn, Bool.not_true, Bool.false_eq_true, if_false]
    unfold CMasternode.needsNewBroadcast CMasternodePing.blockTooOld
    rw [hb]
    cases f <;> cases hu : mn.IsUpdateRequired <;> cases hr : mn.IsNewStartRequired <;>
      cases pindex <;>
      cases hp : mn.IsPingedWithin env (MASTERNODE_MIN_MNP_SECONDS - 60) mnp.sigTime <;>
      cases hv : env.VerifyMessage mn.pubKeyMasternode mnp.vchSig
        (env.keyIDToString mn.pubKeyMasternode ++ env.hashToString mnp.blockHash ++
          toString mnp.sigTime) <;>
      simp [hcs, hv] <;> split_ifs <;> simp_all
  · have hsc2 : (mnp.SimpleCheck env).ret = false := by simpa using hsc
    simp only [hsc2, Bool.not_false, if_true]

/-- The distance test of CheckAndUpdate when the ping carries a sig_time other than -1. -/
theorem IsPingedWithin_at (env : Env) (mn : CMasternode) (n t : Int)
    (hne : CMasternodePing.eq mn.lastPing {} = false) (ht : t ≠ -1)
    (hf : SubFits t mn.lastPing.sigTime) :
    mn.IsPingedWithin env n t = decide (t - mn.lastPing.sigTime < n) := by
  unfold CMasternode.IsPingedWithin
  have h1 : (t == -1) = false := by simpa using ht
  simp only [hne, h1, Bool.false_eq_true, if_false, int64_wrap_of_fits _ _ hf]

/-- C21: CheckAndUpdate stores a ping only if its signature verifies against the key of the
entry over the text key id, block hash, decimal sig_time.  With a signature that does not
verify the call returns false and leaves the entry and the collaborators as they were, and
when every earlier gate passes it reports nDos = 33. -/
theorem C21_ping_signature_gate (env : Env) (w : World) (mnp : CMasternodePing)
    (mn : CMasternode) (f : Bool)
    (hsig : env.VerifyMessage mn.pubKeyMasternode mnp.vchSig
      (env.keyIDToString mn.pubKeyMasternode ++ env.hashToString mnp.blockHash ++
        toString mnp.sigTime) = false) :
    ∃ r, mnp.CheckAndUpdate env w (some mn) f = some r ∧
      r.ret = false ∧ r.pmn = some mn ∧ r.world = w ∧
      ((mnp.SimpleCheck env).ret = true → mn.needsNewBroadcast f = false →
        mnp.blockTooOld env = false →
        mn.IsPingedWithin env (MASTERNODE_MIN_MNP_SECONDS - 60) mnp.sigTime = false →
        r.nDos = 33) := by
  have hcs : (mnp.CheckSignature env mn.pubKeyMasternode).ret = false := by
    rw [ping_CheckSignature_eq, hsig]; rfl
  refine ⟨_, CheckAndUpdate_eq env w mnp mn f, ?_⟩
  split_ifs with h1 h2 h3 h4
  · exact ⟨rfl, rfl, rfl, fun a => by rw [h1] at a; exact absurd a (by decide)⟩
  · exact ⟨rfl, rfl, rfl, fun _ b => by rw [h2] at b; exact absurd b (by decide)⟩
  · exact ⟨rfl, rfl, rfl, fun _ _ c => by rw [h3] at c; exact absurd c (by decide)⟩
  · exact ⟨rfl, rfl, rfl, fun _ _ _ d => by rw [h4] at d; exact absurd d (by decide)⟩
  · exact ⟨rfl, rfl, rfl, fun _ _ _ _ => rfl⟩

/-- C21 at a concrete input: a ping 600 s after the stored one, on a known recent block, with
a bad signature, is refused with nDos = 33 and the entry stays as it was. -/
theorem C21_witness :
    ∃ r, badSigPing.CheckAndUpdate sampleEnv {} (some sampleEntry) false = some r ∧
      r.ret = false ∧ r.pmn = some sampleEntry ∧ r.world = {} ∧ r.nDos = 33 := by
  obtain ⟨r, hr, h1, h2, h3, h4⟩ :=
    C21_ping_signature_gate sampleEnv {} badSigPing sampleEntry false (by decide)
  exact ⟨r, hr, h1, h2, h3, h4 (by decide) (by decide) (by decide) (by decide)⟩

/-- C22 as stated fails at three inputs.  A ping signed more than an hour ahead of
network-adjusted time, 200 s after the stored ping, is refused with nDos = 1, not 0.  A
validly signed ping with sig_time -1 is compared with the clock instead of its own sig_time
and replaces a stored ping that is far newer.  A validly signed ping with sig_time -2^63
makes the int64_t subtraction of the spacing test overflow and also replaces the stored
ping. -/
theorem C22_spacing_counterexample :
    (CMasternodePing.eq aheadEntry.lastPing {} = false ∧
      aheadPing.sigTime - aheadEntry.lastPing.sigTime < MASTERNODE_MIN_MNP_SECONDS - 60 ∧
      (aheadPing.CheckAndUpdate sampleEnv {} (some aheadEntry) false).map
        (fun r => (r.ret, r.nDos)) = some (false, 1)) ∧
    (CMasternodePing.eq olderPingEntry.lastPing {} = false ∧
      minusOnePing.sigTime - olderPingEntry.lastPing.sigTime <
        MASTERNODE_MIN_MNP_SECONDS - 60 ∧
      ((minusOnePing.CheckAndUpdate sampleEnv {} (some olderPingEntry) false).bind
        (fun r => r.pmn)).map (fun e => e.lastPing.sigTime) = some (-1)) ∧
    (CMasternodePing.eq sampleEntry.lastPing {} = false ∧
      minTimePing.sigTime ≠ -1 ∧
      minTimePing.sigTime - sampleEntry.lastPing.sigTime < MASTERNODE_MIN_MNP_SECONDS - 60 ∧
      ((minTimePing.CheckAndUpdate sampleEnv {} (some sampleEntry) false).bind
        (fun r => r.pmn)).map (fun e => e.lastPing.sigTime) = some (-2 ^ 63)) := by
  decide

/-- C22 (amended): for an entry with a non-empty stored ping and a ping whose sig_time is
not -1 and is less than 540 s after the stored one (older pings included), the int64_t
subtraction of the two sig_times not overflowing, CheckAndUpdate returns false and leaves the
entry and the collaborators as they were; nDos is 0 unless the ping is signed more than an
hour ahead of network-adjusted time, and then it is 1. -/
theorem C22_ping_spacing (env : Env) (w : World) (mnp : CMasternodePing)
    (mn : CMasternode) (f : Bool)
    (hne : CMasternodePing.eq mn.lastPing {} = false)
    (hs : mnp.sigTime ≠ -1)
    (hf : SubFits mnp.sigTime mn.lastPing.sigTime)
    (hd : mnp.sigTime - mn.lastPing.sigTime < MASTERNODE_MIN_MNP_SECONDS - 60) :
    ∃ r, mnp.CheckAndUpdate env w (some mn) f = some r ∧
      r.ret = false ∧ r.pmn = some mn ∧ r.world = w ∧
      (mnp.sigTime ≤ env.GetAdjustedTime + 3600 → r.nDos = 0) ∧
      (mnp.sigTime > env.GetAdjustedTime + 3600 → r.nDos = 1) := by
  have hp : mn.IsPingedWithin env (MASTERNODE_MIN_MNP_SECONDS - 60) mnp.sigTime = true := by
    rw [IsPingedWithin_at env mn _ _ hne hs hf]; exact decide_eq_true hd
  have hn := ping_SimpleCheck_nDos env mnp
  refine ⟨_, CheckAndUpdate_eq env w mnp mn f, ?_⟩
  split_ifs with h1 h2 h3
  · refine ⟨rfl, rfl, rfl, fun a => hn.2 a, fun a => hn.1 a⟩
  · refine ⟨rfl, rfl, rfl, fun _ => rfl, fun a => ?_⟩
    have h0 := hn.1 a
    rw [ping_SimpleCheck_ok env mnp (by simpa using h1)] at h0
    exact absurd h0 (by decide)
  · refine ⟨rfl, rfl, rfl, fun _ => rfl, fun a => ?_⟩
    have h0 := hn.1 a
    rw [ping_SimpleCheck_ok env mnp (by simpa using h1)] at h0
    exact absurd h0 (by decide)
  · refine ⟨rfl, rfl, rfl, fun _ => rfl, fun a => ?_⟩
    have h0 := hn.1 a
    rw [ping_SimpleCheck_ok env mnp (by simpa using h1)] at h0
    exact absurd h0 (by decide)

/-- C22 at a concrete input: a ping signed 100 s after the stored one is refused with
nDos = 0 and the entry stays as it was. -/
theorem C22_witness :
    ∃ r, CMasternodePing.CheckAndUpdate sampleEnv {} { samplePing with sigTime := 100000 }
        (some sampleEntry) false = some r ∧
      r.ret = false ∧ r.pmn = some sampleEntry ∧ r.world = {} ∧ r.nDos = 0 := by
  obtain ⟨r, hr, h1, h2, h3, h4, _⟩ :=
    C22_ping_spacing sampleEnv {} { samplePing with sigTime := 100000 } sampleEntry false
      (by decide) (by decide) (by decide) (by decide)
  exact ⟨r, hr, h1, h2, h3, h4 (by decide)⟩

/-- C23 as stated fails for a ping signed more than an hour ahead of network-adjusted time:
on an UPDATE_REQUIRED entry, outside a merge, the call returns false with nDos = 1. -/
theorem C23_future_ping_scores :
    updateRequiredEntry.nActiveState = MASTERNODE_UPDATE_REQUIRED ∧
    (futurePing.CheckAndUpdate sampleEnv {} (some updateRequiredEntry) false).map
      (fun r => (r.ret, r.nDos)) = some (false, 1) := by
  decide

/-- C23 (amended): outside a broadcast merge, on an entry in UPDATE_REQUIRED or
NEW_START_REQUIRED, CheckAndUpdate returns false and leaves the entry and the collaborators
as they were, with nDos = 0 unless the ping is signed more than an hour ahead of
network-adjusted time (then nDos = 1).  From a broadcast merge the state of the entry
refuses nothing: a ping that passes the other gates is stored. -/
theorem C23_state_refuses_ping (env : Env) (w : World) (mnp : CMasternodePing)
    (mn : CMasternode)
    (hst : mn.nActiveState = MASTERNODE_UPDATE_REQUIRED ∨
      mn.nActiveState = MASTERNODE_NEW_START_REQUIRED) :
    (∃ r, mnp.CheckAndUpdate env w (some mn) false = some r ∧
      r.ret = false ∧ r.pmn = some mn ∧ r.world = w ∧
      (mnp.sigTime ≤ env.GetAdjustedTime + 3600 → r.nDos = 0) ∧
      (mnp.sigTime > env.GetAdjustedTime + 3600 → r.nDos = 1)) ∧
    ((mnp.SimpleCheck env).ret = true → mnp.blockTooOld env = false →
      mn.IsPingedWithin env (MASTERNODE_MIN_MNP_SECONDS - 60) mnp.sigTime = false →
      (mnp.CheckSignature env mn.pubKeyMasternode).ret = true →
      ∃ r, mnp.CheckAndUpdate env w (some mn) true = some r ∧
        r.pmn = some (CMasternode.Check env true { mn with lastPing := mnp })) := by
  have hnb : mn.needsNewBroadcast false = true := by
    unfold CMasternode.needsNewBroadcast CMasternode.IsUpdateRequired
      CMasternode.IsNewStartRequired
    rcases hst with h | h <;> rw [h] <;> decide
  have hn := ping_SimpleCheck_nDos env mnp
  constructor
  · refine ⟨_, CheckAndUpdate_eq env w mnp mn false, ?_⟩
    split_ifs with h1
    · exact ⟨rfl, rfl, rfl, fun a => hn.2 a, fun a => hn.1 a⟩
    · refine ⟨rfl, rfl, rfl, fun _ => rfl, fun a => ?_⟩
      have h0 := hn.1 a
      rw [ping_SimpleCheck_ok env mnp (by simpa using h1)] at h0
      exact absurd h0 (by decide)
  · intro h1 h3 h4 h5
    refine ⟨_, CheckAndUpdate_eq env w mnp mn true, ?_⟩
    have h2 : mn.needsNewBroadcast true = false := rfl
    rw [if_neg (by rw [h1]; decide), if_neg (by rw [h2]; decide), if_neg (by rw [h3]; decide),
      if_neg (by rw [h4]; decide), if_neg (by rw [h5]; decide)]
    exact install_pmn _ _ _ _ _

/-- C23 at a concrete input: the later ping is refused by the UPDATE_REQUIRED entry outside
a merge and stored when it arrives with a broadcast merge. -/
theorem C23_witness :
    (∃ r, laterPing.CheckAndUpdate sampleEnv {} (some updateRequiredEntry) false = some r ∧
      r.ret = false ∧ r.pmn = some updateRequiredEntry ∧ r.world = {} ∧ r.nDos = 0) ∧
    (∃ r, laterPing.CheckAndUpdate sampleEnv {} (some updateRequiredEntry) true = some r ∧
      r.pmn = some (CMasternode.Check sampleEnv true
        { updateRequiredEntry with lastPing := laterPing })) := by
  have h := C23_state_refuses_ping sampleEnv {} laterPing updateRequiredEntry
    (Or.inl (by decide))
  obtain ⟨r, hr, h1, h2, h3, h4, _⟩ := h.1
  exact ⟨⟨r, hr, h1, h2, h3, h4 (by decide)⟩,
    h.2 (by decide) (by decide) (by decide) (by decide)⟩

/-- C24: the relay hash of a broadcast is fixed by its key, payee and sig_time, and the relay
hash of a ping by its key and sig_time; no other field enters either hash. -/
theorem C24_relay_hash_inputs (env : Env) (a b : CMasternodeBroadcast)
    (p q : CMasternodePing) :
    (a.pubKeyMasternode = b.pubKeyMasternode → a.payee = b.payee → a.sigTime = b.sigTime →
      a.GetHash env = b.GetHash env) ∧
    (p.pubKeyMasternode = q.pubKeyMasternode → p.sigTime = q.sigTime →
      p.GetHash env = q.GetHash env) := by
  constructor
  · intro h1 h2 h3
    unfold CMasternodeBroadcast.GetHash
    rw [h1, h2, h3]
  · intro h1 h2
    unfold CMasternodePing.GetHash
    rw [h1, h2]

/-- C24 at a concrete input: two broadcasts that differ in address, signature, protocol
version, ping and recovery flag, and two pings that differ in block hash and signature. -/
theorem C24_witness :
    sampleBroadcast ≠ sameHashBroadcast ∧
    sampleBroadcast.GetHash sampleEnv = sameHashBroadcast.GetHash sampleEnv ∧
    samplePing.GetHash sampleEnv =
      CMasternodePing.GetHash sampleEnv { samplePing with blockHash := 8, vchSig := [] } :=
  ⟨by decide,
    (C24_relay_hash_inputs sampleEnv sampleBroadcast sameHashBroadcast samplePing
      { samplePing with blockHash := 8, vchSig := [] }).1 rfl rfl rfl,
    (C24_relay_hash_inputs sampleEnv sampleBroadcast sameHashBroadcast samplePing
      { samplePing with blockHash := 8, vchSig := [] }).2 rfl rfl⟩

/-- For int64_t values under a non-negative clock, a difference adjusted_now - sig_time
below a bound that is itself at most 2^63 does not overflow. -/
theorem SubFits_of_recent (now sigTime n : Int) (h0 : 0 ≤ now) (h1 : now < 2 ^ 63)
    (h2 : sigTime < 2 ^ 63) (hn : n ≤ 2 ^ 63) (h : now - sigTime < n) :
    SubFits now sigTime := by
  unfold SubFits
  omega

/-- C30 as stated fails for the two PoSe fields: with the rate gate closed and no local key,
Update returns true on an entry whose ban is over and the score has dropped from 5 to 4; and
on an entry with the score at the maximum Update returns false after the ban height has been
set. -/
theorem C30_policy_fields_change :
    (sampleEnv.GetAdjustedTime - recentBannedEntry.sigTime < MASTERNODE_MIN_MNB_SECONDS ∧
      sampleEnv.fMasterNode = false ∧
      (sampleBroadcast.Update sampleEnv {} recentBannedEntry).map
        (fun r => (r.ret, r.pmn.nPoSeBanScore)) = some (true, 4) ∧
      recentBannedEntry.nPoSeBanScore = 5) ∧
    (sampleEnv.GetAdjustedTime - recentMaxScoreEntry.sigTime < MASTERNODE_MIN_MNB_SECONDS ∧
      (sampleBroadcast.Update sampleEnv {} recentMaxScoreEntry).map
        (fun r => (r.ret, r.pmn.nPoSeBanHeight)) = some (false, 110) ∧
      recentMaxScoreEntry.nPoSeBanHeight = 0) := by
  decide

/-- C30 (amended): while the entry was announced less than 300 s ago (the int64_t
subtraction adjusted_now - E.sig_time not overflowing, as is the case for every int64_t
sig_time under a non-negative clock) and the key of the broadcast is not the locally
operated one, Update relays nothing, and the entry afterwards is
the old one or the old one after the unforced Check of step 3: key, payee, sig_time,
signature, protocol version, address and last ping are unchanged, and the PoSe score and ban
height are what that Check leaves.  When the broadcast also passes the earlier rules, Update
returns true with nDos = 0. -/
theorem C30_rate_gate (env : Env) (w : World) (mnb : CMasternodeBroadcast)
    (pmn : CMasternode)
    (hgate : env.GetAdjustedTime - pmn.sigTime < MASTERNODE_MIN_MNB_SECONDS)
    (hfit : SubFits env.GetAdjustedTime pmn.sigTime)
    (hlocal : ¬ (env.fMasterNode = true ∧ mnb.pubKeyMasternode = env.activePubKeyMasternode)) :
    ∃ r, mnb.Update env w pmn = some r ∧ r.world = w ∧
      (r.pmn = pmn ∨ r.pmn = pmn.Check env false) ∧
      r.pmn.SameIdentity pmn ∧ r.pmn.lastPing = pmn.lastPing ∧
      (¬ ((pmn.sigTime = mnb.sigTime ∧ mnb.fRecovery = false) ∨ pmn.sigTime > mnb.sigTime) →
        (pmn.Check env false).IsPoSeBanned = false → pmn.payee = mnb.payee →
        (mnb.CheckSignature env).ret = true →
        r.ret = true ∧ r.nDos = 0 ∧ r.pmn = pmn.Check env false) := by
  have hid := Check_identity env false pmn
  have hno : ¬ ((!(pmn.Check env false).IsBroadcastedWithin env MASTERNODE_MIN_MNB_SECONDS ||
      (env.fMasterNode && (mnb.pubKeyMasternode == env.activePubKeyMasternode))) = true) := by
    rw [gate_iff env mnb pmn hfit]
    rintro (h | h)
    · exact absurd hgate (not_lt.2 h)
    · exact hlocal h
  have hcs : ∀ b, env.VerifyMessage mnb.pubKeyMasternode mnb.vchSig (mnb.strMessage env) = b →
      (mnb.CheckSignature env).ret = b := by
    intro b hb
    unfold CMasternodeBroadcast.CheckSignature
    rw [hb]; cases b <;> rfl
  by_cases hne : (pmn.sigTime = mnb.sigTime ∧ mnb.fRecovery = false) ∨ pmn.sigTime > mnb.sigTime
  · exact ⟨_, Update_early env w mnb pmn hne, rfl, Or.inl rfl, SameIdentity_refl pmn, rfl,
      fun h => absurd hne h⟩
  by_cases hb : (pmn.Check env false).IsPoSeBanned = true
  · exact ⟨_, Update_banned env w mnb pmn hne hb, rfl, Or.inr rfl, hid.1, hid.2,
      fun _ h => by rw [hb] at h; exact absurd h (by decide)⟩
  have hb2 : (pmn.Check env false).IsPoSeBanned = false := by simpa using hb
  by_cases hp : pmn.payee = mnb.payee
  swap
  · exact ⟨_, Update_payee env w mnb pmn hne hb2 hp, rfl, Or.inr rfl, hid.1, hid.2,
      fun _ _ h => absurd h hp⟩
  by_cases hs : env.VerifyMessage mnb.pubKeyMasternode mnb.vchSig (mnb.strMessage env) = true
  swap
  · have hs2 : env.VerifyMessage mnb.pubKeyMasternode mnb.vchSig (mnb.strMessage env) = false := by
      simpa using hs
    exact ⟨_, Update_badsig env w mnb pmn hne hb2 hp hs2, rfl, Or.inr rfl, hid.1, hid.2,
      fun _ _ _ h => by rw [hcs false hs2] at h; exact absurd h (by decide)⟩
  exact ⟨_, Update_gate_closed env w mnb pmn hne hb2 hp hs (by simpa using hno), rfl,
    Or.inr rfl, hid.1, hid.2, fun _ _ _ _ => ⟨rfl, rfl, rfl⟩⟩

/-- C30 at a concrete input: the sample broadcast on an entry announced 100 s ago returns
true, relays nothing and leaves the entry as the unforced Check leaves it. -/
theorem C30_witness :
    ∃ r, sampleBroadcast.Update sampleEnv {} recentEntry = some r ∧ r.world = {} ∧
      r.ret = true ∧ r.nDos = 0 ∧ r.pmn = recentEntry.Check sampleEnv false ∧
      r.pmn.SameIdentity recentEntry ∧ r.pmn.lastPing = recentEntry.lastPing := by
  obtain ⟨r, hr, h1, _, h3, h4, h5⟩ :=
    C30_rate_gate sampleEnv {} sampleBroadcast recentEntry (by decide) (by decide) (by decide)
  obtain ⟨h6, h7, h8⟩ := h5 (by decide) (by decide) (by decide) (by decide)
  exact ⟨r, hr, h1, h6, h7, h8, h3, h4⟩

/-! ## CalculateScore -/

theorem UintToArith256_lt (h : uint256) : UintToArith256 h < 2 ^ 256 :=
  Nat.mod_lt _ (by decide)

theorem UintToArith256_of_lt (h : uint256) (hh : h < 2 ^ 256) : UintToArith256 h = h :=
  Nat.mod_eq_of_lt hh

/-- The 256-bit subtraction is exact when the subtrahend is not the larger operand. -/
theorem arith_uint256_sub_exact (a b : Nat) (hb : b ≤ a) (ha : a < 2 ^ 256) :
    arith_uint256_sub a b = a - b := by
  unfold arith_uint256_sub
  have hb2 : b % 2 ^ 256 = b := Nat.mod_eq_of_lt (lt_of_le_of_lt hb ha)
  rw [hb2]
  have e : a + (2 ^ 256 - b) = 2 ^ 256 + (a - b) := by omega
  rw [e, Nat.add_mod_left]
  exact Nat.mod_eq_of_lt (lt_of_le_of_lt (Nat.sub_le a b) ha)

/-- The legacy branch of CalculateScore, reduced to exact subtraction. -/
theorem CalculateScore_legacy (env : Env) (mn : CMasternode) (blockHash : uint256)
    (hleg : env.fDIP0001WasLockedIn = false) :
    mn.CalculateScore env blockHash =
      (if UintToArith256 (env.HashWriter [SerItem.hash256 blockHash, SerItem.hash256
            (ArithToUint256 (UintToArith256 (env.pubKeyGetHash mn.pubKeyMasternode)))]) >
          UintToArith256 (env.HashWriter [SerItem.hash256 blockHash]) then
        UintToArith256 (env.HashWriter [SerItem.hash256 blockHash, SerItem.hash256
            (ArithToUint256 (UintToArith256 (env.pubKeyGetHash mn.pubKeyMasternode)))]) -
          UintToArith256 (env.HashWriter [SerItem.hash256 blockHash])
      else
        UintToArith256 (env.HashWriter [SerItem.hash256 blockHash]) -
          UintToArith256 (env.HashWriter [SerItem.hash256 blockHash, SerItem.hash256
            (ArithToUint256 (UintToArith256 (env.pubKeyGetHash mn.pubKeyMasternode)))])) := by
  unfold CMasternode.CalculateScore
  rw [hleg]
  simp only [Bool.false_eq_true, if_false]
  split_ifs with h
  · exact arith_uint256_sub_exact _ _ (le_of_lt h) (UintToArith256_lt _)
  · exact arith_uint256_sub_exact _ _ (not_lt.1 h) (UintToArith256_lt _)

/-- C25: in modern mode CalculateScore is the digest of key, collateral block hash and block
hash, read as a 256-bit number.  In both modes the score is fixed by the mode flag, the two
digest functions, the key, the collateral block hash and the block hash: entries that agree
on key and collateral block hash get the same score in any two contexts that agree on the
flag and the digests.  The source assigns no member, so the entry is the same afterwards. -/
theorem C25_CalculateScore_modern (env env2 : Env) (mn mn2 : CMasternode)
    (blockHash : uint256) :
    (env.fDIP0001WasLockedIn = true →
      mn.CalculateScore env blockHash =
        UintToArith256 (env.HashWriter [SerItem.pubkey mn.pubKeyMasternode,
          SerItem.hash256 mn.nCollateralMinConfBlockHash, SerItem.hash256 blockHash]) ∧
      (env.HashWriter [SerItem.pubkey mn.pubKeyMasternode,
          SerItem.hash256 mn.nCollateralMinConfBlockHash, SerItem.hash256 blockHash] < 2 ^ 256 →
        mn.CalculateScore env blockHash =
          env.HashWriter [SerItem.pubkey mn.pubKeyMasternode,
            SerItem.hash256 mn.nCollateralMinConfBlockHash, SerItem.hash256 blockHash])) ∧
    (env.fDIP0001WasLockedIn = env2.fDIP0001WasLockedIn → env.HashWriter = env2.HashWriter →
      env.pubKeyGetHash = env2.pubKeyGetHash →
      mn.pubKeyMasternode = mn2.pubKeyMasternode →
      mn.nCollateralMinConfBlockHash = mn2.nCollateralMinConfBlockHash →
      mn.CalculateScore env blockHash = mn2.CalculateScore env2 blockHash) := by
  constructor
  · intro h
    have e : mn.CalculateScore env blockHash =
        UintToArith256 (env.HashWriter [SerItem.pubkey mn.pubKeyMasternode,
          SerItem.hash256 mn.nCollateralMinConfBlockHash, SerItem.hash256 blockHash]) := by
      unfold CMasternode.CalculateScore
      rw [if_pos h]
    exact ⟨e, fun hlt => by rw [e, UintToArith256_of_lt _ hlt]⟩
  · intro h1 h2 h3 h4 h5
    unfold CMasternode.CalculateScore
    rw [h1, h2, h3, h4, h5]

/-- C25 at a concrete input: in the sample context the score of the sample entry for block
hash 7 is the digest 3, and the banned entry in a context with other clocks gets the same
score. -/
theorem C25_witness :
    sampleEntry.CalculateScore sampleEnv 7 = 3 ∧
    sampleEntry.CalculateScore sampleEnv 7 = bannedEntry.CalculateScore fastClockEnv 7 :=
  ⟨((C25_CalculateScore_modern sampleEnv fastClockEnv sampleEntry bannedEntry 7).1 rfl).2
      (by decide),
    (C25_CalculateScore_modern sampleEnv fastClockEnv sampleEntry bannedEntry 7).2
      rfl rfl rfl rfl rfl⟩

/-- C26: in legacy mode CalculateScore is the exact absolute difference of the 256-bit
numbers h2 = H(block hash) and h3 = H(block hash, H(key)): the 256-bit subtraction does not
wrap, the score is below 2^256, and the collateral block hash plays no role. -/
theorem C26_CalculateScore_legacy (env : Env) (mn mn2 : CMasternode) (blockHash : uint256)
    (hleg : env.fDIP0001WasLockedIn = false) :
    ((mn.CalculateScore env blockHash : Nat) : Int) =
      |((UintToArith256 (env.HashWriter [SerItem.hash256 blockHash, SerItem.hash256
          (ArithToUint256 (UintToArith256 (env.pubKeyGetHash mn.pubKeyMasternode)))]) : Nat) :
          Int) -
        ((UintToArith256 (env.HashWriter [SerItem.hash256 blockHash]) : Nat) : Int)| ∧
    mn.CalculateScore env blockHash < 2 ^ 256 ∧
    (mn.pubKeyMasternode = mn2.pubKeyMasternode →
      mn.CalculateScore env blockHash = mn2.CalculateScore env blockHash) := by
  have e := CalculateScore_legacy env mn blockHash hleg
  have l2 := UintToArith256_lt (env.HashWriter [SerItem.hash256 blockHash])
  have l3 := UintToArith256_lt (env.HashWriter [SerItem.hash256 blockHash, SerItem.hash256
    (ArithToUint256 (UintToArith256 (env.pubKeyGetHash mn.pubKeyMasternode)))])
  refine ⟨?_, ?_, ?_⟩
  · rw [e]
    split_ifs with h
    · rw [abs_of_nonneg (by omega)]; omega
    · rw [abs_of_nonpos (by omega)]; omega
  · rw [e]
    split_ifs with h
    · exact lt_of_le_of_lt (Nat.sub_le _ _) l3
    · exact lt_of_le_of_lt (Nat.sub_le _ _) l2
  · intro h
    rw [e, CalculateScore_legacy env mn2 blockHash hleg, h]

/-- C26 at a concrete input: with h2 = 2^256 - 1 and h3 = 5 the score is 2^256 - 6, also
for an entry with another collateral block hash. -/
theorem C26_witness :
    legacyEnv.fDIP0001WasLockedIn = false ∧
    sampleEntry.CalculateScore legacyEnv 7 < 2 ^ 256 ∧
    sampleEntry.CalculateScore legacyEnv 7 =
      CMasternode.CalculateScore legacyEnv
        { sampleEntry with nCollateralMinConfBlockHash := 99 } 7 :=
  ⟨rfl,
    (C26_CalculateScore_legacy legacyEnv sampleEntry
      { sampleEntry with nCollateralMinConfBlockHash := 99 } 7 rfl).2.1,
    (C26_CalculateScore_legacy legacyEnv sampleEntry
      { sampleEntry with nCollateralMinConfBlockHash := 99 } 7 rfl).2.2 rfl⟩

/-- The legacy score at the sample values: h2 = 2^256 - 1, h3 = 5, score 2^256 - 6. -/
theorem CalculateScore_legacy_sample :
    sampleEntry.CalculateScore legacyEnv 7 = 2 ^ 256 - 6 := by
  decide

/-! ## Sign and Create -/

/-- A ping that Sign accepted passes CheckSignature against the same key: both build the text
key id, block hash, sig_time from the stored members. -/
theorem ping_Sign_CheckSignature (env : Env) (mnp : CMasternodePing) (key : CKey)
    (pk : CPubKey) (h : (mnp.Sign env key pk).ret = true) :
    (mnp.Sign env key pk).obj.CheckSignature env pk = { ret := true, nDos := 0 } := by
  unfold CMasternodePing.Sign at h ⊢
  dsimp only at h ⊢
  cases hs : env.SignMessage (env.keyIDToString pk ++ env.hashToString mnp.blockHash ++
      toString env.GetAdjustedTime) key with
  | none => rw [hs] at h; exact absurd h Bool.false_ne_true
  | some sig =>
    rw [hs] at h
    dsimp only at h ⊢
    cases hv : env.VerifyMessage pk sig (env.keyIDToString pk ++
        env.hashToString mnp.blockHash ++ toString env.GetAdjustedTime) with
    | false => rw [hv] at h; exact absurd h Bool.false_ne_true
    | true =>
      simp only [Bool.not_true, Bool.false_eq_true, if_false]
      rw [ping_CheckSignature_eq]
      dsimp only
      rw [if_pos hv]

/-- A broadcast that Sign accepted passes CheckSignature: both build the text address,
sig_time, key id, payee, protocol version from the stored members. -/
theorem broadcast_Sign_CheckSignature (env : Env) (mnb : CMasternodeBroadcast) (key : CKey)
    (h : (mnb.Sign env key).ret = true) :
    (mnb.Sign env key).obj.CheckSignature env = { ret := true, nDos := 0 } ∧
    (mnb.Sign env key).obj.lastPing = mnb.lastPing ∧
    (mnb.Sign env key).obj.pubKeyMasternode = mnb.pubKeyMasternode := by
  unfold CMasternodeBroadcast.Sign at h ⊢
  dsimp only at h ⊢
  cases hs : env.SignMessage (env.addrToString mnb.addr ++ toString env.GetAdjustedTime ++
      env.keyIDToString mnb.pubKeyMasternode ++ env.payeeToString mnb.payee ++
      toString mnb.nProtocolVersion) key with
  | none => rw [hs] at h; exact absurd h Bool.false_ne_true
  | some sig =>
    rw [hs] at h
    dsimp only at h ⊢
    cases hv : env.VerifyMessage mnb.pubKeyMasternode sig (env.addrToString mnb.addr ++
        toString env.GetAdjustedTime ++ env.keyIDToString mnb.pubKeyMasternode ++
        env.payeeToString mnb.payee ++ toString mnb.nProtocolVersion) with
    | false => rw [hv] at h; exact absurd h Bool.false_ne_true
    | true =>
      refine ⟨?_, rfl, rfl⟩
      simp only [Bool.not_true, Bool.false_eq_true, if_false]
      unfold CMasternodeBroadcast.CheckSignature CMasternodeBroadcast.strMessage
      dsimp only
      rw [hv]
      rfl

/-- Create returns true only when both Sign calls succeed, and then hands out the signed
broadcast. -/
theorem Create_true_inv (env : Env) (service : CService) (key : CKey) (pk : CPubKey)
    (payee : CBitcoinAddress) (mnbRet : CMasternodeBroadcast)
    (h : (CMasternodeBroadcast.Create env service key pk payee mnbRet).ret = true) :
    (CMasternodeBroadcast.CreatePing env key pk).ret = true ∧
    ((CMasternodeBroadcast.CreateUnsigned env service key pk payee).Sign env key).ret = true ∧
    (CMasternodeBroadcast.Create env service key pk payee mnbRet).mnbRet =
      ((CMasternodeBroadcast.CreateUnsigned env service key pk payee).Sign env key).obj := by
  unfold CMasternodeBroadcast.Create at h ⊢
  dsimp only at h ⊢
  split_ifs at h ⊢ with h1 h2 h3 h4
  all_goals first
    | exact absurd h (by decide)
    | exact ⟨by simpa using h2, by simpa using h4, rfl⟩

/-- Signing a ping writes sig_time and the signature only. -/
theorem ping_Sign_frame (env : Env) (mnp : CMasternodePing) (key : CKey) (pk : CPubKey) :
    (mnp.Sign env key pk).obj.blockHash = mnp.blockHash ∧
    (mnp.Sign env key pk).obj.pubKeyMasternode = mnp.pubKeyMasternode := by
  unfold CMasternodePing.Sign
  dsimp only
  cases env.SignMessage (env.keyIDToString pk ++ env.hashToString mnp.blockHash ++
      toString env.GetAdjustedTime) key with
  | none => exact ⟨rfl, rfl⟩
  | some sig =>
    dsimp only
    split_ifs <;> exact ⟨rfl, rfl⟩

/-- With a tip at height 12 or more, a broadcast that Create hands out carries a ping for the
given key on the active-chain block 12 below the tip. -/
theorem Create_ping_block (env : Env) (service : CService) (key : CKey) (pk : CPubKey)
    (payee : CBitcoinAddress) (mnbRet : CMasternodeBroadcast)
    (htip : env.chainHasTip = true) (hh : 12 ≤ env.chainHeight)
    (h : (CMasternodeBroadcast.Create env service key pk payee mnbRet).ret = true) :
    (CMasternodeBroadcast.Create env service key pk payee mnbRet).mnbRet.lastPing.blockHash =
      env.chainBlockHash (env.chainHeight - 12) ∧
    (CMasternodeBroadcast.Create env service key pk payee mnbRet).mnbRet.lastPing.pubKeyMasternode
      = pk := by
  obtain ⟨_, hs, he⟩ := Create_true_inv env service key pk payee mnbRet h
  have hl := (broadcast_Sign_CheckSignature env _ key hs).2.1
  have hc : CMasternodePing.construct env pk =
      { pubKeyMasternode := pk, blockHash := env.chainBlockHash (env.chainHeight - 12),
        sigTime := env.GetAdjustedTime } := by
    unfold CMasternodePing.construct
    rw [if_neg]
    simp only [htip, Bool.not_true, Bool.false_or, decide_eq_true_eq, not_lt]
    exact hh
  have hf := ping_Sign_frame env (CMasternodePing.construct env pk) key pk
  rw [he, hl]
  unfold CMasternodeBroadcast.CreateUnsigned CMasternodeBroadcast.CreatePing
  dsimp only
  rw [hf.1, hf.2, hc]
  exact ⟨rfl, rfl⟩

/-- C27 (code at the failing input): with the tip at height 5, and with no tip at all, Create
on a valid key and address returns true; the ping inside the broadcast is the default one
with an all-zero block hash and no key. -/
theorem C27_Create_on_short_chain :
    shortChainEnv.chainHeight < 12 ∧
    (CMasternodeBroadcast.Create shortChainEnv sampleEntry.addr [42] [1, 2, 3] [76, 1] {}).ret
      = true ∧
    (CMasternodeBroadcast.Create shortChainEnv sampleEntry.addr [42] [1, 2, 3] [76, 1]
      {}).mnbRet.lastPing =
        { pubKeyMasternode := [], blockHash := 0, sigTime := 100000, vchSig := [1] } ∧
    noTipEnv.chainHasTip = false ∧
    (CMasternodeBroadcast.Create noTipEnv sampleEntry.addr [42] [1, 2, 3] [76, 1] {}).ret
      = true ∧
    (CMasternodeBroadcast.Create noTipEnv sampleEntry.addr [42] [1, 2, 3] [76, 1]
      {}).mnbRet.lastPing.blockHash = 0 := by
  decide

/-- C28: whenever Create returns true, the broadcast it hands out carries the given key,
passes CMasternodeBroadcast::CheckSignature with nDos = 0, and its ping passes
CMasternodePing::CheckSignature against that key; when the self-verification of the ping or
of the broadcast fails, Create returns false. -/
theorem C28_Create_round_trip (env : Env) (service : CService) (key : CKey) (pk : CPubKey)
    (payee : CBitcoinAddress) (mnbRet : CMasternodeBroadcast) :
    ((CMasternodeBroadcast.Create env service key pk payee mnbRet).ret = true →
      (CMasternodeBroadcast.Create env service key pk payee mnbRet).mnbRet.CheckSignature env =
        { ret := true, nDos := 0 } ∧
      (CMasternodeBroadcast.Create env service key pk payee mnbRet).mnbRet.pubKeyMasternode
        = pk ∧
      (CMasternodeBroadcast.Create env service key pk payee mnbRet).mnbRet.lastPing.CheckSignature
        env (CMasternodeBroadcast.Create env service key pk payee mnbRet).mnbRet.pubKeyMasternode
        = { ret := true, nDos := 0 }) ∧
    ((CMasternodeBroadcast.CreatePing env key pk).ret = false →
      (CMasternodeBroadcast.Create env service key pk payee mnbRet).ret = false) ∧
    (((CMasternodeBroadcast.CreateUnsigned env service key pk payee).Sign env key).ret = false →
      (CMasternodeBroadcast.Create env service key pk payee mnbRet).ret = false) := by
  refine ⟨fun h => ?_, fun hf => ?_, fun hf => ?_⟩
  · obtain ⟨hp, hs, he⟩ := Create_true_inv env service key pk payee mnbRet h
    obtain ⟨h1, h2, h3⟩ := broadcast_Sign_CheckSignature env _ key hs
    have hk : (CMasternodeBroadcast.CreateUnsigned env service key pk payee).pubKeyMasternode
        = pk := rfl
    have hl : (CMasternodeBroadcast.CreateUnsigned env service key pk payee).lastPing =
        (CMasternodeBroadcast.CreatePing env key pk).obj := rfl
    rw [he, h2, h3, hk, hl]
    exact ⟨h1, rfl, ping_Sign_CheckSignature env _ key pk hp⟩
  · cases hc : (CMasternodeBroadcast.Create env service key pk payee mnbRet).ret with
    | false => rfl
    | true =>
      rw [(Create_true_inv env service key pk payee mnbRet hc).1] at hf
      exact absurd hf (by decide)
  · cases hc : (CMasternodeBroadcast.Create env service key pk payee mnbRet).ret with
    | false => rfl
    | true =>
      rw [(Create_true_inv env service key pk payee mnbRet hc).2.1] at hf
      exact absurd hf (by decide)

/-- C28 at a concrete input: Create with the signing key of the sample context returns true
and both signatures verify; with a key that cannot sign it returns false. -/
theorem C28_witness :
    (CMasternodeBroadcast.Create sampleEnv sampleEntry.addr [42] [1, 2, 3] [76, 1] {}).ret
      = true ∧
    (CMasternodeBroadcast.Create sampleEnv sampleEntry.addr [42] [1, 2, 3] [76, 1]
      {}).mnbRet.CheckSignature sampleEnv = { ret := true, nDos := 0 } ∧
    (CMasternodeBroadcast.Create sampleEnv sampleEntry.addr [42] [1, 2, 3] [76, 1]
      {}).mnbRet.lastPing.CheckSignature sampleEnv [1, 2, 3] = { ret := true, nDos := 0 } ∧
    (CMasternodeBroadcast.Create sampleEnv sampleEntry.addr [43] [1, 2, 3] [76, 1] {}).ret
      = false := by
  have h := (C28_Create_round_trip sampleEnv sampleEntry.addr [42] [1, 2, 3] [76, 1] {}).1
    (by decide)
  have h2 := h.2.2
  rw [h.2.1] at h2
  exact ⟨by decide, h.1, h2,
    (C28_Create_round_trip sampleEnv sampleEntry.addr [43] [1, 2, 3] [76, 1] {}).2.1
      (by decide)⟩

/-! ## UpdateLastPaid -/

/-- The scan of UpdateLastPaid finds the first paying block of the chain when it lies within
the iteration budget, every block up to it is above the last paid height, and no tallied
block before it is unreadable. -/
theorem UpdateLastPaidLoop_finds (env : Env) (mn : CMasternode) (mnpayee : CScript)
    (b : CBlockIndex) (rest : List CBlockIndex) :
    ∀ (pre : List CBlockIndex) (n : Nat), pre.length < n →
      (∀ c ∈ pre, c.nHeight > mn.nBlockLastPaid ∧ c.paysPayee env mnpayee = false ∧
        c.talliedUnreadable env mnpayee = false) →
      b.nHeight > mn.nBlockLastPaid → b.paysPayee env mnpayee = true →
      CMasternode.UpdateLastPaidLoop env mn mnpayee n (pre ++ b :: rest) =
        { mn with nBlockLastPaid := b.nHeight, nTimeLastPaid := b.nTime } := by
  intro pre
  induction pre with
  | nil =>
    intro n hn _ hb hp
    obtain ⟨k, rfl⟩ : ∃ k, n = k + 1 := ⟨n - 1, by simp at hn; omega⟩
    unfold CBlockIndex.paysPayee at hp
    rw [Bool.and_eq_true] at hp
    obtain ⟨ht, hr⟩ := hp
    rw [List.nil_append]
    unfold CMasternode.UpdateLastPaidLoop
    cases hd : env.ReadBlockFromDisk b with
    | none => rw [hd] at hr; exact absurd hr Bool.false_ne_true
    | some block =>
      rw [hd] at hr
      dsimp only at hr
      simp [hb, ht, hr]
  | cons c pre ih =>
    intro n hn hall hb hp
    obtain ⟨k, rfl⟩ : ∃ k, n = k + 1 := ⟨n - 1, by simp at hn; omega⟩
    have hk : pre.length < k := by simp at hn; omega
    obtain ⟨hc, hcp, hcu⟩ := hall c (List.mem_cons_self _ _)
    have hrec := ih k hk (fun d hd => hall d (List.mem_cons_of_mem _ hd)) hb hp
    unfold CBlockIndex.paysPayee at hcp
    unfold CBlockIndex.talliedUnreadable at hcu
    rw [List.cons_append]
    cases hl : pre ++ b :: rest with
    | nil => simp at hl
    | cons d tl =>
      rw [hl] at hrec
      unfold CMasternode.UpdateLastPaidLoop
      cases ht : env.HasPayeeWithVotes c.nHeight mnpayee 2 with
      | false => simp [hc, hrec]
      | true =>
        rw [ht] at hcp hcu
        cases hd : env.ReadBlockFromDisk c with
        | none => rw [hd] at hcu; exact absurd hcu (by decide)
        | some block =>
          rw [hd] at hcp
          simp at hcp
          simp [hc, hcp, hrec]

/-- On a tallied block that cannot be read the scan spends its whole iteration budget: the
continue statement skips the step to pprev, so the entry is left as it was whatever lies
further back. -/
theorem UpdateLastPaidLoop_stalls (env : Env) (mn : CMasternode) (mnpayee : CScript)
    (b : CBlockIndex) (rest : List CBlockIndex)
    (hu : b.talliedUnreadable env mnpayee = true) :
    ∀ n : Nat, CMasternode.UpdateLastPaidLoop env mn mnpayee n (b :: rest) = mn := by
  unfold CBlockIndex.talliedUnreadable at hu
  rw [Bool.and_eq_true] at hu
  obtain ⟨ht, hr⟩ := hu
  have hd : env.ReadBlockFromDisk b = none := by
    cases h : env.ReadBlockFromDisk b with
    | none => rfl
    | some block => rw [h] at hr; exact absurd hr Bool.false_ne_true
  intro n
  induction n with
  | zero => unfold CMasternode.UpdateLastPaidLoop; rfl
  | succ k ih =>
    unfold CMasternode.UpdateLastPaidLoop
    simp only [ht, hd, if_true]
    split_ifs
    · rfl
    · exact ih

/-- C29 (code at the failing input): block 9 is within the window, tallied with 2 votes and
pays the script exactly the expected amount; block 10 above it is tallied and cannot be read.
UpdateLastPaid leaves n_block_last_paid and n_time_last_paid at 0.  When block 10 can be read
and pays another script, the same call records height 9 and time 1009. -/
theorem C29_unreadable_block_stalls_scan :
    sampleChain.length ≤ 5 ∧
    (∀ b ∈ sampleChain, b.nHeight > sampleEntry.nBlockLastPaid) ∧
    CBlockIndex.paysPayee unreadableTipEnv { nHeight := 9, nTime := 1009, hash := 109 }
      (unreadableTipEnv.scriptForPayee sampleEntry.payee) = true ∧
    CBlockIndex.talliedUnreadable unreadableTipEnv { nHeight := 10, nTime := 1010, hash := 110 }
      (unreadableTipEnv.scriptForPayee sampleEntry.payee) = true ∧
    (sampleEntry.UpdateLastPaid unreadableTipEnv sampleChain 5).nBlockLastPaid = 0 ∧
    (sampleEntry.UpdateLastPaid unreadableTipEnv sampleChain 5).nTimeLastPaid = 0 ∧
    (sampleEntry.UpdateLastPaid unpaidTipEnv sampleChain 5).nBlockLastPaid = 9 ∧
    (sampleEntry.UpdateLastPaid unpaidTipEnv sampleChain 5).nTimeLastPaid = 1009 := by
  decide

/-! ## The block age rule of CheckAndUpdate -/

/-- The age test fires exactly for a stored block whose height is below the tip height
minus 24. -/
theorem blockTooOld_iff (env : Env) (mnp : CMasternodePing) :
    mnp.blockTooOld env = true ↔
      ∃ bi, env.mapBlockIndex mnp.blockHash = some (some bi) ∧
        bi.nHeight < env.chainHeight - 24 := by
  unfold CMasternodePing.blockTooOld
  cases h : env.mapBlockIndex mnp.blockHash with
  | none => simp
  | some pindex =>
    cases pindex with
    | none => simp
    | some bi => simp

/-- C31: for a ping that passed SimpleCheck, the second block-index lookup of CheckAndUpdate
finds the entry of the block, so the call has a defined result.  The age rule fires exactly
when the stored block is lower than the tip height minus 24; then the call returns false
with nDos = 0 and leaves the entry and the collaborators as they were.  Otherwise, a block
exactly 24 below the tip included, the rule refuses nothing: a ping that passes the other
gates is stored. -/
theorem C31_block_age_rule (env : Env) (w : World) (mnp : CMasternodePing)
    (mn : CMasternode) (f : Bool) (hsc : (mnp.SimpleCheck env).ret = true) :
    (∃ pindex, env.mapBlockIndex mnp.blockHash = some pindex) ∧
    (mnp.blockTooOld env = true ↔
      ∃ bi, env.mapBlockIndex mnp.blockHash = some (some bi) ∧
        bi.nHeight < env.chainHeight - 24) ∧
    ∃ r, mnp.CheckAndUpdate env w (some mn) f = some r ∧
      (mnp.blockTooOld env = true →
        r.ret = false ∧ r.nDos = 0 ∧ r.pmn = some mn ∧ r.world = w) ∧
      (mnp.blockTooOld env = false → mn.needsNewBroadcast f = false →
        mn.IsPingedWithin env (MASTERNODE_MIN_MNP_SECONDS - 60) mnp.sigTime = false →
        (mnp.CheckSignature env mn.pubKeyMasternode).ret = true →
        r.pmn = some (CMasternode.Check env true { mn with lastPing := mnp })) := by
  refine ⟨ping_SimpleCheck_found env mnp hsc, blockTooOld_iff env mnp,
    _, CheckAndUpdate_eq env w mnp mn f, ?_, ?_⟩
  · intro hold
    rw [if_neg (by rw [hsc]; decide)]
    split_ifs
    · exact ⟨rfl, rfl, rfl, rfl⟩
    · exact ⟨rfl, rfl, rfl, rfl⟩
  · intro h3 h2 h4 h5
    rw [if_neg (by rw [hsc]; decide), if_neg (by rw [h2]; decide), if_neg (by rw [h3]; decide),
      if_neg (by rw [h4]; decide), if_neg (by rw [h5]; decide)]
    exact install_pmn _ _ _ _ _

/-- C31 at concrete inputs: with block 7 exactly 24 below the tip the later ping is stored;
with the tip one block higher it is refused with nDos = 0 and the entry stays as it was. -/
theorem C31_witness :
    (∃ r, laterPing.CheckAndUpdate edgeTipEnv {} (some sampleEntry) false = some r ∧
      r.pmn = some (CMasternode.Check edgeTipEnv true
        { sampleEntry with lastPing := laterPing })) ∧
    (∃ r, laterPing.CheckAndUpdate farTipEnv {} (some sampleEntry) false = some r ∧
      r.ret = false ∧ r.nDos = 0 ∧ r.pmn = some sampleEntry ∧ r.world = {}) := by
  obtain ⟨_, _, r, hr, _, h2⟩ :=
    C31_block_age_rule edgeTipEnv {} laterPing sampleEntry false (by decide)
  obtain ⟨_, _, r2, hr2, h3, _⟩ :=
    C31_block_age_rule farTipEnv {} laterPing sampleEntry false (by decide)
  exact ⟨⟨r, hr, h2 (by decide) (by decide) (by decide) (by decide)⟩,
    ⟨r2, hr2, h3 (by decide)⟩⟩

/-! ## UpdateLastPaid never goes back -/

/-- The scan leaves the entry as it was, or records a block of the chain that lies above the
last paid height. -/
theorem UpdateLastPaidLoop_cases (env : Env) (mn : CMasternode) (mnpayee : CScript) :
    ∀ (n : Nat) (chain : List CBlockIndex),
      CMasternode.UpdateLastPaidLoop env mn mnpayee n chain = mn ∨
      ∃ b ∈ chain, b.nHeight > mn.nBlockLastPaid ∧
        CMasternode.UpdateLastPaidLoop env mn mnpayee n chain =
          { mn with nBlockLastPaid := b.nHeight, nTimeLastPaid := b.nTime } := by
  intro n
  induction n with
  | zero =>
    intro chain; left
    cases chain <;> (unfold CMasternode.UpdateLastPaidLoop; rfl)
  | succ k ih =>
    intro chain
    cases chain with
    | nil => left; unfold CMasternode.UpdateLastPaidLoop; rfl
    | cons b pprev =>
      have hnext : (match pprev with
          | [] => mn
          | _ :: _ => CMasternode.UpdateLastPaidLoop env mn mnpayee k pprev) = mn ∨
          ∃ c ∈ b :: pprev, c.nHeight > mn.nBlockLastPaid ∧
            (match pprev with
              | [] => mn
              | _ :: _ => CMasternode.UpdateLastPaidLoop env mn mnpayee k pprev) =
              { mn with nBlockLastPaid := c.nHeight, nTimeLastPaid := c.nTime } := by
        cases pprev with
        | nil => left; rfl
        | cons d tl =>
          rcases ih (d :: tl) with h | ⟨c, hc, hh, he⟩
          · left; exact h
          · right; exact ⟨c, List.mem_cons_of_mem _ hc, hh, he⟩
      unfold CMasternode.UpdateLastPaidLoop
      by_cases hh : b.nHeight > mn.nBlockLastPaid
      · simp only [hh, decide_True, Bool.not_true, Bool.false_eq_true, if_false]
        split
        · split
          · exact ih (b :: pprev)
          · split
            · right; exact ⟨b, List.mem_cons_self _ _, hh, rfl⟩
            · exact hnext
        · exact hnext
      · left
        simp only [hh, decide_False, Bool.not_false, if_true]

/-- The for statement with its counter has left the loop after at most
nMaxBlocksToScanBack - i iterations, with the result of the scan. -/
theorem UpdateLastPaidFor_exits (env : Env) (mn : CMasternode) (mnpayee : CScript)
    (nMax : Int) :
    ∀ (k : Nat) (i : Int) (chain : List CBlockIndex), (nMax - i).toNat = k →
      CMasternode.UpdateLastPaidFor env mn mnpayee nMax k i chain =
        some (CMasternode.UpdateLastPaidLoop env mn mnpayee k chain) := by
  intro k
  induction k with
  | zero =>
    intro i chain hk
    have hi : ¬ i < nMax := by omega
    cases chain with
    | nil => unfold CMasternode.UpdateLastPaidFor CMasternode.UpdateLastPaidLoop; rfl
    | cons b pprev =>
      unfold CMasternode.UpdateLastPaidFor CMasternode.UpdateLastPaidLoop
      simp [hi]
  | succ k ih =>
    intro i chain hk
    have hi : i < nMax := by omega
    have hk2 : (nMax - (i + 1)).toNat = k := by omega
    cases chain with
    | nil => unfold CMasternode.UpdateLastPaidFor CMasternode.UpdateLastPaidLoop; rfl
    | cons b pprev =>
      unfold CMasternode.UpdateLastPaidFor CMasternode.UpdateLastPaidLoop
      simp only [fun c => ih (i + 1) c hk2, hi, decide_True, Bool.and_true]
      by_cases hh : b.nHeight > mn.nBlockLastPaid
      · simp only [hh, decide_True, Bool.not_true, Bool.false_eq_true, if_false]
        cases pprev <;> cases env.HasPayeeWithVotes b.nHeight mnpayee 2 <;>
          cases env.ReadBlockFromDisk b <;> simp <;> split_ifs <;> rfl
      · simp only [hh, decide_False, Bool.not_false, if_true]

/-- UpdateLastPaid is the scan with a budget of nMaxBlocksToScanBack iterations; on a null
index the scan does nothing. -/
theorem UpdateLastPaid_eq_loop (env : Env) (mn : CMasternode) (pindex : List CBlockIndex)
    (nMax : Int) :
    mn.UpdateLastPaid env pindex nMax =
      CMasternode.UpdateLastPaidLoop env mn (env.scriptForPayee mn.payee) nMax.toNat pindex := by
  unfold CMasternode.UpdateLastPaid
  cases pindex with
  | nil => cases nMax.toNat <;> (unfold CMasternode.UpdateLastPaidLoop; rfl)
  | cons b rest => rfl

/-- On a chain of one block, whose pprev is null, the scan leaves the entry as it was unless
that block pays. -/
theorem UpdateLastPaidLoop_genesis (env : Env) (mn : CMasternode) (mnpayee : CScript)
    (b : CBlockIndex) (hp : b.paysPayee env mnpayee = false) :
    ∀ n : Nat, CMasternode.UpdateLastPaidLoop env mn mnpayee n [b] = mn := by
  unfold CBlockIndex.paysPayee at hp
  intro n
  induction n with
  | zero => unfold CMasternode.UpdateLastPaidLoop; rfl
  | succ k ih =>
    unfold CMasternode.UpdateLastPaidLoop
    cases ht : env.HasPayeeWithVotes b.nHeight mnpayee 2 with
    | false => simp
    | true =>
      rw [ht] at hp
      cases hd : env.ReadBlockFromDisk b with
      | none => simp [ih]
      | some block =>
        rw [hd] at hp
        simp at hp
        simp [hp]

/-- C32: UpdateLastPaid never lowers n_block_last_paid, and when it leaves that field as it
was it leaves n_time_last_paid as it was too.  The for loop with its counter has been left
after at most nMaxBlocksToScanBack iterations, with the result of the call.  A null index,
or a start block at or below n_block_last_paid, changes nothing; and a scan that reaches a
block without pprev that does not pay stops there with the entry as it was. -/
theorem C32_UpdateLastPaid_never_lowers (env : Env) (mn : CMasternode)
    (pindex : List CBlockIndex) (nMax : Int) :
    mn.nBlockLastPaid ≤ (mn.UpdateLastPaid env pindex nMax).nBlockLastPaid ∧
    ((mn.UpdateLastPaid env pindex nMax).nBlockLastPaid = mn.nBlockLastPaid →
      (mn.UpdateLastPaid env pindex nMax).nTimeLastPaid = mn.nTimeLastPaid) ∧
    CMasternode.UpdateLastPaidFor env mn (env.scriptForPayee mn.payee) nMax nMax.toNat 0 pindex =
      some (mn.UpdateLastPaid env pindex nMax) ∧
    (pindex = [] → mn.UpdateLastPaid env pindex nMax = mn) ∧
    (∀ b rest, pindex = b :: rest → b.nHeight ≤ mn.nBlockLastPaid →
      mn.UpdateLastPaid env pindex nMax = mn) ∧
    (∀ b, pindex = [b] → b.paysPayee env (env.scriptForPayee mn.payee) = false →
      mn.UpdateLastPaid env pindex nMax = mn) := by
  have he := UpdateLastPaid_eq_loop env mn pindex nMax
  refine ⟨?_, ?_, ?_, ?_, ?_, ?_⟩
  · rcases UpdateLastPaidLoop_cases env mn (env.scriptForPayee mn.payee) nMax.toNat pindex
      with h | ⟨b, _, hh, h⟩
    · rw [he, h]
    · rw [he, h]; exact le_of_lt hh
  · intro hsame
    rcases UpdateLastPaidLoop_cases env mn (env.scriptForPayee mn.payee) nMax.toNat pindex
      with h | ⟨b, _, hh, h⟩
    · rw [he, h]
    · rw [he, h] at hsame
      exact absurd hsame (ne_of_gt hh)
  · rw [he]
    exact UpdateLastPaidFor_exits env mn _ nMax nMax.toNat 0 pindex (by simp)
  · intro h; rw [h]; rfl
  · intro b rest h hb
    rw [he, h]
    cases nMax.toNat with
    | zero => unfold CMasternode.UpdateLastPaidLoop; rfl
    | succ k =>
      unfold CMasternode.UpdateLastPaidLoop
      simp [not_lt.2 hb]
  · intro b h hp
    rw [he, h]
    exact UpdateLastPaidLoop_genesis env mn _ b hp _

/-- C32 at a concrete input: on the chain 10, 9, 8 with block 10 readable and unpaid the call
raises n_block_last_paid from 0 to 9, and the loop with its counter is left within 5
iterations. -/
theorem C32_witness :
    sampleEntry.nBlockLastPaid ≤
      (sampleEntry.UpdateLastPaid unpaidTipEnv sampleChain 5).nBlockLastPaid ∧
    (sampleEntry.UpdateLastPaid unpaidTipEnv sampleChain 5).nBlockLastPaid = 9 ∧
    CMasternode.UpdateLastPaidFor unpaidTipEnv sampleEntry
      (unpaidTipEnv.scriptForPayee sampleEntry.payee) 5 (5 : Int).toNat 0 sampleChain =
      some (sampleEntry.UpdateLastPaid unpaidTipEnv sampleChain 5) :=
  ⟨(C32_UpdateLastPaid_never_lowers unpaidTipEnv sampleEntry sampleChain 5).1, by decide,
    (C32_UpdateLastPaid_never_lowers unpaidTipEnv sampleEntry sampleChain 5).2.2.1⟩

/-! ## The ban equivalence as an invariant -/

/-- An entry that is not banned and has room below MAX satisfies the ban equivalence. -/
theorem Unbanned_consistent (mn : CMasternode) (h : mn.Unbanned) : mn.BanConsistent := by
  obtain ⟨h1, h2⟩ := h
  exact ⟨le_of_lt h2, fun e => absurd e h1, fun e => absurd e (not_le.2 h2)⟩

/-- Off the allow-list the body of Check leaves the entry as it is. -/
theorem CheckListed_not_listed (env : Env) (mn : CMasternode)
    (hl : ¬ env.IsMNActive mn.pubKeyMasternode = true) :
    CMasternode.CheckListed env mn = mn := by
  unfold CMasternode.CheckListed
  simp [hl]

/-- The body of Check keeps an entry that is not banned and below MAX that way. -/
theorem CheckListed_unbanned (env : Env) (mn : CMasternode) (h : mn.Unbanned) :
    (CMasternode.CheckListed env mn).Unbanned := by
  by_cases hl : env.IsMNActive mn.pubKeyMasternode = true
  · rcases CheckListed_cases env mn hl with ⟨hb, -, -⟩ | ⟨hb, -, -⟩ | ⟨-, hs, -⟩ | ⟨-, -, e⟩
    · exact absurd hb h.1
    · exact absurd hb h.1
    · exact absurd hs (not_le.2 h.2)
    · rw [e]
      refine ⟨CheckStates_not_banned env mn, ?_⟩
      rw [(CheckStates_fields env mn).1]
      exact h.2
  · rw [CheckListed_not_listed env mn hl]; exact h

theorem Check_unbanned (env : Env) (fForce : Bool) (mn : CMasternode) (h : mn.Unbanned) :
    (mn.Check env fForce).Unbanned := by
  rcases Check_cases env fForce mn with e | e
  · rw [e]; exact h
  · rw [e]; exact CheckListed_unbanned env _ h

/-- The body of Check preserves the ban equivalence. -/
theorem CheckListed_consistent (env : Env) (mn : CMasternode) (h : mn.BanConsistent) :
    (CMasternode.CheckListed env mn).BanConsistent := by
  by_cases hl : env.IsMNActive mn.pubKeyMasternode = true
  · rcases CheckListed_cases env mn hl with ⟨-, -, e⟩ | ⟨hb, -, e⟩ | ⟨hb, hs, -⟩ | ⟨hb, hs, e⟩
    · rw [e]; exact h
    · rw [e]
      apply Unbanned_consistent
      refine ⟨CheckStates_not_banned env _, ?_⟩
      have h5 : mn.nPoSeBanScore = MASTERNODE_POSE_BAN_MAX_SCORE :=
        le_antisymm h.1 (h.2.1 hb)
      rw [(CheckStates_fields env _).1, DecreasePoSeBanScore_of_gt _ (by rw [h5]; decide), h5]
      decide
    · exact absurd (h.2.2 hs) hb
    · rw [e]
      apply Unbanned_consistent
      refine ⟨CheckStates_not_banned env mn, ?_⟩
      rw [(CheckStates_fields env mn).1]
      exact hs
  · rw [CheckListed_not_listed env mn hl]; exact h

/-- Check preserves the ban equivalence in every context. -/
theorem Check_consistent (env : Env) (fForce : Bool) (mn : CMasternode) (h : mn.BanConsistent) :
    (mn.Check env fForce).BanConsistent := by
  rcases Check_cases env fForce mn with e | e
  · rw [e]; exact h
  · rw [e]; exact CheckListed_consistent env _ h

/-- The last lines of UpdateFromNewBroadcast keep an entry that is not banned and below MAX
that way. -/
theorem finishMerge_unbanned (env : Env) (w : World) (mn : CMasternode) (h : mn.Unbanned) :
    (mn.finishMerge env w).mn.Unbanned := by
  unfold CMasternode.finishMerge
  dsimp only
  have hneg : (-MASTERNODE_POSE_BAN_MAX_SCORE : Int) < MASTERNODE_POSE_BAN_MAX_SCORE := by
    decide
  split_ifs
  · exact ⟨h.1, hneg⟩
  · exact ⟨h.1, hneg⟩
  · exact h

/-- UpdateFromNewBroadcast on an entry that is not POSE_BAN returns the entry itself or an
entry that is not banned and below MAX. -/
theorem UpdateFromNewBroadcast_unbanned (env : Env) (w : World) (mn : CMasternode)
    (mnb : CMasternodeBroadcast) (hb : mn.nActiveState ≠ MASTERNODE_POSE_BAN) :
    ∃ m, mn.UpdateFromNewBroadcast env w mnb = some m ∧ (m.mn = mn ∨ m.mn.Unbanned) := by
  unfold CMasternode.UpdateFromNewBroadcast
  have hzero : (0 : Int) < MASTERNODE_POSE_BAN_MAX_SCORE := by decide
  have h0 : CMasternode.Unbanned
      { mn with pubKeyMasternode := mnb.pubKeyMasternode, sigTime := mnb.sigTime,
                vchSig := mnb.vchSig, nProtocolVersion := mnb.nProtocolVersion,
                addr := mnb.addr, nPoSeBanScore := 0, nPoSeBanHeight := 0,
                nTimeLastChecked := 0 } := ⟨hb, hzero⟩
  split_ifs with h1 h2
  · exact ⟨_, rfl, Or.inl rfl⟩
  · exact ⟨_, rfl, Or.inr (finishMerge_unbanned _ _ _ h0)⟩
  · dsimp only
    obtain ⟨c, hc, hp | hp⟩ := CheckAndUpdate_entry env w mnb.lastPing
      { mn with pubKeyMasternode := mnb.pubKeyMasternode, sigTime := mnb.sigTime,
                vchSig := mnb.vchSig, nProtocolVersion := mnb.nProtocolVersion,
                addr := mnb.addr, nPoSeBanScore := 0, nPoSeBanHeight := 0,
                nTimeLastChecked := 0 } true
    · rw [hc]
      dsimp only
      rw [hp]
      split_ifs
      · exact ⟨_, rfl, Or.inr (finishMerge_unbanned _ _ _ h0)⟩
      · exact ⟨_, rfl, Or.inr (finishMerge_unbanned _ _ _ h0)⟩
    · have h1 : (CMasternode.Check env true
          { ({ mn with pubKeyMasternode := mnb.pubKeyMasternode, sigTime := mnb.sigTime,
                       vchSig := mnb.vchSig, nProtocolVersion := mnb.nProtocolVersion,
                       addr := mnb.addr, nPoSeBanScore := 0, nPoSeBanHeight := 0,
                       nTimeLastChecked := 0 } : CMasternode) with
              lastPing := mnb.lastPing }).Unbanned :=
        Check_unbanned env true _ ⟨hb, hzero⟩
      rw [hc]
      dsimp only
      rw [hp]
      split_ifs
      · exact ⟨_, rfl, Or.inr (finishMerge_unbanned _ _ _ h1)⟩
      · exact ⟨_, rfl, Or.inr (finishMerge_unbanned _ _ _ h1)⟩

/-- Update preserves the ban equivalence in every context. -/
theorem Update_consistent (env : Env) (w : World) (mnb : CMasternodeBroadcast)
    (pmn : CMasternode) (h : pmn.BanConsistent) :
    ∃ r, mnb.Update env w pmn = some r ∧ r.pmn.BanConsistent := by
  have hc := Check_consistent env false pmn h
  by_cases hne : (pmn.sigTime = mnb.sigTime ∧ mnb.fRecovery = false) ∨ pmn.sigTime > mnb.sigTime
  · exact ⟨_, Update_early env w mnb pmn hne, h⟩
  by_cases hb : (pmn.Check env false).IsPoSeBanned = true
  · exact ⟨_, Update_banned env w mnb pmn hne hb, hc⟩
  have hb2 : (pmn.Check env false).IsPoSeBanned = false := by simpa using hb
  by_cases hp : pmn.payee = mnb.payee
  swap
  · exact ⟨_, Update_payee env w mnb pmn hne hb2 hp, hc⟩
  by_cases hs : env.VerifyMessage mnb.pubKeyMasternode mnb.vchSig (mnb.strMessage env) = true
  swap
  · exact ⟨_, Update_badsig env w mnb pmn hne hb2 hp (by simpa using hs), hc⟩
  by_cases hg : (!(pmn.Check env false).IsBroadcastedWithin env MASTERNODE_MIN_MNB_SECONDS ||
      (env.fMasterNode && (mnb.pubKeyMasternode == env.activePubKeyMasternode))) = true
  · have hnb : (pmn.Check env false).nActiveState ≠ MASTERNODE_POSE_BAN := by
      unfold CMasternode.IsPoSeBanned at hb2
      simpa using hb2
    obtain ⟨m, hm, hcase⟩ := UpdateFromNewBroadcast_unbanned env w (pmn.Check env false) mnb hnb
    have hmc : m.mn.BanConsistent := by
      rcases hcase with e | e
      · rw [e]; exact hc
      · exact Unbanned_consistent _ e
    refine ⟨_, Update_gate_open env w mnb pmn m hne hb2 hp hs hg hm, ?_⟩
    dsimp only
    split_ifs
    · exact Check_consistent env false _ hmc
    · exact hmc
  · exact ⟨_, Update_gate_closed env w mnb pmn hne hb2 hp hs (by simpa using hg), hc⟩

/-- CheckAndUpdate preserves the ban equivalence in every context. -/
theorem CheckAndUpdate_consistent (env : Env) (w : World) (mnp : CMasternodePing)
    (mn : CMasternode) (f : Bool) (h : mn.BanConsistent) :
    ∃ r, mnp.CheckAndUpdate env w (some mn) f = some r ∧
      ∃ e, r.pmn = some e ∧ e.BanConsistent := by
  obtain ⟨r, hr, hp | hp⟩ := CheckAndUpdate_entry env w mnp mn f
  · exact ⟨r, hr, mn, hp, h⟩
  · exact ⟨r, hr, _, hp, Check_consistent env true _ h⟩

end Masternode
